import Mathlib

/-!
# bit2txt: a shallow embedding of the Spartan-6 bitstream decoder

The development follows `src/bit2txt.c`.  The decoding part of `main` (everything after the
file has been read into memory) is translated function by function, loop by loop:

* the loaded file is a `Bitstream`: the byte memory `bit_data` and the number of bytes
  read, `bit_eof`;
* `uint32_t` / `uint16_t` arithmetic is arithmetic on `Nat` reduced modulo `2^32` / `2^16`
  at every operation the C code performs in that type;
* `goto fail` and `goto fail_eof` are the `Except.error` results that carry the message
  written to `stderr`; the lines written to `stdout` are the `Msg` records returned by a
  run that gets through;
* a read of `bit_data` at an index that is not below `bit_eof` yields a byte that the file
  does not determine (the buffer of `BITSTREAM_MAX` bytes is not initialised there, and the
  read is outside the buffer from `BITSTREAM_MAX` on), and a dereference of a null `char*`
  table entry has no defined result in C; the embedding stops at the first such access
  with `Err.oob` resp. `Err.null_deref`. A result `Err.oob` says that the program reads
  outside the file at that point, not that it reports an error there; what a run prints
  and which error it reports is stated for the runs whose reads stay in the file.
-/

namespace Bit2txt

/-! ## Machine integers -/

/-- Reduction of a value to `uint32_t`. -/
def u32 (x : Nat) : Nat := x % 4294967296

/-- Reduction of a value to `uint16_t`. -/
def u16 (x : Nat) : Nat := x % 65536

/-- Source `__swab16`. -/
def __swab16 (x : Nat) : Nat :=
  ((x &&& 0x00ff) <<< 8) ||| ((x &&& 0xff00) >>> 8)

/-- Source `__swab32`. -/
def __swab32 (x : Nat) : Nat :=
  ((x &&& 0x000000ff) <<< 24) ||| ((x &&& 0x0000ff00) <<< 8) |||
  ((x &&& 0x00ff0000) >>> 8) ||| ((x &&& 0xff000000) >>> 24)

/-- Source `u16 &= ~m` on a `uint16_t`. -/
def clr16 (x m : Nat) : Nat := x &&& (0xFFFF ^^^ m)

/-- `BITSTREAM_READ_MAXPAGES * BITSTREAM_READ_PAGESIZE`. -/
def BITSTREAM_MAX : Nat := 30000 * 4096

/-! ## The loaded file -/

/-- The file in memory: `bit_data[i]` for `i < bit_eof` are the bytes read from the file. -/
structure Bitstream where
  bit_eof : Nat
  bit_data : Nat → Nat

/-- A file given by the list of its bytes. -/
def Bitstream.ofBytes (l : List Nat) : Bitstream :=
  { bit_eof := l.length, bit_data := fun i => l.getD i 0 }

/-- What leaves the decoder other than by running through: the `#E` message written to
`stderr` before `goto fail`, `goto fail_eof`, or an access without a defined result. -/
inductive Err
  /-- Source line 295: `#E Bitstream size above maximum of %i bytes.` -/
  | size_above_max
  /-- Source line 309: `#E File size %i below minimum of 13 bytes.` -/
  | size_below_min (bit_eof : Nat)
  /-- Source lines 322 and 332: `#E Unexpected EOF at %i.` -/
  | eof_at (bit_eof : Nat)
  /-- Source line 326: `#E Expected string code '%c', got '%c'.` -/
  | string_code (expected got : Nat)
  /-- Source line 336: `#E z-terminated string ends with %0xh.` -/
  | zterm (got : Nat)
  /-- Source line 350: `#E Expected string code 'e', got '%c'.` -/
  | string_code_e (got : Nat)
  /-- Label `fail_eof`: `#E Unexpected EOF.` -/
  | unexpected_eof
  /-- Source line 377: `#E Unexpected sync word 0x%x.` -/
  | sync_word (got : Nat)
  /-- Source line 395: `#E 0x%x=0x%x Unexpected packet type %u.` -/
  | packet_type (off hdr type : Nat)
  /-- Source line 403: `#E 0x%x=0x%x Unexpected packet opcode 3.` -/
  | packet_opcode (off hdr : Nat)
  /-- The ten `#E 0x%x=0x%x Unexpected <REG> wordcount %u.` messages. -/
  | wordcount (reg : String) (off hdr wordcount : Nat)
  /-- Source line 648: `#E 0x%x=0x%x Unexpected MFWR data 0x%x 0x%x.` -/
  | mfwr_data (off hdr first_dword second_dword : Nat)
  /-- Source line 817: `#E 0x%x=0x%x Unexpected Type 2 register.` -/
  | type2_register (off hdr : Nat)
  /-- Source line 828: `#E 0x%x=0x%x Unexpected Type2 length %u.` -/
  | type2_length (off hdr len : Nat)
  /-- A read of `bit_data[idx]` with `idx` not below `bit_eof`. -/
  | oob (idx : Nat)
  /-- A dereference of a table entry whose `char*` is null. -/
  | null_deref
  /-- The embedding ran out of loop fuel (no counterpart in the source). -/
  | out_of_fuel
  deriving DecidableEq, Repr

deriving instance DecidableEq for Except

/-- The error is one of the two unexpected-EOF messages. -/
def Err.isEof : Err → Bool
  | .eof_at _ => true
  | .unexpected_eof => true
  | _ => false

/-- The error is a fatal `#E` exit of the program (`goto fail` or `goto fail_eof`). -/
def Err.isFatal : Err → Bool
  | .oob _ => false
  | .null_deref => false
  | .out_of_fuel => false
  | _ => true

/-- One byte of the file; an index outside the file has no defined value. -/
def rd8 (b : Bitstream) (i : Nat) : Except Err Nat :=
  if i < b.bit_eof then .ok (b.bit_data i % 256) else .error (.oob i)

/-- Source `__be16_to_cpu(*(uint16_t*)&bit_data[i])` on the little-endian host the macros
are written for: the two bytes are loaded low byte first and swapped. -/
def be16 (b : Bitstream) (i : Nat) : Except Err Nat := do
  let b0 ← rd8 b i
  let b1 ← rd8 b (i + 1)
  pure (__swab16 (b0 + 256 * b1))

/-- Source `__be32_to_cpu(*(uint32_t*)&bit_data[i])`, as `be16`. -/
def be32 (b : Bitstream) (i : Nat) : Except Err Nat := do
  let b0 ← rd8 b i
  let b1 ← rd8 b (i + 1)
  let b2 ← rd8 b (i + 2)
  let b3 ← rd8 b (i + 3)
  pure (__swab32 (b0 + 256 * b1 + 65536 * b2 + 16777216 * b3))

/-- The bytes `bit_data[i .. i+n-1]`, read in increasing order. -/
def rdN (b : Bitstream) (i : Nat) : Nat → Except Err (List Nat)
  | 0 => pure []
  | n + 1 => do
    let x ← rd8 b i
    let xs ← rdN b (i + 1) n
    pure (x :: xs)

/-! ## The static tables -/

def CRC : Nat := 0

def FAR_MAJ : Nat := 1

def FAR_MIN : Nat := 2

def FDRI : Nat := 3

def FDRO : Nat := 4

def CMD : Nat := 5

def CTL : Nat := 6

def MASK : Nat := 7

def STAT : Nat := 8

def LOUT : Nat := 9

def COR1 : Nat := 10

def COR2 : Nat := 11

def PWRDN_REG : Nat := 12

def FLR : Nat := 13

def IDCODE : Nat := 14

def CWDT : Nat := 15

def HC_OPT_REG : Nat := 16

def CSBO : Nat := 18

def GENERAL1 : Nat := 19

def GENERAL2 : Nat := 20

def GENERAL3 : Nat := 21

def GENERAL4 : Nat := 22

def GENERAL5 : Nat := 23

def MODE_REG : Nat := 24

def PU_GWE : Nat := 25

def PU_GTS : Nat := 26

def MFWR : Nat := 27

def CCLK_FREQ : Nat := 28

def SEU_OPT : Nat := 29

def EXP_SIGN : Nat := 30

def RDBK_SIGN : Nat := 31

def BOOTSTS : Nat := 32

def EYE_MASK : Nat := 33

def CBC_REG : Nat := 34

def REG_R : Nat := 0x01

def REG_W : Nat := 0x02

def REG_RW : Nat := REG_R ||| REG_W

/-- Source `REG_INFO`; a `name` of `none` is the null pointer of an entry that the
designated initialisers of `xc6_regs` leave zero-filled. -/
structure REG_INFO where
  name : Option String
  rw : Nat
  deriving DecidableEq, Repr

/-- Source `xc6_regs`: 35 entries, index `CRC` to `CBC_REG`; index 17 has no initialiser. -/
def xc6_regs : List REG_INFO :=
  [ ⟨some "CRC", REG_W⟩, ⟨some "FAR_MAJ", REG_W⟩, ⟨some "FAR_MIN", REG_W⟩,
    ⟨some "FDRI", REG_W⟩, ⟨some "FDRO", REG_R⟩, ⟨some "CMD", REG_RW⟩,
    ⟨some "CTL", REG_RW⟩, ⟨some "MASK", REG_RW⟩, ⟨some "STAT", REG_R⟩,
    ⟨some "LOUT", REG_W⟩, ⟨some "COR1", REG_RW⟩, ⟨some "COR2", REG_RW⟩,
    ⟨some "PWRDN_REG", REG_RW⟩, ⟨some "FLR", REG_W⟩, ⟨some "IDCODE", REG_RW⟩,
    ⟨some "CWDT", REG_RW⟩, ⟨some "HC_OPT_REG", REG_RW⟩, ⟨none, 0⟩,
    ⟨some "CSBO", REG_W⟩, ⟨some "GENERAL1", REG_RW⟩, ⟨some "GENERAL2", REG_RW⟩,
    ⟨some "GENERAL3", REG_RW⟩, ⟨some "GENERAL4", REG_RW⟩, ⟨some "GENERAL5", REG_RW⟩,
    ⟨some "MODE_REG", REG_RW⟩, ⟨some "PU_GWE", REG_W⟩, ⟨some "PU_GTS", REG_W⟩,
    ⟨some "MFWR", REG_W⟩, ⟨some "CCLK_FREQ", REG_W⟩, ⟨some "SEU_OPT", REG_RW⟩,
    ⟨some "EXP_SIGN", REG_RW⟩, ⟨some "RDBK_SIGN", REG_W⟩, ⟨some "BOOTSTS", REG_R⟩,
    ⟨some "EYE_MASK", REG_RW⟩, ⟨some "CBC_REG", REG_W⟩ ]

/-- Source `idcodes`: device name and code. -/
def idcodes : List (String × Nat) :=
  [ ("XC6SLX4", 0x04000093), ("XC6SLX9", 0x04001093), ("XC6SLX16", 0x04002093),
    ("XC6SLX25", 0x04004093), ("XC6SLX25T", 0x04024093), ("XC6SLX45", 0x04008093),
    ("XC6SLX45T", 0x04028093), ("XC6SLX75", 0x0400E093), ("XC6SLX75T", 0x0402E093),
    ("XC6SLX100", 0x04011093), ("XC6SLX100T", 0x04031093), ("XC6SLX150", 0x0401D093) ]

/-- Source `cmds`: 15 entries, index `CMD_NULL` (0) to `CMD_IPROG` (14); the indices 6, 9
and 12 have no initialiser and hold the null pointer (`none`). -/
def cmds : List (Option String) :=
  [ some "NULL", some "WCFG", some "MFW", some "LFRM", some "RCFG", some "START", none,
    some "RCRC", some "AGHIGH", none, some "GRESTORE", some "SHUTDOWN", none,
    some "DESYNC", some "IPROG" ]

/-- Source `majors`: name and number of minors of the 18 majors. -/
def majors : List (String × Nat) :=
  [ ("unknown", 4), ("unknown", 30), ("unknown", 31), ("unknown", 30), ("unknown", 25),
    ("unknown", 31), ("unknown", 30), ("unknown", 24), ("unknown", 31), ("unknown", 31),
    ("unknown", 31), ("unknown", 30), ("unknown", 31), ("unknown", 30), ("unknown", 25),
    ("unknown", 31), ("unknown", 30), ("unknown", 30) ]

/-- Source `ram_starts` (local to the second frame loop). -/
def ram_starts : List Nat :=
  [152, 170, 188, 206, 296, 314, 332, 350, 440, 458, 476, 494]

/-- Source `bitstr`: `0b` followed by the lowest `digits` bits of `value`, highest first. -/
def bitstr (value digits : Nat) : String :=
  String.mk ('0' :: 'b' ::
    (List.range digits).reverse.map (fun i => if value &&& (1 <<< i) ≠ 0 then '1' else '0'))

/-! ## Output records -/

/-- One record written to `stdout`, named after its leading token, with the arguments of
the `printf` calls that build it. -/
inductive Msg
  /-- `bit2txt_format 1` -/
  | bit2txt_format
  /-- `hex` followed by ` %.02x` for each byte (preamble and bytes before the sync word). -/
  | hex (bytes : List Nat)
  /-- `header_str_%c %s` -/
  | header_str (tag : Nat) (str : List Nat)
  /-- `#W Unexpected continuation after offset %i.` -/
  | W_continuation (off : Nat)
  /-- `#I sync word at offset 0x%x.` -/
  | I_sync_word (off : Nat)
  /-- `sync_word` -/
  | sync_word
  /-- `#I Packet header at off 0x%x.` -/
  | I_packet_header (off : Nat)
  /-- `#W 0x%x=0x%x Unexpected packet type %u noop.` -/
  | W_noop_type (off hdr type : Nat)
  /-- `#W 0x%x=0x%x Unexpected noop header.` -/
  | W_noop_header (off hdr : Nat)
  /-- `noop` -/
  | noop
  /-- `#W 0x%x=0x%x unknown T1 reg %u, skipping %d words.` -/
  | W_unknown_reg (off hdr reg wordcount : Nat)
  /-- `T1 IDCODE %s` -/
  | T1_IDCODE (name : String)
  /-- `#W Unknown IDCODE 0x%x.` -/
  | W_unknown_idcode (v : Nat)
  /-- `#W Unexpected revision bits in IDCODE 0x%x.` -/
  | W_revision_bits (v : Nat)
  /-- `#W 0x%x=0x%x Unknown CMD.` -/
  | W_unknown_cmd (off v : Nat)
  /-- `T1 CMD %s` -/
  | T1_CMD (name : String)
  /-- `T1 FLR %u` -/
  | T1_FLR (v : Nat)
  /-- `T1 <REG>`, the flag tokens in the order printed, then ` 0x%x` with the remainder
  when it is not zero (COR1, COR2, CTL, MASK, PWRDN_REG, HC_OPT_REG). -/
  | T1 (reg : String) (flags : List String) (remainder : Option Nat)
  /-- `#W Unexpected SSCLKSRC 11.` -/
  | W_ssclksrc11
  /-- `#W Expected reserved 0x%x, got 0x%x.` -/
  | W_reserved (expected got : Nat)
  /-- `#W Unexpected DONE_CYCLE %s.` -/
  | W_done_cycle (bits : String)
  /-- `#W Unexpected LCK_CYCLE 0b000.` -/
  | W_lck_cycle
  /-- `#W Expected reserved 0, got 0x%x.` -/
  | W_reserved0 (got : Nat)
  /-- `T1 FAR_MAJ BLK=%u ROW=%u MAJOR=%u BRAM=%u MINOR=%u`, then ` 0x%x` when not zero. -/
  | T1_FAR_MAJ (blk row major bram minor : Nat) (remainder : Option Nat)
  /-- `#W Unexpected BLK bit 4 set.` -/
  | W_blk_bit4
  /-- `T1 MFWR` -/
  | T1_MFWR
  /-- `#W T1 %s (%u words)` followed by ` 0x%x` for each of the first words. -/
  | W_T1 (name : String) (wordcount : Nat) (words : List Nat)
  /-- `#W 0x%x=0x%x Unexpected Type 2 wordcount.` -/
  | W_type2_wordcount (off hdr : Nat)
  /-- `T2 FDRI` -/
  | T2_FDRI
  /-- `#D row %i` -/
  | D_row (row : Nat)
  /-- `#D major %i (%i minors) %s` -/
  | D_major (j minors : Nat) (name : String)
  /-- `frame_130 all_0` -/
  | frame_130_all_0
  /-- `frame_130 all_1` -/
  | frame_130_all_1
  /-- `frame_64 all_0` -/
  | frame_64_all_0
  /-- `frame_64 all_1` -/
  | frame_64_all_1
  /-- `frame_64` followed by ` %02x` for each of the 64 bytes. -/
  | frame_64 (bytes : List Nat)
  /-- `frame_2 0x%04x` -/
  | frame_2 (w : Nat)
  /-- `#D 2020 - content start` -/
  | D_content_start
  /-- `RAMB16_X0Y%i data` -/
  | RAMB16_data (y : Nat)
  /-- `ramb16_head` followed by ` %02x` for each of the 18 bytes. -/
  | ramb16_head (bytes : List Nat)
  /-- `ramb16_tail` followed by ` %02x` for each of the 18 bytes. -/
  | ramb16_tail (bytes : List Nat)
  /-- `initp_%02i "%s"` -/
  | initp (j : Nat) (init_str : List Char)
  /-- `init_%02i "%s"` -/
  | init (j : Nat) (init_str : List Char)
  /-- `frame_130 %i off 0x%xh (%i)` -/
  | frame_130 (idx off : Nat)
  /-- One line of `hexdump`: the offset, printed with `width` hex digits, and its bytes. -/
  | hexdump_line (width off : Nat) (bytes : List Nat)
  /-- `#D hexdump offset 0x%x, len 0x%x (%i)` -/
  | D_hexdump (off len : Nat)
  /-- `#I 0x%x=0x%x Ignoring Auto-CRC.` -/
  | I_auto_crc (off v : Nat)
  deriving DecidableEq, Repr

/-! ## hexdump -/

/-- The lines of source `hexdump`, from line offset `i` on; `n` is the number of lines
left, `data` the index of `data[0]` in `bit_data`. -/
def hexdump_lines (b : Bitstream) (data len width : Nat) : Nat → Nat → Except Err (List Msg)
  | 0, _ => pure []
  | n + 1, i => do
    let bytes ← rdN b (data + i) (min 8 (len - i))
    let rest ← hexdump_lines b data len width n (i + 8)
    pure (Msg.hexdump_line width i bytes :: rest)

/-- Source `hexdump(&bit_data[data], len)`. -/
def hexdump (b : Bitstream) (data len : Nat) : Except Err (List Msg) :=
  let width := if len ≤ 0x100 then 2 else if len ≤ 0x10000 then 4 else 6
  hexdump_lines b data len width ((len + 7) / 8) 0

/-! ## Container: header strings, command block, sync word -/

/-- The bytes that `printf("%s", &bit_data[i])` prints: from `i` up to the first NUL byte.
With `n = bit_eof - i` the fuel cannot run out: the read at `bit_eof` stops the run. -/
def cstr (b : Bitstream) : Nat → Nat → Except Err (List Nat)
  | 0, i => do
    let x ← rd8 b i
    if x = 0 then pure [] else throw Err.out_of_fuel
  | n + 1, i => do
    let x ← rd8 b i
    if x = 0 then pure [] else do
      let xs ← cstr b n (i + 1)
      pure (x :: xs)

/-- One iteration of the loop over the string codes `'a'` to `'d'` (source lines 321-341):
the new `bit_cur` and the `header_str_<i>` record. -/
def header_string (b : Bitstream) (bit_cur i : Nat) : Except Err (Nat × Msg) := do
  if b.bit_eof < u32 (bit_cur + 3) then throw (Err.eof_at b.bit_eof)
  let code ← rd8 b bit_cur
  if code ≠ i then throw (Err.string_code i code)
  let str_len ← be16 b (u32 (bit_cur + 1))
  if b.bit_eof < u32 (bit_cur + 3 + str_len) then throw (Err.eof_at b.bit_eof)
  let last ← rd8 b (u32 (bit_cur + 3 + str_len - 1))
  if last ≠ 0 then throw (Err.zterm last)
  let str ← cstr b (b.bit_eof - u32 (bit_cur + 3)) (u32 (bit_cur + 3))
  pure (u32 (bit_cur + 3 + str_len), Msg.header_str i str)

/-- The loop `for (i = 'a'; i <= 'd'; i++)`: `n` iterations are left. -/
def header_strings (b : Bitstream) : Nat → Nat → Nat → Except Err (Nat × List Msg)
  | 0, bit_cur, _ => pure (bit_cur, [])
  | n + 1, bit_cur, i => do
    let (cur, m) ← header_string b bit_cur i
    let (cur2, ms) ← header_strings b n cur (i + 1)
    pure (cur2, m :: ms)

/-- The loop that prints the bytes before the first `0xAA` (source lines 366-369). -/
def skip_to_sync (b : Bitstream) : Nat → Nat → Except Err (Nat × List Nat)
  | 0, _ => throw Err.out_of_fuel
  | n + 1, bit_cur =>
    if bit_cur < b.bit_eof then do
      let x ← rd8 b bit_cur
      if x ≠ 0xAA then
        if u32 (bit_cur + 1) ≥ b.bit_eof then throw Err.unexpected_eof
        else do
          let (cur, xs) ← skip_to_sync b n (u32 (bit_cur + 1))
          pure (cur, x :: xs)
      else pure (bit_cur, [])
    else pure (bit_cur, [])

/-- The command block header and the sync word (source lines 348-380): the `bit_cur` at
which the packet loop starts, and the records printed. -/
def commands (info : Bool) (b : Bitstream) (bit_cur : Nat) : Except Err (Nat × List Msg) := do
  if u32 (bit_cur + 5) > b.bit_eof then throw Err.unexpected_eof
  let code ← rd8 b bit_cur
  if code ≠ 'e'.toNat then throw (Err.string_code_e code)
  let cmd_len ← be32 b (u32 (bit_cur + 1))
  let bit_cur := u32 (bit_cur + 5)
  if u32 (bit_cur + cmd_len) > b.bit_eof then throw Err.unexpected_eof
  let w := if u32 (bit_cur + cmd_len) < b.bit_eof
    then [Msg.W_continuation (u32 (bit_cur + 5 + cmd_len))] else []
  if bit_cur ≥ b.bit_eof then throw Err.unexpected_eof
  let first ← rd8 b bit_cur
  let (bit_cur, h) ← if first ≠ 0xAA then do
      let (cur, xs) ← skip_to_sync b (b.bit_eof - bit_cur + 1) bit_cur
      pure (cur, [Msg.hex xs])
    else pure (bit_cur, [])
  if u32 (bit_cur + 4) > b.bit_eof then throw Err.unexpected_eof
  let i := if info then [Msg.I_sync_word bit_cur] else []
  let v ← be32 b bit_cur
  let bit_cur := u32 (bit_cur + 4)
  if v ≠ 0xAA995566 then throw (Err.sync_word v)
  pure (bit_cur, w ++ h ++ i ++ [Msg.sync_word])

/-! ## Type-1 register decoders -/

/-- The pattern `if (u16 & m) { printf(" <name>"); u16 &= ~m; }`: the token printed, if
any, and the new `u16`. -/
def flag (v m : Nat) (name : String) : List String × Nat :=
  if v &&& m ≠ 0 then ([name], clr16 v m) else ([], v)

/-- The test `xc6_regs[reg].name[0] == 0`. -/
def reg_name_empty (reg : Nat) : Except Err Bool :=
  match (xc6_regs.getD reg ⟨none, 0⟩).name with
  | none => throw Err.null_deref
  | some s => pure (decide (s = ""))

/-- The IDCODE payload (source lines 445-454). -/
def idcode (v : Nat) : List Msg :=
  match idcodes.find? (fun e => (v &&& 0x0FFFFFFF) == e.2) with
  | some e => Msg.T1_IDCODE e.1 :: (if v &&& 0xF0000000 ≠ 0 then [Msg.W_revision_bits v] else [])
  | none => [Msg.W_unknown_idcode v]

/-- IDCODE (source lines 437-456). -/
def t1_idcode (b : Bitstream) (u16_off hdr wordcount : Nat) : Except Err (List Msg) := do
  if wordcount ≠ 2 then throw (Err.wordcount "IDCODE" u16_off hdr wordcount)
  let v ← be32 b (u32 (u16_off + 2))
  pure (idcode v)

/-- CMD (source lines 457-473). -/
def t1_cmd (b : Bitstream) (u16_off hdr wordcount : Nat) : Except Err (List Msg) := do
  if wordcount ≠ 1 then throw (Err.wordcount "CMD" u16_off hdr wordcount)
  let v ← be16 b (u32 (u16_off + 2))
  let u16_off := u32 (u16_off + 2)
  if v ≥ cmds.length then pure [Msg.W_unknown_cmd u16_off v]
  else match cmds.getD v none with
    | none => throw Err.null_deref
    | some s => if s = "" then pure [Msg.W_unknown_cmd u16_off v] else pure [Msg.T1_CMD s]

/-- FLR (source lines 474-490). -/
def t1_flr (b : Bitstream) (u16_off hdr wordcount : Nat) : Except Err (List Msg) := do
  if wordcount ≠ 1 then throw (Err.wordcount "FLR" u16_off hdr wordcount)
  let v ← be16 b (u32 (u16_off + 2))
  pure [Msg.T1_FLR v]

/-- The COR1 payload (source lines 502-536). -/
def cor1 (v : Nat) : List Msg :=
  let (f1, v) := flag v 0x8000 "DRIVE_AWAKE"
  let (f2, v) := flag v 0x0010 "CRC_BYPASS"
  let (f3, v) := flag v 0x0008 "DONE_PIPE"
  let (f4, v) := flag v 0x0004 "DRIVE_DONE"
  let (f5, unexpected_clk11, v) :=
    if v &&& 0x0003 ≠ 0 then
      if v &&& 0x0002 ≠ 0 then (["SSCLKSRC=TCK"], decide (v &&& 0x0001 ≠ 0), clr16 v 0x0003)
      else (["SSCLKSRC=UserClk"], false, clr16 v 0x0003)
    else ([], false, v)
  [Msg.T1 "COR1" (f1 ++ f2 ++ f3 ++ f4 ++ f5) (if v ≠ 0 then some v else none)]
    ++ (if unexpected_clk11 then [Msg.W_ssclksrc11] else [])
    ++ (if v ≠ 0x3700 then [Msg.W_reserved 0x3700 v] else [])

/-- COR1 (source lines 491-539). -/
def t1_cor1 (b : Bitstream) (u16_off hdr wordcount : Nat) : Except Err (List Msg) := do
  if wordcount ≠ 1 then throw (Err.wordcount "COR1" u16_off hdr wordcount)
  let v ← be16 b (u32 (u16_off + 2))
  pure (cor1 v)

/-- The COR2 payload (source lines 553-594). -/
def cor2 (v : Nat) : List Msg :=
  let (f1, v) := flag v 0x8000 "RESET_ON_ERROR"
  let cycle := (v &&& 0x0E00) >>> 9
  let f2 := "DONE_CYCLE=" ++ bitstr cycle 3
  let unexpected_done_cycle := decide (cycle = 0 ∨ cycle = 7)
  let v := clr16 v 0x0E00
  let cycle := (v &&& 0x01C0) >>> 6
  let f3 := "LCK_CYCLE=" ++ bitstr cycle 3
  let unexpected_lck_cycle := decide (cycle = 0)
  let v := clr16 v 0x01C0
  let cycle := (v &&& 0x0038) >>> 3
  let f4 := "GTS_CYCLE=" ++ bitstr cycle 3
  let v := clr16 v 0x0038
  let cycle := v &&& 0x0007
  let f5 := "GWE_CYCLE=" ++ bitstr cycle 3
  let v := clr16 v 0x0007
  [Msg.T1 "COR2" (f1 ++ [f2, f3, f4, f5]) (if v ≠ 0 then some v else none)]
    ++ (if unexpected_done_cycle then [Msg.W_done_cycle (bitstr ((v &&& 0x01C0) >>> 6) 3)] else [])
    ++ (if unexpected_lck_cycle then [Msg.W_lck_cycle] else [])
    ++ (if v ≠ 0 then [Msg.W_reserved0 v] else [])

/-- COR2 (source lines 540-596). -/
def t1_cor2 (b : Bitstream) (u16_off hdr wordcount : Nat) : Except Err (List Msg) := do
  if wordcount ≠ 1 then throw (Err.wordcount "COR2" u16_off hdr wordcount)
  let v ← be16 b (u32 (u16_off + 2))
  pure (cor2 v)

/-- FAR_MAJ with two words (source lines 597-635). -/
def t1_far_maj (b : Bitstream) (u16_off : Nat) : Except Err (List Msg) := do
  let maj ← be16 b (u32 (u16_off + 2))
  let min ← be16 b (u32 (u16_off + 4))
  let blk := (maj &&& 0xF000) >>> 12
  let unexpected_blk_bit4 := decide (blk > 7)
  let row := (maj &&& 0x0F00) >>> 8
  let major := maj &&& 0x00FF
  let bram := (min &&& 0xC000) >>> 14
  let minor := min &&& 0x03FF
  pure ([Msg.T1_FAR_MAJ blk row major bram minor
          (if min &&& 0x3C00 ≠ 0 then some (min &&& 0x3C00) else none)]
    ++ (if unexpected_blk_bit4 then [Msg.W_blk_bit4] else [])
    ++ (if min &&& 0x3C00 ≠ 0
        then [Msg.W_reserved0 (if (min &&& 0x3C00) > 10 then 1 else 0)] else []))

/-- MFWR (source lines 636-655). -/
def t1_mfwr (b : Bitstream) (u16_off hdr wordcount : Nat) : Except Err (List Msg) := do
  if wordcount ≠ 4 then throw (Err.wordcount "MFWR" u16_off hdr wordcount)
  let first_dword ← be32 b (u32 (u16_off + 2))
  let second_dword ← be32 b (u32 (u16_off + 6))
  if first_dword ≠ 0 ∨ second_dword ≠ 0 then
    throw (Err.mfwr_data u16_off hdr first_dword second_dword)
  pure [Msg.T1_MFWR]

/-- The CTL payload (source lines 665-698). -/
def ctl (v : Nat) : List Msg :=
  let (f1, v) := flag v 0x0040 "DECRYPT"
  let (f2, v) :=
    if v &&& 0x0020 ≠ 0 then
      if v &&& 0x0010 ≠ 0 then (["SBITS=NO_RW"], clr16 v 0x0030)
      else (["SBITS=NO_READ"], clr16 v 0x0030)
    else if v &&& 0x0010 ≠ 0 then (["SBITS=ICAP_READ"], clr16 v 0x0010)
    else ([], v)
  let (f3, v) := flag v 0x0008 "PERSIST"
  let (f4, v) := flag v 0x0004 "USE_EFUSE_KEY"
  let (f5, v) := flag v 0x0002 "CRC_EXTSTAT_DISABLE"
  [Msg.T1 "CTL" (f1 ++ f2 ++ f3 ++ f4 ++ f5) (if v ≠ 0 then some v else none)]
    ++ (if v ≠ 0x81 then [Msg.W_reserved 0x0081 v] else [])

/-- CTL (source lines 656-700). -/
def t1_ctl (b : Bitstream) (u16_off hdr wordcount : Nat) : Except Err (List Msg) := do
  if wordcount ≠ 1 then throw (Err.wordcount "CTL" u16_off hdr wordcount)
  let v ← be16 b (u32 (u16_off + 2))
  pure (ctl v)

/-- The MASK payload (source lines 710-736). -/
def mask (v : Nat) : List Msg :=
  let (f1, v) := flag v 0x0040 "DECRYPT"
  let (f2, v) := if v &&& 0x0030 = 0x0030 then (["SECURITY"], clr16 v 0x0030) else ([], v)
  let (f3, v) := flag v 0x0008 "PERSIST"
  let (f4, v) := flag v 0x0004 "USE_EFUSE_KEY"
  let (f5, v) := flag v 0x0002 "CRC_EXTSTAT_DISABLE"
  [Msg.T1 "MASK" (f1 ++ f2 ++ f3 ++ f4 ++ f5) (if v ≠ 0 then some v else none)]
    ++ (if v ≠ 0x81 then [Msg.W_reserved 0x0081 v] else [])

/-- MASK (source lines 701-738). -/
def t1_mask (b : Bitstream) (u16_off hdr wordcount : Nat) : Except Err (List Msg) := do
  if wordcount ≠ 1 then throw (Err.wordcount "MASK" u16_off hdr wordcount)
  let v ← be16 b (u32 (u16_off + 2))
  pure (mask v)

/-- The PWRDN_REG payload (source lines 748-775). -/
def pwrdn_reg (v : Nat) : List Msg :=
  let (f1, v) := flag v 0x4000 "EN_EYES"
  let (f2, v) := flag v 0x0020 "FILTER_B"
  let (f3, v) := flag v 0x0010 "EN_PGSR"
  let (f4, v) := flag v 0x0004 "EN_PWRDN"
  let (f5, v) := flag v 0x0001 "KEEP_SCLK"
  [Msg.T1 "PWRDN_REG" (f1 ++ f2 ++ f3 ++ f4 ++ f5) (if v ≠ 0 then some v else none)]
    ++ (if v ≠ 0x0880 then [Msg.W_reserved 0x0880 v] else [])

/-- PWRDN_REG (source lines 739-777). -/
def t1_pwrdn_reg (b : Bitstream) (u16_off hdr wordcount : Nat) : Except Err (List Msg) := do
  if wordcount ≠ 1 then throw (Err.wordcount "PWRDN_REG" u16_off hdr wordcount)
  let v ← be16 b (u32 (u16_off + 2))
  pure (pwrdn_reg v)

/-- The HC_OPT_REG payload (source lines 787-798). -/
def hc_opt_reg (v : Nat) : List Msg :=
  let (f1, v) := flag v 0x0040 "INIT_SKIP"
  [Msg.T1 "HC_OPT_REG" f1 (if v ≠ 0 then some v else none)]
    ++ (if v ≠ 0x001F then [Msg.W_reserved 0x001F v] else [])

/-- HC_OPT_REG (source lines 778-800). -/
def t1_hc_opt_reg (b : Bitstream) (u16_off hdr wordcount : Nat) : Except Err (List Msg) := do
  if wordcount ≠ 1 then throw (Err.wordcount "HC_OPT_REG" u16_off hdr wordcount)
  let v ← be16 b (u32 (u16_off + 2))
  pure (hc_opt_reg v)

/-- The words printed by the generic dump: `n` iterations of the loop at source line 804
are left, `i` is the loop index. -/
def t1_words (b : Bitstream) (u16_off : Nat) : Nat → Nat → Except Err (List Nat)
  | 0, _ => pure []
  | n + 1, i => do
    let w ← be16 b (u32 (u16_off + 2 + i * 2))
    let ws ← t1_words b u16_off n (i + 1)
    pure (w :: ws)

/-- The generic dump of a named register without a decoder (source lines 801-808). -/
def t1_generic (b : Bitstream) (u16_off reg wordcount : Nat) : Except Err (List Msg) := do
  let name ← match (xc6_regs.getD reg ⟨none, 0⟩).name with
    | none => throw Err.null_deref
    | some s => pure s
  let ws ← t1_words b u16_off (min 8 wordcount) 0
  pure [Msg.W_T1 name wordcount ws]

/-- The type-1 part of the packet loop body (source lines 428-809). -/
def type1 (b : Bitstream) (u16_off hdr reg wordcount : Nat) : Except Err (List Msg) := do
  let unknown ← if reg ≥ xc6_regs.length then pure true else reg_name_empty reg
  if unknown then pure [Msg.W_unknown_reg u16_off hdr reg wordcount]
  else if reg = IDCODE then t1_idcode b u16_off hdr wordcount
  else if reg = CMD then t1_cmd b u16_off hdr wordcount
  else if reg = FLR then t1_flr b u16_off hdr wordcount
  else if reg = COR1 then t1_cor1 b u16_off hdr wordcount
  else if reg = COR2 then t1_cor2 b u16_off hdr wordcount
  else if reg = FAR_MAJ ∧ wordcount = 2 then t1_far_maj b u16_off
  else if reg = MFWR then t1_mfwr b u16_off hdr wordcount
  else if reg = CTL then t1_ctl b u16_off hdr wordcount
  else if reg = MASK then t1_mask b u16_off hdr wordcount
  else if reg = PWRDN_REG then t1_pwrdn_reg b u16_off hdr wordcount
  else if reg = HC_OPT_REG then t1_hc_opt_reg b u16_off hdr wordcount
  else t1_generic b u16_off reg wordcount

/-! ## Type-2 payload: frames -/

/-- The loop over `majors` at source lines 844-851 for the row position `m = i%505`; `j`
is the loop index and `count` the running sum of minors. -/
def major_marker (m : Nat) : List (String × Nat) → Nat → Nat → List Msg
  | [], _, _ => []
  | (name, minors) :: rest, j, count =>
    if m = count then [Msg.D_major j minors name]
    else major_marker m rest (j + 1) (count + minors)

/-- The `#D` markers printed before frame `i` of the first frame loop (lines 842-851). -/
def markers (i : Nat) : List Msg :=
  (if i % 505 = 0 then [Msg.D_row (i / 505)] else []) ++ major_marker (i % 505) majors 0 0

/-- The classification loops (source lines 858-865, 866-873, 997-1004) over the bytes
`bit_data[base+j]`: `n` iterations are left; the two flags are `all_zero` and `all_one`. -/
def scan (b : Bitstream) (base : Nat) : Nat → Nat → Bool → Bool → Except Err (Bool × Bool)
  | 0, _, all_zero, all_one => pure (all_zero, all_one)
  | n + 1, j, all_zero, all_one => do
    let x ← rd8 b (u32 (base + j))
    let all_zero := if x ≠ 0 then false else all_zero
    let all_one := if x ≠ 0xff then false else all_one
    if !all_zero && !all_one then pure (all_zero, all_one)
    else scan b base n (j + 1) all_zero all_one

/-- The bytes `bit_data[base+j]`, `bit_data[base+j+1]`, ... (`n` of them) of a print loop. -/
def rd_bytes (b : Bitstream) (base : Nat) : Nat → Nat → Except Err (List Nat)
  | 0, _ => pure []
  | n + 1, j => do
    let x ← rd8 b (u32 (base + j))
    let xs ← rd_bytes b base n (j + 1)
    pure (x :: xs)

/-- One half of a frame that is not uniform as a whole (source lines 886-895, 900-909). -/
def half (b : Bitstream) (base j : Nat) (all_zero all_one : Bool) : Except Err Msg :=
  if all_zero then pure Msg.frame_64_all_0
  else if all_one then pure Msg.frame_64_all_1
  else do
    let bytes ← rd_bytes b base 64 j
    pure (Msg.frame_64 bytes)

/-- The frame record(s) of frame `i` in the first frame loop (source lines 853-909). -/
def frame_lo (b : Bitstream) (bit_cur i : Nat) : Except Err (List Msg) := do
  let middle_word ← be16 b (u32 (bit_cur + i * 130 + 64))
  let (first64_all_zero, first64_all_one) ← scan b (bit_cur + i * 130) 64 0 true true
  let (last64_all_zero, last64_all_one) ← scan b (bit_cur + i * 130) 64 66 true true
  if first64_all_zero && middle_word = 0 && last64_all_zero then pure [Msg.frame_130_all_0]
  else if first64_all_one && middle_word = 0xFFFF && last64_all_one then
    pure [Msg.frame_130_all_1]
  else do
    let h1 ← half b (bit_cur + i * 130) 0 first64_all_zero first64_all_one
    let w ← be16 b (u32 (bit_cur + i * 130 + 64))
    let h2 ← half b (bit_cur + i * 130) 66 last64_all_zero last64_all_one
    pure [h1, Msg.frame_2 w, h2]

/-- The first frame loop (source lines 834-910): `n` iterations are left before
`i < num_frames` fails. -/
def frames_lo (b : Bitstream) (bit_cur : Nat) : Nat → Nat → Except Err (List Msg)
  | 0, _ => pure []
  | n + 1, i =>
    if i ≥ 2020 then pure []
    else do
      let f ← frame_lo b bit_cur i
      let rest ← frames_lo b bit_cur n (i + 1)
      pure (markers i ++ f ++ rest)

/-- The search loop over `ram_starts` at source lines 920-924: the index `j` at which it
breaks, if it does. -/
def ram_match_from (i num_frames : Nat) : List Nat → Nat → Option Nat
  | [], _ => none
  | s :: rest, j =>
    if i = 2020 + s ∧ num_frames ≥ i + 18 then some j
    else ram_match_from i num_frames rest (j + 1)

/-- The block-RAM region that starts at frame `i`, if one does. -/
def ram_match (i num_frames : Nat) : Option Nat := ram_match_from i num_frames ram_starts 0

/-- The loops at source lines 936-939 and 946-949: whether one of the `n` bytes from
`bit_data[base+j]` on is not zero (the loop stops at the first). -/
def any_nonzero (b : Bitstream) (base : Nat) : Nat → Nat → Except Err Bool
  | 0, _ => pure false
  | n + 1, j => do
    let x ← rd8 b (u32 (base + j))
    if x ≠ 0 then pure true else any_nonzero b base n (j + 1)

/-- The value of `bit_off` for bit `l` of byte `k` of string `j` (source lines 960-961 for
the parity strings, 979 for the data strings). -/
def bit_off (parity : Bool) (j k l : Nat) : Nat :=
  if parity then
    u32 (u32 (j * (2048 + 256) + (31 - k) * 4 * 18) + (1 + (l / 2) * 18 - (l &&& 1)))
  else
    u32 (j * (2048 + 256) + ((31 - k) / 2) * 18 + (8 - ((31 - k) &&& 1) * 8) + 2 + l)

/-- The test `bit_data[bit_cur+i*130+18+bit_off/8] & (1<<(7-(bit_off%8)))`. -/
def src_bit (b : Bitstream) (bit_cur i off : Nat) : Except Err Bool := do
  let x ← rd8 b (u32 (bit_cur + i * 130 + 18 + off / 8))
  pure (decide (x &&& (1 <<< (7 - off % 8)) ≠ 0))

/-- The loop over `l` (source lines 959-964, 978-982): `n` iterations are left. -/
def init_byte (b : Bitstream) (bit_cur i : Nat) (parity : Bool) (j k : Nat) :
    Nat → Nat → Nat → Except Err Nat
  | 0, _, acc => pure acc
  | n + 1, l, acc => do
    let s ← src_bit b bit_cur i (bit_off parity j k l)
    let bit := if parity then 1 <<< l else 1 <<< (7 - l)
    init_byte b bit_cur i parity j k n (l + 1) (if s then acc ||| bit else acc)

/-- Source `sprintf(.., "%02x", init_byte)`. -/
def hex2 (x : Nat) : List Char := [Nat.digitChar (x / 16), Nat.digitChar (x % 16)]

/-- The loop over `k` (source lines 957-966, 976-984): the characters of `init_str`. -/
def init_str (b : Bitstream) (bit_cur i : Nat) (parity : Bool) (j : Nat) :
    Nat → Nat → Except Err (List Char)
  | 0, _ => pure []
  | n + 1, k => do
    let x ← init_byte b bit_cur i parity j k 8 0 0
    let rest ← init_str b bit_cur i parity j n (k + 1)
    pure (hex2 x ++ rest)

/-- The loop over `j` (source lines 956-974, 975-992): the records of the strings that
have a character other than `0`. -/
def init_strs (b : Bitstream) (bit_cur i : Nat) (parity : Bool) :
    Nat → Nat → Except Err (List Msg)
  | 0, _ => pure []
  | n + 1, j => do
    let s ← init_str b bit_cur i parity j 32 0
    let rest ← init_strs b bit_cur i parity n (j + 1)
    let m := if parity then Msg.initp j s else Msg.init j s
    pure ((if s.any (fun c => c ≠ '0') then [m] else []) ++ rest)

/-- The decoding of the block-RAM region `j` that starts at frame `i` (lines 932-992). -/
def ramb16 (b : Bitstream) (bit_cur i j : Nat) : Except Err (List Msg) := do
  let hd ← any_nonzero b (bit_cur + i * 130) 18 0
  let head ← if hd then do
      let bytes ← rd_bytes b (bit_cur + i * 130) 18 0
      pure [Msg.ramb16_head bytes]
    else pure []
  let tl ← any_nonzero b (bit_cur + (i + 18) * 130 - 18) 18 0
  let tail ← if tl then do
      let bytes ← rd_bytes b (bit_cur + (i + 18) * 130 - 18) 18 0
      pure [Msg.ramb16_tail bytes]
    else pure []
  let initp ← init_strs b bit_cur i true 8 0
  let init ← init_strs b bit_cur i false 32 0
  pure ([Msg.RAMB16_data (j * 2)] ++ head ++ tail ++ initp ++ init)

/-- The body of the second frame loop at index `i` (source lines 918-1015): the records
printed and the value of `i` for the next test of `i < num_frames`. -/
def frame_hi (b : Bitstream) (bit_cur num_frames i : Nat) : Except Err (List Msg × Nat) := do
  let d := if i = 2020 then [Msg.D_content_start] else []
  match ram_match i num_frames with
  | some j => do
    let r ← ramb16 b bit_cur i j
    pure (d ++ r, i + 17 + 1)
  | none => do
    let (all_zero, all_one) ← scan b (bit_cur + i * 130) 130 0 true true
    if all_zero then pure (d ++ [Msg.frame_130_all_0], i + 1)
    else if all_one then pure (d ++ [Msg.frame_130_all_1], i + 1)
    else do
      let h ← hexdump b (u32 (bit_cur + i * 130)) 130
      pure (d ++ [Msg.frame_130 (i - 2020) (u32 (bit_cur + i * 130))] ++ h, i + 1)

/-- The second frame loop (source lines 911-1016) from index `i` on. Every iteration
raises `i`, so a fuel of `num_frames - i` is enough. -/
def frames_hi (b : Bitstream) (bit_cur num_frames : Nat) : Nat → Nat → Except Err (List Msg)
  | 0, i => if i < num_frames then throw Err.out_of_fuel else pure []
  | fuel + 1, i =>
    if i < num_frames then do
      let (out, next) ← frame_hi b bit_cur num_frames i
      let rest ← frames_hi b bit_cur num_frames fuel next
      pure (out ++ rest)
    else pure []

/-- The type-2 part of the packet loop body (source lines 811-1028); `bit_cur` is the
cursor after the header and the `wordcount` words skipped at line 423. -/
def type2 (info : Bool) (b : Bitstream) (bit_cur u16_off hdr reg wordcount : Nat) :
    Except Err (Nat × List Msg) := do
  let w := if wordcount ≠ 0 then [Msg.W_type2_wordcount u16_off hdr] else []
  if reg ≠ FDRI then throw (Err.type2_register u16_off hdr)
  if u32 (bit_cur + 4) > b.bit_eof then throw Err.unexpected_eof
  let count ← be32 b bit_cur
  let bit_cur := u32 (bit_cur + 4)
  if u32 (bit_cur + u32 (2 * count)) > b.bit_eof then throw Err.unexpected_eof
  if u32 (2 * count) < 130 then throw (Err.type2_length u16_off hdr (u32 (2 * count)))
  let num_frames := u32 (2 * count) / 130
  let lo ← frames_lo b bit_cur num_frames 0
  let hi ← frames_hi b bit_cur num_frames (num_frames - 2020) 2020
  let tail ← if u32 (2 * count) > u32 (num_frames * 130) then do
      let dump_len := u32 (2 * count) - num_frames * 130
      let h ← hexdump b (u32 (bit_cur + num_frames * 130)) dump_len
      pure (Msg.D_hexdump (num_frames * 130) dump_len :: h)
    else pure []
  let bit_cur := u32 (bit_cur + u32 (count * 2))
  if u32 (bit_cur + 4) > b.bit_eof then throw Err.unexpected_eof
  let crc ← be32 b bit_cur
  let i := if info then [Msg.I_auto_crc bit_cur crc] else []
  pure (u32 (bit_cur + 4), w ++ [Msg.T2_FDRI] ++ lo ++ hi ++ tail ++ i)

/-! ## The packet loop and the decoder -/

/-- Source line 392: bits 15-13 of the header word. -/
def packet_hdr_type (hdr : Nat) : Nat := (hdr &&& 0xE000) >>> 13

/-- Source line 401: bits 12-11 of the header word. -/
def packet_hdr_opcode (hdr : Nat) : Nat := (hdr &&& 0x1800) >>> 11

/-- Source line 420: bits 10-5 of the header word. -/
def packet_hdr_register (hdr : Nat) : Nat := (hdr &&& 0x07E0) >>> 5

/-- Source line 421: bits 4-0 of the header word. -/
def packet_hdr_wordcount (hdr : Nat) : Nat := hdr &&& 0x001F

/-- One iteration of the packet loop (source lines 382-1029) with the cursor at
`bit_cur`: the cursor for the next iteration and the records printed. -/
def packet (info : Bool) (b : Bitstream) (bit_cur : Nat) : Except Err (Nat × List Msg) := do
  let i := if info then [Msg.I_packet_header bit_cur] else []
  if u32 (bit_cur + 2) > b.bit_eof then throw Err.unexpected_eof
  let hdr ← be16 b bit_cur
  let u16_off := bit_cur
  let bit_cur := u32 (bit_cur + 2)
  if packet_hdr_type hdr ≠ 1 ∧ packet_hdr_type hdr ≠ 2 then
    throw (Err.packet_type u16_off hdr (packet_hdr_type hdr))
  if packet_hdr_opcode hdr = 3 then throw (Err.packet_opcode u16_off hdr)
  if packet_hdr_opcode hdr = 0 then
    pure (bit_cur, i
      ++ (if packet_hdr_type hdr ≠ 1
          then [Msg.W_noop_type u16_off hdr (packet_hdr_type hdr)] else [])
      ++ (if hdr &&& 0x07FF ≠ 0 then [Msg.W_noop_header u16_off hdr] else [])
      ++ [Msg.noop])
  else do
    if u32 (bit_cur + packet_hdr_wordcount hdr * 2) > b.bit_eof then
      throw Err.unexpected_eof
    let bit_cur := u32 (bit_cur + packet_hdr_wordcount hdr * 2)
    if packet_hdr_type hdr = 1 then do
      let out ← type1 b u16_off hdr (packet_hdr_register hdr) (packet_hdr_wordcount hdr)
      pure (bit_cur, i ++ out)
    else do
      let (cur, out) ← type2 info b bit_cur u16_off hdr (packet_hdr_register hdr)
        (packet_hdr_wordcount hdr)
      pure (cur, i ++ out)

/-- The packet loop `while (bit_cur < bit_eof)`. -/
def packets (info : Bool) (b : Bitstream) : Nat → Nat → Except Err (List Msg)
  | 0, bit_cur => if bit_cur < b.bit_eof then throw Err.out_of_fuel else pure []
  | fuel + 1, bit_cur =>
    if bit_cur < b.bit_eof then do
      let (cur, out) ← packet info b bit_cur
      let rest ← packets info b fuel cur
      pure (out ++ rest)
    else pure []

/-- Source `main` from the size check at line 294 on: the records written to `stdout` when
the program returns `EXIT_SUCCESS`, the error otherwise. The packet loop gets a fuel of
`bit_eof` iterations. -/
def main (info : Bool) (b : Bitstream) : Except Err (List Msg) := do
  if b.bit_eof ≥ BITSTREAM_MAX then throw Err.size_above_max
  if b.bit_eof < 13 then throw (Err.size_below_min b.bit_eof)
  let magic ← rd_bytes b 0 13 0
  let (cur, hs) ← header_strings b 4 13 'a'.toNat
  let (cur, cs) ← commands info b cur
  let ps ← packets info b b.bit_eof cur
  pure ([Msg.bit2txt_format, Msg.hex magic] ++ hs ++ cs ++ ps)

/-- A small file: preamble, four one-byte header strings, an empty command block, the sync
word, a noop and a CMD packet. -/
def sample : List Nat :=
  [0, 9, 0x0f, 0xf0, 0x0f, 0xf0, 0x0f, 0xf0, 0x0f, 0xf0, 0, 0, 1,
   0x61, 0, 1, 0, 0x62, 0, 1, 0, 0x63, 0, 1, 0, 0x64, 0, 1, 0,
   0x65, 0, 0, 0, 10,
   0xAA, 0x99, 0x55, 0x66, 0x20, 0x00, 0x30, 0xA1, 0x00, 0x07]

/-! ## Definitions used in the statements -/

/-- The records of the `--info` option in front of a packet. -/
def info_hdr (info : Bool) (bit_cur : Nat) : List Msg :=
  if info then [Msg.I_packet_header bit_cur] else []

/-- At `cur` stands the header word `hdr` of a type-1 read or write packet for register
`reg` with word count `wc`. -/
def T1Packet (b : Bitstream) (cur hdr reg wc : Nat) : Prop :=
  be16 b cur = .ok hdr ∧ packet_hdr_type hdr = 1 ∧
  (packet_hdr_opcode hdr = 1 ∨ packet_hdr_opcode hdr = 2) ∧
  packet_hdr_register hdr = reg ∧ packet_hdr_wordcount hdr = wc

instance (b : Bitstream) (cur hdr reg wc : Nat) : Decidable (T1Packet b cur hdr reg wc) := by
  unfold T1Packet
  infer_instance

/-- The low 28 bits of `v` are the code of an entry of `idcodes`. -/
def idcode_match (v : Nat) : Prop := ∃ e ∈ idcodes, e.2 = v % 2 ^ 28

/-- The registers whose decoder insists on its word count, with that word count and the
name in the error message (source lines 438, 458, 475, 494, 545, 639, 657, 702, 740, 779). -/
def checked_arity : List (Nat × Nat × String) :=
  [ (IDCODE, 2, "IDCODE"), (CMD, 1, "CMD"), (FLR, 1, "FLR"), (COR1, 1, "COR1"),
    (COR2, 1, "COR2"), (MFWR, 4, "MFWR"), (CTL, 1, "CTL"), (MASK, 1, "MASK"),
    (PWRDN_REG, 1, "PWRDN_REG"), (HC_OPT_REG, 1, "HC_OPT_REG") ]

/-- At `cur` stands the header word `hdr` of a type-2 read or write packet with register
field `reg` and word-count field `wc`. -/
def T2Packet (b : Bitstream) (cur hdr reg wc : Nat) : Prop :=
  be16 b cur = .ok hdr ∧ packet_hdr_type hdr = 2 ∧
  (packet_hdr_opcode hdr = 1 ∨ packet_hdr_opcode hdr = 2) ∧
  packet_hdr_register hdr = reg ∧ packet_hdr_wordcount hdr = wc

instance (b : Bitstream) (cur hdr reg wc : Nat) : Decidable (T2Packet b cur hdr reg wc) := by
  unfold T2Packet
  infer_instance

/-- The byte of the file at index `i`. -/
def byte (b : Bitstream) (i : Nat) : Nat := b.bit_data i % 256

/-- All `n` bytes from index `j` on have the value `x`. -/
def bytes_all (b : Bitstream) (x : Nat) : Nat → Nat → Bool
  | 0, _ => true
  | n + 1, j => (byte b j == x) && bytes_all b x n (j + 1)

/-- The `n` bytes of the file from index `j` on. -/
def bytes (b : Bitstream) : Nat → Nat → List Nat
  | 0, _ => []
  | n + 1, j => byte b j :: bytes b n (j + 1)

/-- One half of a frame as `half` prints it. -/
def half_record (b : Bitstream) (j : Nat) : Msg :=
  if bytes_all b 0 64 j then Msg.frame_64_all_0
  else if bytes_all b 0xff 64 j then Msg.frame_64_all_1
  else Msg.frame_64 (bytes b 64 j)

/-- The middle word of the frame at byte index `base`. -/
def middle_word (b : Bitstream) (base : Nat) : Nat :=
  byte b (base + 64) * 256 + byte b (base + 65)

/-- The frame records `out` classify the 130 bytes from index `base` on: all `0x00` gives
exactly `frame_130 all_0`, all `0xFF` exactly `frame_130 all_1`, and neither token is
among the records of a frame that is not uniform in that value. -/
def Classified (b : Bitstream) (base : Nat) (out : List Msg) : Prop :=
  ((∀ t, t < 130 → byte b (base + t) = 0x00) → out = [Msg.frame_130_all_0]) ∧
  ((∀ t, t < 130 → byte b (base + t) = 0xFF) → out = [Msg.frame_130_all_1]) ∧
  (Msg.frame_130_all_0 ∈ out → ∀ t, t < 130 → byte b (base + t) = 0x00) ∧
  (Msg.frame_130_all_1 ∈ out → ∀ t, t < 130 → byte b (base + t) = 0xFF)

/-- A file of 300000 zero bytes. -/
def zeros : Bitstream := { bit_eof := 300000, bit_data := fun _ => 0 }

/-- The 34 bytes in front of the command block contents: the preamble, four header
strings that are a single NUL byte, and the tag `e`; the big-endian length of the command
block follows. -/
def file_head : List Nat :=
  [0, 9, 0x0f, 0xf0, 0x0f, 0xf0, 0x0f, 0xf0, 0x0f, 0xf0, 0, 0, 1,
   0x61, 0, 1, 0, 0x62, 0, 1, 0, 0x63, 0, 1, 0, 0x64, 0, 1, 0, 0x65]

/-- The records of `file_head`. -/
def file_head_records : List Msg :=
  [Msg.bit2txt_format, Msg.hex [0, 9, 0x0f, 0xf0, 0x0f, 0xf0, 0x0f, 0xf0, 0x0f, 0xf0, 0, 0, 1],
   Msg.header_str 0x61 [], Msg.header_str 0x62 [], Msg.header_str 0x63 [],
   Msg.header_str 0x64 []]

/-- A file whose command block declares `0xFFFFFFFF` bytes and holds the sync word only. -/
def file_cmd_len_wraps : Bitstream :=
  Bitstream.ofBytes (file_head ++ [0xFF, 0xFF, 0xFF, 0xFF, 0xAA, 0x99, 0x55, 0x66])

/-- A file that ends behind the count `0x7FFFFFF8` of a type-2 FDRI packet: the packet
declares a payload of `0xFFFFFFF0` bytes. -/
def file_count_wraps : Bitstream :=
  Bitstream.ofBytes (file_head ++ [0, 0, 0, 10, 0xAA, 0x99, 0x55, 0x66,
    0x50, 0x60, 0x7F, 0xFF, 0xFF, 0xF8])

/-- A file with a type-2 FDRI packet of count `0x80000041`, 130 payload bytes and the
four bytes of the auto-CRC. -/
def file_count_high_bit : Bitstream :=
  Bitstream.ofBytes (file_head ++ [0, 0, 0, 144, 0xAA, 0x99, 0x55, 0x66,
    0x50, 0x60, 0x80, 0x00, 0x00, 0x41] ++ List.replicate 130 0 ++ [0, 0, 0, 0])

/-- The file `zeros` with the byte at index 284816 set to `0x80`. With a type-2 payload
that starts at index 100 this is byte 16 of frame 2190, the first frame behind the
block-RAM region of the frames 2172 to 2189. -/
def zeros_but_one : Bitstream :=
  { bit_eof := 300000, bit_data := fun i => if i = 284816 then 0x80 else 0 }

/-- Every error that `r` can end with satisfies `P`. -/
@[irreducible] def Raises {α : Type} (r : Except Err α) (P : Err → Prop) : Prop :=
  ∀ e, r = .error e → P e

/-- The errors other than the fuel marker of the embedding. -/
@[irreducible] def NotFuel (e : Err) : Prop := e ≠ .out_of_fuel

/-- The error is one of the two messages of the packet header checks (source lines 395
and 403). -/
def Err.isHeader : Err → Bool
  | .packet_type _ _ _ => true
  | .packet_opcode _ _ => true
  | _ => false

/-- The errors other than those of the packet header checks. -/
@[irreducible] def PayloadErr (e : Err) : Prop := e.isHeader = false

/-- The error is a read of `bit_data` outside the file. -/
def Err.isOob : Err → Bool
  | .oob _ => true
  | _ => false

/-- The reads outside the file. -/
@[irreducible] def OobErr (e : Err) : Prop := e.isOob = true

/-- A type-2 FDRI packet whose header `50 61` has the word-count field 1: the two bytes of
that word, the count `0x00000041`, a payload of one frame of zero bytes, and `tail`. -/
def fdri_wc1 (tail : List Nat) : Bitstream :=
  Bitstream.ofBytes
    ([0x50, 0x61, 0x00, 0x00, 0x00, 0x00, 0x00, 0x41] ++ List.replicate 130 0 ++ tail)

/-- The header `50 61` followed at once by the count `0x00000041`, a payload of one frame
of zero bytes and four more bytes. -/
def fdri_wc1_count_first : Bitstream :=
  Bitstream.ofBytes
    ([0x50, 0x61, 0x00, 0x00, 0x00, 0x41] ++ List.replicate 130 0 ++ [0, 0, 0, 0])

/-- None of the failure conditions of the container parser holds for the header field at
`cur`: the tag byte is `tag`, the declared length is `n`, the declared span
`[cur+3, cur+3+n)` lies in the file, and the byte that line 335 tests, at index
`cur + 3 + n - 1`, is NUL. -/
def FieldOk (b : Bitstream) (cur tag n : Nat) : Prop :=
  cur + 3 + n ≤ b.bit_eof ∧ byte b cur = tag ∧
  byte b (cur + 1) * 256 + byte b (cur + 2) = n ∧ byte b (cur + 3 + n - 1) = 0

instance (b : Bitstream) (cur tag n : Nat) : Decidable (FieldOk b cur tag n) := by
  unfold FieldOk
  infer_instance

/-- The bit at offset `off`, counted MSB-first from byte 18 of the region that starts at
the byte index `base`. -/
def region_bit (b : Bitstream) (base off : Nat) : Bool :=
  (byte b (base + 18 + off / 8)).testBit (7 - off % 8)

/-- A region of 306 bytes at index 0 in which only the bit at offset 1 behind byte 18 is
set. -/
def region_one_bit : Bitstream :=
  { bit_eof := 306, bit_data := fun i => if i = 18 then 0x40 else 0 }

/-- The record is one of the three `frame_130` records. -/
def Msg.isFrame130 : Msg → Bool
  | .frame_130_all_0 => true
  | .frame_130_all_1 => true
  | .frame_130 _ _ => true
  | _ => false

/-- The values that the loop index of the second frame loop (source lines 911-1016) takes
from `i` on: behind an index that matches a block-RAM start the next index is `i + 18`
(`i += 17; continue` and the `i++` of the loop), behind any other it is `i + 1`. -/
def hi_indices (num_frames : Nat) : Nat → Nat → List Nat
  | 0, _ => []
  | fuel + 1, i =>
    if i < num_frames then
      i :: hi_indices num_frames fuel
        (if (ram_match i num_frames).isSome then i + 18 else i + 1)
    else []

/-- Frame `x` lies inside a decoded block-RAM region, behind its first frame: some region
`j` has its 18 frames in the payload and starts before `x`, less than 18 frames before. -/
def region_interior (num_frames x : Nat) : Prop :=
  ∃ j, j < 12 ∧ num_frames ≥ 2020 + ram_starts.getD j 0 + 18 ∧
    2020 + ram_starts.getD j 0 < x ∧ x < 2020 + ram_starts.getD j 0 + 18

/-- The sum of the minor counts of the majors `0 .. j-1`: the offset of major `j` in a
row. -/
def major_start (j : Nat) : Nat := ((majors.take j).map Prod.snd).sum

/-- The record is a `#D major` marker. -/
def Msg.isMajor : Msg → Bool
  | .D_major _ _ _ => true
  | _ => false

/-- The record is a `#D row` or a `#D major` marker. -/
def Msg.isMarker : Msg → Bool
  | .D_row _ => true
  | .D_major _ _ _ => true
  | _ => false

/-- A file of 43 bytes: `sample` with the field `a` of declared length 0, that is the
preamble, the field `61 00 00`, the fields `b`, `c`, `d` with a string that is a single
NUL byte, an empty command block, the sync word, a noop and a CMD packet. -/
def file_field_a_empty : Bitstream :=
  Bitstream.ofBytes
    [0, 9, 0x0f, 0xf0, 0x0f, 0xf0, 0x0f, 0xf0, 0x0f, 0xf0, 0, 0, 1,
     0x61, 0, 0, 0x62, 0, 1, 0, 0x63, 0, 1, 0, 0x64, 0, 1, 0,
     0x65, 0, 0, 0, 10,
     0xAA, 0x99, 0x55, 0x66, 0x20, 0x00, 0x30, 0xA1, 0x00, 0x07]

/-- The bytes that the decoder reads for the block-RAM regions of a payload of
`num_frames` frames at `bit_cur` lie in the file: for every region `j` that is decoded,
the file holds the bytes from the start of the region up to the last source bit of data
string 31, which is in byte `18 + 32 * 288` of the region. -/
def RegionsInFile (b : Bitstream) (bit_cur num_frames : Nat) : Prop :=
  ∀ j, j < 12 → num_frames ≥ 2020 + ram_starts.getD j 0 + 18 →
    bit_cur + (2020 + ram_starts.getD j 0) * 130 + 18 + 32 * 288 ≤ b.bit_eof

instance (b : Bitstream) (bit_cur num_frames : Nat) :
    Decidable (RegionsInFile b bit_cur num_frames) := by
  unfold RegionsInFile
  infer_instance

/-- A file that is one type-2 FDRI packet: the header `50 60`, the count `0x000247FC`
(149500 words, 2300 frames), 299000 zero bytes of payload, and `tail` more zero bytes.
The regions 0 to 3 are decoded, and their source bytes lie in the payload. -/
def fdri_2300 (tail : Nat) : Bitstream :=
  { bit_eof := 6 + 299000 + tail,
    bit_data := fun i =>
      if i = 0 then 0x50 else if i = 1 then 0x60 else if i = 3 then 0x02
      else if i = 4 then 0x47 else if i = 5 then 0xFC else 0 }

/-- The header fields from `cur` on, with the tags from `tag` on, have the declared
lengths `ns`, and none of the failure conditions of the container parser holds for them
(`FieldOk`); the string of a field of declared length 0, which line 340 prints from the
index behind the length on, ends at a NUL byte of the file. -/
def FieldsOk (b : Bitstream) : Nat → Nat → List Nat → Prop
  | _, _, [] => True
  | cur, tag, n :: ns =>
    FieldOk b cur tag n ∧ (n = 0 → ∃ z, z < b.bit_eof ∧ cur + 3 ≤ z ∧ byte b z = 0) ∧
    FieldsOk b (cur + (3 + n)) (tag + 1) ns

/-- The index behind header fields of the declared lengths `ns` that start at `cur`. -/
def fields_end (cur : Nat) (ns : List Nat) : Nat := cur + (ns.map (fun n => 3 + n)).sum

instance FieldsOk.dec (b : Bitstream) : ∀ cur tag ns, Decidable (FieldsOk b cur tag ns)
  | _, _, [] => isTrue trivial
  | cur, tag, n :: ns =>
    have := FieldsOk.dec b (cur + (3 + n)) (tag + 1) ns
    by unfold FieldsOk; infer_instance

/-! # Theorems -/

set_option linter.unusedTactic false
set_option linter.unreachableTactic false

/-! ## Basic facts about the readers -/

theorem u32_of_lt {x : Nat} (h : x < 4294967296) : u32 x = x := Nat.mod_eq_of_lt h

theorem u32_le (x : Nat) : u32 x ≤ x := Nat.mod_le _ _

theorem rd8_ok {b : Bitstream} {i x : Nat} (h : rd8 b i = .ok x) :
    i < b.bit_eof ∧ x = b.bit_data i % 256 := by
  unfold rd8 at h
  split at h
  · injection h with h; exact ⟨by assumption, h.symm⟩
  · cases h

theorem rd8_of_lt {b : Bitstream} {i : Nat} (h : i < b.bit_eof) :
    rd8 b i = .ok (b.bit_data i % 256) := by
  simp [rd8, h]

theorem rd8_of_ge {b : Bitstream} {i : Nat} (h : b.bit_eof ≤ i) :
    rd8 b i = .error (.oob i) := by
  simp [rd8, Nat.not_lt.mpr h]

theorem be16_eq (b : Bitstream) (i : Nat) (h : i + 1 < b.bit_eof) :
    be16 b i = .ok (__swab16 (b.bit_data i % 256 + 256 * (b.bit_data (i + 1) % 256))) := by
  have h0 : i < b.bit_eof := by omega
  simp [be16, rd8_of_lt h0, rd8_of_lt h, bind, Except.bind, pure, Except.pure]

theorem be16_ok {b : Bitstream} {i v : Nat} (h : be16 b i = .ok v) : i + 1 < b.bit_eof := by
  by_contra hc
  by_cases h0 : i < b.bit_eof
  · have h1 : b.bit_eof ≤ i + 1 := by omega
    simp [be16, rd8_of_lt h0, rd8_of_ge h1, bind, Except.bind] at h
  · have h1 : b.bit_eof ≤ i := by omega
    simp [be16, rd8_of_ge h1, bind, Except.bind] at h

theorem packet_hdr_wordcount_le (hdr : Nat) : packet_hdr_wordcount hdr ≤ 31 := by
  unfold packet_hdr_wordcount
  exact Nat.and_le_right

/-- A type-1 read or write packet: after the bounds check of its payload, the iteration
is the register dispatch `type1`, and the cursor ends behind the payload. -/
theorem packet_type1 (info : Bool) (b : Bitstream) (cur hdr : Nat)
    (hmax : b.bit_eof < BITSTREAM_MAX) (hh : be16 b cur = .ok hdr)
    (ht : packet_hdr_type hdr = 1)
    (ho0 : packet_hdr_opcode hdr ≠ 0) (ho3 : packet_hdr_opcode hdr ≠ 3) :
    packet info b cur =
      if cur + 2 + packet_hdr_wordcount hdr * 2 > b.bit_eof then .error .unexpected_eof
      else (type1 b cur hdr (packet_hdr_register hdr) (packet_hdr_wordcount hdr)).map
        (fun out => (cur + 2 + packet_hdr_wordcount hdr * 2, info_hdr info cur ++ out)) := by
  have hlt := be16_ok hh
  have hw := packet_hdr_wordcount_le hdr
  have hM : BITSTREAM_MAX = 122880000 := by decide
  have e1 : u32 (cur + 2) = cur + 2 := u32_of_lt (by omega)
  have e2 : u32 (cur + 2 + packet_hdr_wordcount hdr * 2) = cur + 2 + packet_hdr_wordcount hdr * 2 :=
    u32_of_lt (by omega)
  have e3 : ¬ (cur + 2 > b.bit_eof) := by omega
  unfold packet
  by_cases hc : cur + 2 + packet_hdr_wordcount hdr * 2 > b.bit_eof
  · simp [e1, e2, hh, ht, info_hdr, e3, hc, ho0, ho3, bind, Except.bind, pure, Except.pure,
      throw, throwThe, MonadExceptOf.throw]
  · simp [e1, e2, hh, ht, info_hdr, e3, hc, ho0, ho3, bind, Except.bind, pure, Except.pure,
      throw, throwThe, MonadExceptOf.throw, Except.map]

/-- The iteration of the packet loop at a type-1 read or write packet. -/
theorem packet_T1Packet (info : Bool) (b : Bitstream) (cur hdr reg wc : Nat)
    (hmax : b.bit_eof < BITSTREAM_MAX) (hp : T1Packet b cur hdr reg wc) :
    wc ≤ 31 ∧ packet info b cur =
      if cur + 2 + wc * 2 > b.bit_eof then .error .unexpected_eof
      else (type1 b cur hdr reg wc).map
        (fun out => (cur + 2 + wc * 2, info_hdr info cur ++ out)) := by
  obtain ⟨hh, ht, ho, hr, hw⟩ := hp
  have := packet_type1 info b cur hdr hmax hh ht (by omega) (by omega)
  rw [hr, hw] at this
  exact ⟨hw ▸ packet_hdr_wordcount_le hdr, this⟩

theorem be32_ok {b : Bitstream} {i v : Nat} (h : be32 b i = .ok v) : i + 3 < b.bit_eof := by
  by_contra hc
  unfold be32 at h
  by_cases h0 : i < b.bit_eof
  · by_cases h1 : i + 1 < b.bit_eof
    · by_cases h2 : i + 2 < b.bit_eof
      · have h3 : b.bit_eof ≤ i + 3 := by omega
        simp [rd8_of_lt h0, rd8_of_lt h1, rd8_of_lt h2, rd8_of_ge h3, bind, Except.bind] at h
      · have h2 : b.bit_eof ≤ i + 2 := by omega
        simp [rd8_of_lt h0, rd8_of_lt h1, rd8_of_ge h2, bind, Except.bind] at h
    · have h1 : b.bit_eof ≤ i + 1 := by omega
      simp [rd8_of_lt h0, rd8_of_ge h1, bind, Except.bind] at h
  · have h0 : b.bit_eof ≤ i := by omega
    simp [rd8_of_ge h0, bind, Except.bind] at h

/-! ## COR1 -/

/-- C9 (as the code has it): for a type-1 COR1 packet with word count 1, the payload
`0x3700` prints no flag token and no warning, and the payload `0x3701` prints the flag
token `SSCLKSRC=UserClk` and no warning (the low two bits are cleared, which leaves the
expected remainder `0x3700`); `SSCLKSRC=TCK` is the token of the payload `0x3702`. -/
theorem cor1_reserved_check (info : Bool) (b : Bitstream) (cur hdr v : Nat)
    (hmax : b.bit_eof < BITSTREAM_MAX) (hp : T1Packet b cur hdr COR1 1)
    (hv : be16 b (cur + 2) = .ok v) :
    (v = 0x3700 → packet info b cur =
      .ok (cur + 4, info_hdr info cur ++ [Msg.T1 "COR1" [] (some 0x3700)])) ∧
    (v = 0x3701 → packet info b cur =
      .ok (cur + 4, info_hdr info cur ++ [Msg.T1 "COR1" ["SSCLKSRC=UserClk"] (some 0x3700)])) ∧
    (v = 0x3702 → packet info b cur =
      .ok (cur + 4, info_hdr info cur ++ [Msg.T1 "COR1" ["SSCLKSRC=TCK"] (some 0x3700)])) := by
  obtain ⟨_, hpk⟩ := packet_T1Packet info b cur hdr COR1 1 hmax hp
  have hlt := be16_ok hv
  have hM : BITSTREAM_MAX = 122880000 := by decide
  have e1 : u32 (cur + 2) = cur + 2 := u32_of_lt (by omega)
  have hc : ¬ (cur + 2 + 1 * 2 > b.bit_eof) := by omega
  have ht : type1 b cur hdr COR1 1 = .ok (cor1 v) := by
    simp [type1, xc6_regs, reg_name_empty, COR1, IDCODE, CMD, FLR, t1_cor1, e1, hv, bind,
      Except.bind, pure, Except.pure]
  rw [hpk, if_neg hc, ht]
  refine ⟨?_, ?_, ?_⟩ <;> intro h <;> subst h <;> rfl

/-- C9, the input that refutes the claim: the COR1 packet `31 41` with payload `37 01`
prints `T1 COR1 SSCLKSRC=UserClk 0x3700` and nothing else; it prints neither
`SSCLKSRC=TCK` nor a warning. -/
theorem cor1_0x3701_not_tck :
    packet false (Bitstream.ofBytes [0x31, 0x41, 0x37, 0x01]) 0 =
      .ok (4, [Msg.T1 "COR1" ["SSCLKSRC=UserClk"] (some 0x3700)]) ∧
    packet false (Bitstream.ofBytes [0x31, 0x41, 0x37, 0x01]) 0 ≠
      .ok (4, [Msg.T1 "COR1" ["SSCLKSRC=TCK"] (some 0x0001), Msg.W_reserved 0x3700 0x0001]) := by
  decide

theorem cor1_reserved_check_witness :
    packet false (Bitstream.ofBytes [0x31, 0x41, 0x37, 0x00]) 0 =
      .ok (0 + 4, info_hdr false 0 ++ [Msg.T1 "COR1" [] (some 0x3700)]) :=
  (cor1_reserved_check false (Bitstream.ofBytes [0x31, 0x41, 0x37, 0x00]) 0 0x3141 0x3700
    (by decide) (by decide) (by decide)).1 rfl

/-! ## Bit fields -/

/-- A mask of `n` ones shifted up by `k` selects the `n` bits from bit `k` on. -/
theorem and_mask (x k n : Nat) :
    x &&& ((2 ^ n - 1) <<< k) = ((x >>> k) % 2 ^ n) <<< k := by
  apply Nat.eq_of_testBit_eq
  intro i
  simp only [Nat.testBit_and, Nat.testBit_shiftLeft, Nat.testBit_two_pow_sub_one,
    Nat.testBit_mod_two_pow, Nat.testBit_shiftRight]
  by_cases h : i ≥ k
  · have e : k + (i - k) = i := by omega
    simp [h, e, Bool.and_comm]
  · simp [h]

theorem and_mask_shift (x k n : Nat) :
    (x &&& ((2 ^ n - 1) <<< k)) >>> k = (x / 2 ^ k) % 2 ^ n := by
  rw [and_mask, Nat.shiftLeft_eq, Nat.shiftRight_eq_div_pow, Nat.shiftRight_eq_div_pow,
    Nat.mul_div_cancel _ (Nat.two_pow_pos k)]

theorem and_mask_ne_zero (x k n : Nat) :
    x &&& ((2 ^ n - 1) <<< k) ≠ 0 ↔ (x / 2 ^ k) % 2 ^ n ≠ 0 := by
  rw [and_mask, Nat.shiftLeft_eq, Nat.shiftRight_eq_div_pow]
  have := Nat.two_pow_pos k
  constructor
  · intro h h0
    rw [h0] at h
    simp at h
  · intro h h0
    rcases Nat.mul_eq_zero.mp h0 with h1 | h1
    · exact h h1
    · omega

/-! ## IDCODE -/

theorem idcode_low28 (v : Nat) : v &&& 0x0FFFFFFF = v % 2 ^ 28 :=
  Nat.and_pow_two_sub_one_eq_mod v 28

theorem idcode_high4 (v : Nat) : v &&& 0xF0000000 ≠ 0 ↔ (v / 2 ^ 28) % 16 ≠ 0 :=
  and_mask_ne_zero v 28 4

/-- The three properties of the records of an IDCODE payload. -/
theorem idcode_records (v : Nat) :
    ((∃ name, Msg.T1_IDCODE name ∈ idcode v) ↔ idcode_match v) ∧
    (Msg.W_revision_bits v ∈ idcode v ↔ idcode_match v ∧ (v / 2 ^ 28) % 16 ≠ 0) ∧
    (Msg.W_unknown_idcode v ∈ idcode v ↔ ¬ idcode_match v) := by
  unfold idcode
  cases hf : idcodes.find? (fun e => (v &&& 0x0FFFFFFF) == e.2) with
  | none =>
    have hn : ¬ idcode_match v := by
      rintro ⟨e, he, hev⟩
      have := List.find?_eq_none.mp hf e he
      simp [idcode_low28, hev] at this
    simp [hn]
  | some e =>
    have hm : idcode_match v := by
      refine ⟨e, List.mem_of_find?_eq_some hf, ?_⟩
      have := List.find?_some hf
      simp [idcode_low28] at this
      exact this.symm
    have h4 := idcode_high4 v
    by_cases hr : v &&& 0xF0000000 ≠ 0
    · have := h4.mp hr
      norm_num at this
      simp [hm, hr, this]
    · have : ¬ ((v / 2 ^ 28) % 16 ≠ 0) := fun h => hr (h4.mpr h)
      simp only [ne_eq, Decidable.not_not] at hr this
      norm_num at this
      simp [hm, hr, this]

/-- C10 (as the code has it): for a type-1 IDCODE packet with word count 2 and payload
`v`, a device name is printed iff the low 28 bits of `v` are in the device table, the
revision-bits warning iff they are and the high 4 bits (31-28) of `v` are not zero, the
unknown-IDCODE warning iff they are not. `0x04001093` gives `XC6SLX9` and no warning;
`0x0F001093` differs from every table entry in bits 27-24 and gives only the
unknown-IDCODE warning; `0xF4001093` gives `XC6SLX9` and the revision-bits warning. -/
theorem idcode_packet (info : Bool) (b : Bitstream) (cur hdr v : Nat)
    (hmax : b.bit_eof < BITSTREAM_MAX) (hp : T1Packet b cur hdr IDCODE 2)
    (hv : be32 b (cur + 2) = .ok v) :
    packet info b cur = .ok (cur + 6, info_hdr info cur ++ idcode v) ∧
    ((∃ name, Msg.T1_IDCODE name ∈ idcode v) ↔ idcode_match v) ∧
    (Msg.W_revision_bits v ∈ idcode v ↔ idcode_match v ∧ (v / 2 ^ 28) % 16 ≠ 0) ∧
    (Msg.W_unknown_idcode v ∈ idcode v ↔ ¬ idcode_match v) ∧
    (v = 0x04001093 → idcode v = [Msg.T1_IDCODE "XC6SLX9"]) ∧
    (v = 0x0F001093 → idcode v = [Msg.W_unknown_idcode 0x0F001093]) ∧
    (v = 0xF4001093 →
      idcode v = [Msg.T1_IDCODE "XC6SLX9", Msg.W_revision_bits 0xF4001093]) := by
  obtain ⟨_, hpk⟩ := packet_T1Packet info b cur hdr IDCODE 2 hmax hp
  have hlt := be32_ok hv
  have hM : BITSTREAM_MAX = 122880000 := by decide
  have e1 : u32 (cur + 2) = cur + 2 := u32_of_lt (by omega)
  have hc : ¬ (cur + 2 + 2 * 2 > b.bit_eof) := by omega
  have ht : type1 b cur hdr IDCODE 2 = .ok (idcode v) := by
    simp [type1, xc6_regs, reg_name_empty, IDCODE, t1_idcode, e1, hv, bind,
      Except.bind, pure, Except.pure]
  obtain ⟨h1, h2, h3⟩ := idcode_records v
  refine ⟨?_, h1, h2, h3, ?_, ?_, ?_⟩
  · rw [hpk, if_neg hc, ht]; rfl
  · intro h; subst h; decide
  · intro h; subst h; decide
  · intro h; subst h; decide

/-- C10, the input that refutes the claim: the IDCODE packet `31 C2` with payload
`0F 00 10 93` prints the unknown-IDCODE warning; it does not print `T1 IDCODE XC6SLX9`
with a revision-bits warning. -/
theorem idcode_0x0F001093_unknown :
    packet false (Bitstream.ofBytes [0x31, 0xC2, 0x0F, 0x00, 0x10, 0x93]) 0 =
      .ok (6, [Msg.W_unknown_idcode 0x0F001093]) ∧
    packet false (Bitstream.ofBytes [0x31, 0xC2, 0x0F, 0x00, 0x10, 0x93]) 0 ≠
      .ok (6, [Msg.T1_IDCODE "XC6SLX9", Msg.W_revision_bits 0x0F001093]) := by
  decide

theorem idcode_packet_witness :
    packet false (Bitstream.ofBytes [0x31, 0xC2, 0xF4, 0x00, 0x10, 0x93]) 0 =
      .ok (0 + 6, info_hdr false 0 ++ idcode 0xF4001093) ∧
    idcode 0xF4001093 = [Msg.T1_IDCODE "XC6SLX9", Msg.W_revision_bits 0xF4001093] :=
  have h := idcode_packet false (Bitstream.ofBytes [0x31, 0xC2, 0xF4, 0x00, 0x10, 0x93]) 0
    0x31C2 0xF4001093 (by decide) (by decide) (by decide)
  ⟨h.1, h.2.2.2.2.2.2 rfl⟩

/-! ## Word counts of the type-1 registers -/

theorem type1_arity_error (b : Bitstream) (cur hdr reg arity wc : Nat) (name : String)
    (hr : (reg, arity, name) ∈ checked_arity) (hw : wc ≠ arity) :
    type1 b cur hdr reg wc = .error (.wordcount name cur hdr wc) := by
  simp only [checked_arity, List.mem_cons, Prod.mk.injEq, List.mem_singleton,
    List.not_mem_nil, or_false] at hr
  rcases hr with h | h | h | h | h | h | h | h | h | h <;>
    obtain ⟨h1, h2, h3⟩ := h <;> subst h1 h2 h3 <;>
    simp [type1, xc6_regs, reg_name_empty, IDCODE, CMD, FLR, COR1, COR2, FAR_MAJ, MFWR, CTL,
      MASK, PWRDN_REG, HC_OPT_REG, t1_idcode, t1_cmd, t1_flr, t1_cor1, t1_cor2, t1_mfwr,
      t1_ctl, t1_mask, t1_pwrdn_reg, t1_hc_opt_reg, hw, bind, Except.bind, throw, throwThe,
      MonadExceptOf.throw, pure, Except.pure]

theorem t1_words_ok (b : Bitstream) (cur : Nat) (hmax : b.bit_eof < BITSTREAM_MAX) :
    ∀ n i, cur + 2 + (i + n) * 2 ≤ b.bit_eof →
      ∃ ws, t1_words b cur n i = .ok ws ∧ ws.length = n := by
  have hM : BITSTREAM_MAX = 122880000 := by decide
  intro n
  induction n with
  | zero => intro i _; exact ⟨[], rfl, rfl⟩
  | succ n ih =>
    intro i h
    obtain ⟨ws, hws, hl⟩ := ih (i + 1) (by omega)
    have e : u32 (cur + 2 + i * 2) = cur + 2 + i * 2 := u32_of_lt (by omega)
    obtain ⟨v, hb⟩ : ∃ v, be16 b (cur + 2 + i * 2) = .ok v :=
      ⟨_, be16_eq b (cur + 2 + i * 2) (by omega)⟩
    refine ⟨v :: ws, ?_, by simp [hl]⟩
    simp [t1_words, e, hb, hws, bind, Except.bind, pure, Except.pure]

/-- C7 (as the code has it): a type-1 read or write packet for IDCODE, CMD, FLR, COR1,
COR2, MFWR, CTL, MASK, PWRDN_REG or HC_OPT_REG whose word count differs from the
register's fixed word count fails fatally: with unexpected EOF when its payload words
are not all in the file, with the register's word-count error otherwise. A FAR_MAJ packet
whose word count is not 2 is not fatal: when its payload words are in the file it is
printed by the generic dump, as a warning, and the loop goes on behind the payload. -/
theorem wordcount_mismatch (info : Bool) (b : Bitstream) (cur hdr reg wc : Nat)
    (hmax : b.bit_eof < BITSTREAM_MAX) (hp : T1Packet b cur hdr reg wc) :
    (∀ arity name, (reg, arity, name) ∈ checked_arity → wc ≠ arity →
      packet info b cur = .error (if cur + 2 + wc * 2 > b.bit_eof then .unexpected_eof
        else .wordcount name cur hdr wc) ∧
      (if cur + 2 + wc * 2 > b.bit_eof then Err.unexpected_eof
        else Err.wordcount name cur hdr wc).isFatal = true) ∧
    (reg = FAR_MAJ → wc ≠ 2 → cur + 2 + wc * 2 ≤ b.bit_eof →
      ∃ ws, ws.length = min 8 wc ∧ packet info b cur =
        .ok (cur + 2 + wc * 2, info_hdr info cur ++ [Msg.W_T1 "FAR_MAJ" wc ws])) := by
  obtain ⟨hwc, hpk⟩ := packet_T1Packet info b cur hdr reg wc hmax hp
  constructor
  · intro arity name hr hw
    rw [hpk]
    by_cases hc : cur + 2 + wc * 2 > b.bit_eof
    · simp [hc, Err.isFatal]
    · simp [hc, type1_arity_error b cur hdr reg arity wc name hr hw, Except.map,
        Err.isFatal]
  · intro hr hw hc
    subst hr
    obtain ⟨ws, hws, hl⟩ := t1_words_ok b cur hmax (min 8 wc) 0 (by omega)
    refine ⟨ws, hl, ?_⟩
    rw [hpk, if_neg (by omega)]
    simp [type1, xc6_regs, reg_name_empty, IDCODE, CMD, FLR, COR1, COR2, FAR_MAJ, MFWR, CTL,
      MASK, PWRDN_REG, HC_OPT_REG, t1_generic, hw, hws, bind, Except.bind, pure, Except.pure,
      Except.map]

/-- C7, the input that refutes the claim: the FAR_MAJ packet `30 21` has word count 1,
not 2; the iteration does not fail, it prints `#W T1 FAR_MAJ (1 words) 0x0` and goes on
at offset 4. -/
theorem far_maj_wordcount_1_not_fatal :
    T1Packet (Bitstream.ofBytes [0x30, 0x21, 0x00, 0x00]) 0 0x3021 FAR_MAJ 1 ∧
    packet false (Bitstream.ofBytes [0x30, 0x21, 0x00, 0x00]) 0 =
      .ok (4, [Msg.W_T1 "FAR_MAJ" 1 [0]]) := by
  decide

theorem wordcount_mismatch_witness :
    packet false (Bitstream.ofBytes [0x30, 0xA2, 0x00, 0x00, 0x00, 0x00]) 0 =
      .error (if 0 + 2 + 2 * 2 > (Bitstream.ofBytes [0x30, 0xA2, 0, 0, 0, 0]).bit_eof
        then .unexpected_eof else .wordcount "CMD" 0 0x30A2 2) :=
  ((wordcount_mismatch false (Bitstream.ofBytes [0x30, 0xA2, 0x00, 0x00, 0x00, 0x00]) 0
    0x30A2 CMD 2 (by decide) (by decide)).1 1 "CMD" (by decide) (by decide)).1

/-! ## Unknown registers -/

/-- C8 (as the code has it): a type-1 read or write packet whose register address is 35
or above, beyond the register table, fails with unexpected EOF when its payload words
are not all in the file; otherwise it prints the unknown-register warning and nothing
else, and the loop goes on at header offset + 2 + 2*wordcount. -/
theorem unknown_register (info : Bool) (b : Bitstream) (cur hdr reg wc : Nat)
    (hmax : b.bit_eof < BITSTREAM_MAX) (hp : T1Packet b cur hdr reg wc) (hr : 35 ≤ reg) :
    packet info b cur =
      if cur + 2 + wc * 2 > b.bit_eof then .error .unexpected_eof
      else .ok (cur + 2 + wc * 2, info_hdr info cur ++ [Msg.W_unknown_reg cur hdr reg wc]) := by
  obtain ⟨_, hpk⟩ := packet_T1Packet info b cur hdr reg wc hmax hp
  have hl : xc6_regs.length = 35 := by decide
  rw [hpk]
  simp [type1, hl, hr, bind, Except.bind, pure, Except.pure, Except.map]

/-- C8, the inputs that refute the claim: the packet `35 05` for register 40 with word
count 5, followed by three bytes only, fails with unexpected EOF; and at the packet
`32 20` for register 17 the test `xc6_regs[17].name[0] == 0` dereferences the null
`name` of the entry that has no initialiser, so no warning is printed there. -/
theorem unknown_register_failures :
    (T1Packet (Bitstream.ofBytes [0x35, 0x05, 0, 0, 0]) 0 0x3505 40 5 ∧
      packet false (Bitstream.ofBytes [0x35, 0x05, 0, 0, 0]) 0 = .error .unexpected_eof) ∧
    (T1Packet (Bitstream.ofBytes [0x32, 0x20]) 0 0x3220 17 0 ∧
      packet false (Bitstream.ofBytes [0x32, 0x20]) 0 = .error .null_deref) := by
  decide

theorem unknown_register_witness :
    packet false (Bitstream.ofBytes [0x35, 0x01, 0x12, 0x34]) 0 =
      if 0 + 2 + 1 * 2 > (Bitstream.ofBytes [0x35, 0x01, 0x12, 0x34]).bit_eof
      then .error .unexpected_eof
      else .ok (0 + 2 + 1 * 2, info_hdr false 0 ++ [Msg.W_unknown_reg 0 0x3501 40 1]) :=
  unknown_register false (Bitstream.ofBytes [0x35, 0x01, 0x12, 0x34]) 0 0x3501 40 1
    (by decide) (by decide) (by decide)

/-! ## Type-2 packets -/

/-- The iteration of the packet loop at a type-2 read or write packet. -/
theorem packet_T2Packet (info : Bool) (b : Bitstream) (cur hdr reg wc : Nat)
    (hmax : b.bit_eof < BITSTREAM_MAX) (hp : T2Packet b cur hdr reg wc) :
    wc ≤ 31 ∧ packet info b cur =
      if cur + 2 + wc * 2 > b.bit_eof then .error .unexpected_eof
      else (type2 info b (cur + 2 + wc * 2) cur hdr reg wc).map
        (fun r => (r.1, info_hdr info cur ++ r.2)) := by
  obtain ⟨hh, ht, ho, hr, hw⟩ := hp
  have hlt := be16_ok hh
  have hwc := packet_hdr_wordcount_le hdr
  refine ⟨hw ▸ hwc, ?_⟩
  have hM : BITSTREAM_MAX = 122880000 := by decide
  have e1 : u32 (cur + 2) = cur + 2 := u32_of_lt (by omega)
  have e2 : u32 (cur + 2 + packet_hdr_wordcount hdr * 2) = cur + 2 + packet_hdr_wordcount hdr * 2 :=
    u32_of_lt (by omega)
  have e3 : ¬ (cur + 2 > b.bit_eof) := by omega
  have ho0 : packet_hdr_opcode hdr ≠ 0 := by omega
  have ho3 : packet_hdr_opcode hdr ≠ 3 := by omega
  subst hr hw
  unfold packet
  by_cases hc : cur + 2 + packet_hdr_wordcount hdr * 2 > b.bit_eof
  · simp [e1, e2, hh, ht, info_hdr, e3, hc, ho0, ho3, bind, Except.bind, pure, Except.pure,
      throw, throwThe, MonadExceptOf.throw]
  · simp [e1, e2, hh, ht, info_hdr, e3, hc, ho0, ho3, bind, Except.bind, pure, Except.pure,
      throw, throwThe, MonadExceptOf.throw, Except.map]

/-- C5 (as the code has it): a type-2 read or write packet whose register field is not
FDRI fails fatally; one whose register is FDRI and whose declared payload length
`2*count` is below 130 fails fatally as well, with the type-2 length error when the
`2*count` payload bytes are all in the file and with unexpected EOF when they are not
(the bounds check of line 826 comes before the length check of line 827). -/
theorem type2_register_and_length (info : Bool) (b : Bitstream) (cur hdr reg wc : Nat)
    (hmax : b.bit_eof < BITSTREAM_MAX) (hp : T2Packet b cur hdr reg wc) :
    (reg ≠ FDRI → ∃ e, packet info b cur = .error e ∧ e.isFatal = true ∧
      (cur + 2 + wc * 2 ≤ b.bit_eof → e = .type2_register cur hdr)) ∧
    (∀ count, reg = FDRI → be32 b (cur + 2 + wc * 2) = .ok count → 2 * count < 130 →
      packet info b cur = .error (if cur + 2 + wc * 2 + 4 + 2 * count > b.bit_eof
        then .unexpected_eof else .type2_length cur hdr (2 * count)) ∧
      (if cur + 2 + wc * 2 + 4 + 2 * count > b.bit_eof
        then Err.unexpected_eof else Err.type2_length cur hdr (2 * count)).isFatal = true) := by
  obtain ⟨hwc, hpk⟩ := packet_T2Packet info b cur hdr reg wc hmax hp
  have hM : BITSTREAM_MAX = 122880000 := by decide
  constructor
  · intro hr
    by_cases hc : cur + 2 + wc * 2 > b.bit_eof
    · exact ⟨.unexpected_eof, by rw [hpk, if_pos hc], rfl, fun h => absurd h (by omega)⟩
    · refine ⟨.type2_register cur hdr, ?_, rfl, fun _ => rfl⟩
      rw [hpk, if_neg hc]
      simp [type2, hr, bind, Except.bind, throw, throwThe, MonadExceptOf.throw, Except.map]
  · intro count hr hcnt hlen
    have hlt := be32_ok hcnt
    have hc : ¬ (cur + 2 + wc * 2 > b.bit_eof) := by omega
    have e1 : u32 (cur + 2 + wc * 2 + 4) = cur + 2 + wc * 2 + 4 := u32_of_lt (by omega)
    have e2 : u32 (2 * count) = 2 * count := u32_of_lt (by omega)
    have e3 : u32 (cur + 2 + wc * 2 + 4 + 2 * count) = cur + 2 + wc * 2 + 4 + 2 * count :=
      u32_of_lt (by omega)
    have e4 : ¬ (b.bit_eof < cur + 2 + wc * 2 + 4) := by omega
    rw [hpk, if_neg hc]
    by_cases hp : cur + 2 + wc * 2 + 4 + 2 * count > b.bit_eof
    · simp [type2, hr, hcnt, e1, e2, e3, e4, hp, Err.isFatal, bind, Except.bind, throw,
        throwThe, MonadExceptOf.throw, Except.map, pure, Except.pure]
    · simp [type2, hr, hcnt, e1, e2, e3, e4, hp, hlen, Err.isFatal, bind, Except.bind, throw,
        throwThe, MonadExceptOf.throw, Except.map, pure, Except.pure]

/-- C5, the input that refutes the claim: the type-2 FDRI packet `50 60` with count
`00 00 00 01` declares a payload of 2 bytes, fewer than 130; the file ends behind the
count, and the decode fails with unexpected EOF, not with the type-2 length error. -/
theorem type2_short_truncated_is_eof :
    T2Packet (Bitstream.ofBytes [0x50, 0x60, 0, 0, 0, 1]) 0 0x5060 FDRI 0 ∧
    be32 (Bitstream.ofBytes [0x50, 0x60, 0, 0, 0, 1]) 2 = .ok 1 ∧
    packet false (Bitstream.ofBytes [0x50, 0x60, 0, 0, 0, 1]) 0 = .error .unexpected_eof ∧
    packet false (Bitstream.ofBytes [0x50, 0x60, 0, 0, 0, 1]) 0 ≠
      .error (.type2_length 0 0x5060 2) := by
  decide

theorem type2_register_and_length_witness :
    packet false (Bitstream.ofBytes [0x50, 0x60, 0, 0, 0, 1, 0xAB, 0xCD]) 0 =
      .error (if 0 + 2 + 0 * 2 + 4 + 2 * 1 >
          (Bitstream.ofBytes [0x50, 0x60, 0, 0, 0, 1, 0xAB, 0xCD]).bit_eof
        then .unexpected_eof else .type2_length 0 0x5060 (2 * 1)) :=
  ((type2_register_and_length false (Bitstream.ofBytes [0x50, 0x60, 0, 0, 0, 1, 0xAB, 0xCD])
    0 0x5060 FDRI 0 (by decide) (by decide)).2 1 rfl (by decide) (by decide)).1

/-! ## Frame classification -/

theorem swab16_bytes (lo hi : Nat) (hlo : lo < 256) (hhi : hi < 256) :
    __swab16 (lo + 256 * hi) = lo * 256 + hi := by
  unfold __swab16
  have h1 : (lo + 256 * hi) &&& 0x00ff = lo := by
    have e : (0x00ff : Nat) = 2 ^ 8 - 1 := by decide
    rw [e, Nat.and_pow_two_sub_one_eq_mod]; omega
  have h2 : ((lo + 256 * hi) &&& 0xff00) >>> 8 = hi := by
    have e : (0xff00 : Nat) = (2 ^ 8 - 1) <<< 8 := by decide
    rw [e, and_mask_shift]; omega
  rw [h1, h2, Nat.shiftLeft_eq, Nat.mul_comm lo,
    ← @Nat.mul_add_lt_is_or 8 hi (by omega) lo]

theorem bytes_all_iff (b : Bitstream) (x : Nat) :
    ∀ n j, bytes_all b x n j = true ↔ ∀ t, t < n → byte b (j + t) = x := by
  intro n
  induction n with
  | zero => intro j; simp [bytes_all]
  | succ n ih =>
    intro j
    simp only [bytes_all, Bool.and_eq_true, beq_iff_eq, ih]
    constructor
    · rintro ⟨h0, h⟩ t ht
      rcases Nat.eq_zero_or_pos t with h1 | h1
      · subst h1; simpa using h0
      · have := h (t - 1) (by omega)
        have e : j + 1 + (t - 1) = j + t := by omega
        rwa [e] at this
    · intro h
      refine ⟨by simpa using h 0 (by omega), fun t ht => ?_⟩
      have := h (t + 1) (by omega)
      have e : j + (t + 1) = j + 1 + t := by omega
      rwa [e] at this

theorem scan_eq (b : Bitstream) (base : Nat) :
    ∀ n j z o, base + j + n ≤ b.bit_eof → b.bit_eof < 4294967296 →
      scan b base n j z o =
        .ok (z && bytes_all b 0 n (base + j), o && bytes_all b 0xff n (base + j)) := by
  intro n
  induction n with
  | zero => intro j z o _ _; simp [scan, bytes_all, pure, Except.pure]
  | succ n ih =>
    intro j z o h hm
    have e : u32 (base + j) = base + j := u32_of_lt (by omega)
    have hr : rd8 b (base + j) = .ok (byte b (base + j)) := rd8_of_lt (by omega)
    have hi := ih (j + 1) (z && (byte b (base + j) == 0)) (o && (byte b (base + j) == 0xff))
      (by omega) hm
    have e2 : base + (j + 1) = base + j + 1 := by omega
    rw [e2] at hi
    unfold scan
    simp only [e, hr, bind, Except.bind, bytes_all]
    by_cases h0 : byte b (base + j) = 0
    · simp [h0, pure, Except.pure] at hi ⊢
      cases z <;> simp [hi]
    · by_cases h1 : byte b (base + j) = 0xff
      · simp [h1, pure, Except.pure] at hi ⊢
        cases o <;> simp [hi]
      · simp [h0, h1, pure, Except.pure]

theorem rd_bytes_eq (b : Bitstream) (base : Nat) :
    ∀ n j, base + j + n ≤ b.bit_eof → b.bit_eof < 4294967296 →
      rd_bytes b base n j = .ok (bytes b n (base + j)) := by
  intro n
  induction n with
  | zero => intro j _ _; rfl
  | succ n ih =>
    intro j h hm
    have e : u32 (base + j) = base + j := u32_of_lt (by omega)
    have hr : rd8 b (base + j) = .ok (byte b (base + j)) := rd8_of_lt (by omega)
    have hi := ih (j + 1) (by omega) hm
    have e2 : base + (j + 1) = base + j + 1 := by omega
    rw [e2] at hi
    simp [rd_bytes, e, hr, hi, bytes, bind, Except.bind, pure, Except.pure]

theorem rdN_eq (b : Bitstream) :
    ∀ n i, (n = 0 ∨ i + n ≤ b.bit_eof) → rdN b i n = .ok (bytes b n i) := by
  intro n
  induction n with
  | zero => intro i _; rfl
  | succ n ih =>
    intro i h
    have h : i + (n + 1) ≤ b.bit_eof := by omega
    have hr : rd8 b i = .ok (byte b i) := rd8_of_lt (by omega)
    have hi := ih (i + 1) (Or.inr (by omega))
    simp [rdN, hr, hi, bytes, bind, Except.bind, pure, Except.pure]

theorem hexdump_lines_ok (b : Bitstream) (data len width : Nat) (h : data + len ≤ b.bit_eof) :
    ∀ n i, ∃ out, hexdump_lines b data len width n i = .ok out ∧ out.length = n ∧
      ∀ m ∈ out, ∃ off bs, m = Msg.hexdump_line width off bs := by
  intro n
  induction n with
  | zero => intro i; exact ⟨[], rfl, rfl, by simp⟩
  | succ n ih =>
    intro i
    obtain ⟨out, ho, hl, hm⟩ := ih (i + 8)
    have hr := rdN_eq b (min 8 (len - i)) (data + i) (by omega)
    refine ⟨Msg.hexdump_line width i (bytes b (min 8 (len - i)) (data + i)) :: out, ?_, ?_, ?_⟩
    · simp [hexdump_lines, hr, ho, bind, Except.bind, pure, Except.pure]
    · simp [hl]
    · intro m hmem
      rcases List.mem_cons.mp hmem with h1 | h1
      · exact ⟨_, _, h1⟩
      · exact hm m h1

theorem hexdump_ok (b : Bitstream) (data len : Nat) (h : data + len ≤ b.bit_eof) :
    ∃ out, hexdump b data len = .ok out ∧
      ∀ m ∈ out, ∃ width off bs, m = Msg.hexdump_line width off bs := by
  unfold hexdump
  obtain ⟨out, ho, _, hm⟩ := hexdump_lines_ok b data len
    (if len ≤ 0x100 then 2 else if len ≤ 0x10000 then 4 else 6) h ((len + 7) / 8) 0
  exact ⟨out, ho, fun m hmem => ⟨_, hm m hmem⟩⟩

theorem bytes_all_append (b : Bitstream) (x : Nat) :
    ∀ n m j, bytes_all b x (n + m) j = (bytes_all b x n j && bytes_all b x m (j + n)) := by
  intro n
  induction n with
  | zero => intro m j; simp [bytes_all]
  | succ n ih =>
    intro m j
    have e : n + 1 + m = (n + m) + 1 := by omega
    have e2 : j + (n + 1) = j + 1 + n := by omega
    rw [e, bytes_all, ih, bytes_all, e2, Bool.and_assoc]

/-- The three tests of source lines 874-875 resp. 879-881 together say that all 130 bytes
of the frame have the value `x`. -/
theorem frame_uniform (b : Bitstream) (x base : Nat) (hx : x < 256) :
    (bytes_all b x 64 base && decide (byte b (base + 64) * 256 + byte b (base + 65)
        = x * 256 + x) && bytes_all b x 64 (base + 66)) = bytes_all b x 130 base := by
  have h1 := bytes_all_append b x 64 66 base
  have h2 := bytes_all_append b x 2 64 (base + 64)
  have e : base + 64 + 2 = base + 66 := by omega
  rw [e] at h2
  have hb0 : byte b (base + 64) < 256 := Nat.mod_lt _ (by decide)
  have hb1 : byte b (base + 65) < 256 := Nat.mod_lt _ (by decide)
  have h3 : bytes_all b x 2 (base + 64) =
      decide (byte b (base + 64) * 256 + byte b (base + 65) = x * 256 + x) := by
    have e65 : base + 64 + 1 = base + 65 := by omega
    simp only [bytes_all, Bool.and_true, e65]
    rw [Bool.eq_iff_iff]
    simp only [Bool.and_eq_true, beq_iff_eq, decide_eq_true_eq]
    constructor
    · rintro ⟨h, h'⟩; rw [h, h']
    · intro h; constructor <;> omega
  rw [show (130 : Nat) = 64 + 66 from rfl, h1, h2, h3, Bool.and_assoc]

/-- The frame record(s) of a frame in the first frame loop, for a frame that lies in the
file: `frame_130 all_0` resp. `frame_130 all_1` exactly when all 130 bytes are `0x00`
resp. `0xFF`, the three records of the halves and the middle word otherwise. -/
theorem frame_lo_eq (b : Bitstream) (bit_cur i : Nat)
    (h : bit_cur + i * 130 + 130 ≤ b.bit_eof) (hm : b.bit_eof < 4294967296) :
    frame_lo b bit_cur i = .ok
      (if bytes_all b 0 130 (bit_cur + i * 130) then [Msg.frame_130_all_0]
       else if bytes_all b 0xff 130 (bit_cur + i * 130) then [Msg.frame_130_all_1]
       else [half_record b (bit_cur + i * 130),
             Msg.frame_2 (middle_word b (bit_cur + i * 130)),
             half_record b (bit_cur + i * 130 + 66)]) := by
  have e : u32 (bit_cur + i * 130 + 64) = bit_cur + i * 130 + 64 := u32_of_lt (by omega)
  have hw : be16 b (bit_cur + i * 130 + 64) = .ok (middle_word b (bit_cur + i * 130)) := by
    rw [be16_eq b _ (by omega), swab16_bytes _ _ (Nat.mod_lt _ (by decide))
      (Nat.mod_lt _ (by decide))]
    rfl
  have s1 := scan_eq b (bit_cur + i * 130) 64 0 true true (by omega) hm
  have s2 := scan_eq b (bit_cur + i * 130) 64 66 true true (by omega) hm
  have r1 := rd_bytes_eq b (bit_cur + i * 130) 64 0 (by omega) hm
  have r2 := rd_bytes_eq b (bit_cur + i * 130) 64 66 (by omega) hm
  have u0 := frame_uniform b 0 (bit_cur + i * 130) (by decide)
  have u1 := frame_uniform b 0xff (bit_cur + i * 130) (by decide)
  simp only [Nat.add_zero, Bool.true_and] at s1 s2 r1 r2
  rw [← u0, ← u1]
  unfold frame_lo
  simp only [e, hw, s1, s2, bind, Except.bind, half, half_record, middle_word]
  generalize bytes_all b 0 64 (bit_cur + i * 130) = z1
  generalize bytes_all b 0xff 64 (bit_cur + i * 130) = o1
  generalize bytes_all b 0 64 (bit_cur + i * 130 + 66) = z2
  generalize bytes_all b 0xff 64 (bit_cur + i * 130 + 66) = o2
  generalize byte b (bit_cur + i * 130 + 64) * 256 + byte b (bit_cur + i * 130 + 65) = w
  cases z1 <;> cases o1 <;> cases z2 <;> cases o2 <;>
    by_cases hw0 : w = 0 <;> by_cases hw1 : w = 0xFFFF <;>
    simp_all [r1, r2, pure, Except.pure, bind, Except.bind]

theorem frame_hi_no_region (b : Bitstream) (bit_cur num_frames i : Nat)
    (hr : ram_match i num_frames = none)
    (h : bit_cur + i * 130 + 130 ≤ b.bit_eof) (hm : b.bit_eof < 4294967296) :
    ∃ dump, (∀ m ∈ dump, ∃ width off bs, m = Msg.hexdump_line width off bs) ∧
      frame_hi b bit_cur num_frames i = .ok
        ((if i = 2020 then [Msg.D_content_start] else []) ++
          (if bytes_all b 0 130 (bit_cur + i * 130) then [Msg.frame_130_all_0]
           else if bytes_all b 0xff 130 (bit_cur + i * 130) then [Msg.frame_130_all_1]
           else Msg.frame_130 (i - 2020) (bit_cur + i * 130) :: dump), i + 1) := by
  have e : u32 (bit_cur + i * 130) = bit_cur + i * 130 := u32_of_lt (by omega)
  have s1 := scan_eq b (bit_cur + i * 130) 130 0 true true (by omega) hm
  simp only [Nat.add_zero, Bool.true_and] at s1
  obtain ⟨dump, hd, hdm⟩ := hexdump_ok b (bit_cur + i * 130) 130 (by omega)
  refine ⟨dump, hdm, ?_⟩
  unfold frame_hi
  simp only [hr, s1, e, hd, bind, Except.bind]
  cases bytes_all b 0 130 (bit_cur + i * 130) <;>
    cases bytes_all b 0xff 130 (bit_cur + i * 130) <;>
    simp [pure, Except.pure]

theorem classified_of_cases (b : Bitstream) (base : Nat) (rest : List Msg)
    (hrest : Msg.frame_130_all_0 ∉ rest ∧ Msg.frame_130_all_1 ∉ rest) :
    Classified b base
      (if bytes_all b 0 130 base then [Msg.frame_130_all_0]
       else if bytes_all b 0xff 130 base then [Msg.frame_130_all_1] else rest) := by
  have h0 := bytes_all_iff b 0 130 base
  have h1 := bytes_all_iff b 0xff 130 base
  have hne : bytes_all b 0 130 base = true → bytes_all b 0xff 130 base = true → False := by
    intro a c
    have x := h0.mp a 0 (by omega)
    have y := h1.mp c 0 (by omega)
    omega
  unfold Classified
  cases hz : bytes_all b 0 130 base <;> cases ho : bytes_all b 0xff 130 base
  · simp only [hz, ho, Bool.false_eq_true, false_iff] at h0 h1
    simp only [Bool.false_eq_true, if_false]
    exact ⟨fun h => absurd h h0, fun h => absurd h h1, fun h => absurd h hrest.1,
      fun h => absurd h hrest.2⟩
  · simp only [hz, ho, Bool.false_eq_true, false_iff, true_iff] at h0 h1
    simp only [Bool.false_eq_true, if_false, if_true]
    exact ⟨fun h => absurd h h0, fun _ => trivial, fun h => by simp at h, fun _ => h1⟩
  · simp only [hz, ho, Bool.false_eq_true, false_iff, true_iff] at h0 h1
    simp only [if_true]
    exact ⟨fun _ => trivial, fun h => absurd h h1, fun _ => h0, fun h => by simp at h⟩
  · exact absurd ho (fun h => hne hz h)

/-- C4 (as the code has it): for a frame that lies in the file, the record printed by the
first frame loop (indices below 2020, after the `#D` markers) and the record printed by
the second frame loop at an index that is not the start of a decoded block-RAM region
(after `#D 2020 - content start` at index 2020) is exactly `frame_130 all_0` when all
130 bytes are `0x00`, exactly `frame_130 all_1` when all are `0xFF`, and contains neither
token for any other byte pattern. -/
theorem frame_130_classification (b : Bitstream) (bit_cur num_frames i : Nat)
    (hmax : b.bit_eof < BITSTREAM_MAX) (h : bit_cur + i * 130 + 130 ≤ b.bit_eof) :
    (∃ out, frame_lo b bit_cur i = .ok out ∧ Classified b (bit_cur + i * 130) out) ∧
    (ram_match i num_frames = none →
      ∃ out, frame_hi b bit_cur num_frames i =
          .ok ((if i = 2020 then [Msg.D_content_start] else []) ++ out, i + 1) ∧
        Classified b (bit_cur + i * 130) out) := by
  have hM : BITSTREAM_MAX = 122880000 := by decide
  have hm : b.bit_eof < 4294967296 := by omega
  constructor
  · refine ⟨_, frame_lo_eq b bit_cur i h hm, classified_of_cases b _ _ ?_⟩
    simp [half_record]
    constructor <;> constructor <;> split <;> (try split) <;> simp
  · intro hr
    obtain ⟨dump, hdm, hf⟩ := frame_hi_no_region b bit_cur num_frames i hr h hm
    refine ⟨_, hf, classified_of_cases b _ _ ?_⟩
    constructor
    · intro hmem
      rcases List.mem_cons.mp hmem with h1 | h1
      · cases h1
      · obtain ⟨_, _, _, h2⟩ := hdm _ h1
        cases h2
    · intro hmem
      rcases List.mem_cons.mp hmem with h1 | h1
      · cases h1
      · obtain ⟨_, _, _, h2⟩ := hdm _ h1
        cases h2

set_option maxRecDepth 1000000 in
/-- C4, the input that refutes the claim: with 2190 frames in the payload, frame
2172 = 2020 + 152 is the start of a block-RAM region with 18 frames available. In a file
of zero bytes all 130 bytes of that frame (and of the 17 frames behind it) are `0x00`,
yet the loop body at index 2172 prints `RAMB16_X0Y0 data` and nothing else and moves on
to index 2190: no `frame_130 all_0` is printed for the frames 2172 to 2189. -/
theorem frame_in_ram_region_not_classified :
    (∀ t, t < 18 * 130 → byte zeros (100 + 2172 * 130 + t) = 0x00) ∧
    frame_hi zeros 100 2190 2172 = .ok ([Msg.RAMB16_data 0], 2190) :=
  ⟨fun _ _ => rfl, by decide⟩

theorem frame_130_classification_witness :
    ∃ out, frame_lo zeros 100 7 = .ok out ∧ Classified zeros (100 + 7 * 130) out :=
  (frame_130_classification zeros 100 2190 7 (by decide) (by decide)).1

/-! ## Inputs on which the 32-bit length arithmetic wraps -/

set_option maxRecDepth 1000000 in
/-- C1, the inputs on which the code does not do what the claim says. The command block of
`file_cmd_len_wraps` declares `0xFFFFFFFF` bytes where 4 are left: the sum at line 356
wraps to 33, the check passes and the program returns `EXIT_SUCCESS`. The type-2 packet of
`file_count_wraps` declares `0xFFFFFFF0` payload bytes where none is left: the sum at line
826 wraps to 28, the check passes, and the first frame is read at index 108 of a file of
44 bytes. -/
theorem length_check_wraps :
    file_cmd_len_wraps.bit_eof = 38 ∧
    main false file_cmd_len_wraps =
      .ok (file_head_records ++ [Msg.W_continuation 38, Msg.sync_word]) ∧
    file_count_wraps.bit_eof = 44 ∧
    main false file_count_wraps = .error (.oob 108) := by
  decide

set_option maxRecDepth 1000000 in
/-- C6, the input on which the code does not do what the claim says: the packet of
`file_count_high_bit` has the word count `c = 0x80000041`, so `2c = 4294967426`,
`2c / 130 = 33038210` and `2c % 130 = 126`. The product at line 826 wraps to 130: the
packet is accepted, one frame is decoded and no tail is dumped. -/
theorem num_frames_wraps :
    be32 file_count_high_bit 40 = .ok 0x80000041 ∧
    (2 * 0x80000041) / 130 = 33038210 ∧ (2 * 0x80000041) % 130 = 126 ∧
    main false file_count_high_bit =
      .ok (file_head_records ++ [Msg.sync_word, Msg.T2_FDRI, Msg.D_row 0,
        Msg.D_major 0 4 "unknown", Msg.frame_130_all_0]) := by
  decide

/-! ## A block-RAM region whose strings depend on bytes outside the region -/

set_option maxRecDepth 1000000 in
/-- C2, the input on which the code does not do what the claim says: `zeros` and
`zeros_but_one` agree on the 2340 bytes of the region that starts at frame 2172 (payload
at index 100, 2200 frames), and differ in byte 16 of frame 2190. For `zeros` the region
prints no string; for `zeros_but_one` it prints `init_08` with the first byte `80`: bit 0
of byte 0 of data string 8 is read at `bit_off = 8*2304 + 15*18 + 2 = 18704`, byte
`18 + 2338 = 2356` of the region, which has 2340 bytes. -/
theorem init_str_reads_outside_region :
    (∀ t, t < 2340 → byte zeros (100 + 2172 * 130 + t)
      = byte zeros_but_one (100 + 2172 * 130 + t)) ∧
    bit_off false 8 0 0 = 18704 ∧
    frame_hi zeros 100 2200 2172 = .ok ([Msg.RAMB16_data 0], 2190) ∧
    frame_hi zeros_but_one 100 2200 2172 =
      .ok ([Msg.RAMB16_data 0, Msg.init 8 ('8' :: List.replicate 63 '0')], 2190) := by
  refine ⟨?_, by decide, by decide, by decide⟩
  intro t ht
  have : 100 + 2172 * 130 + t ≠ 284816 := by omega
  simp [byte, zeros, zeros_but_one, this]

/-! ## Termination of the packet loop -/

theorem raises_iff {α : Type} (r : Except Err α) (P : Err → Prop) :
    Raises r P ↔ ∀ e, r = .error e → P e := by
  unfold Raises; rfl

theorem raises_pure {α : Type} (a : α) (P : Err → Prop) : Raises (pure a : Except Err α) P := by
  rw [raises_iff]; intro e h; cases h

theorem raises_ok {α : Type} (a : α) (P : Err → Prop) : Raises (.ok a : Except Err α) P := by
  rw [raises_iff]; intro e h; cases h

theorem raises_throw {α : Type} (e : Err) (P : Err → Prop) (h : P e) :
    Raises (throw e : Except Err α) P := by
  rw [raises_iff]; intro e2 h2; cases h2; exact h

theorem raises_error {α : Type} (e : Err) (P : Err → Prop) (h : P e) :
    Raises (.error e : Except Err α) P := by
  rw [raises_iff]; intro e2 h2; cases h2; exact h

theorem raises_bind {α β : Type} (x : Except Err α) (f : α → Except Err β) (P : Err → Prop)
    (hx : Raises x P) (hf : ∀ a, Raises (f a) P) : Raises (x >>= f) P := by
  rw [raises_iff] at hx ⊢
  intro e h
  cases x with
  | error e2 => cases h; exact hx _ rfl
  | ok a => exact (raises_iff _ _).mp (hf a) e h

theorem raises_ite {α : Type} (c : Prop) [Decidable c] (x y : Except Err α) (P : Err → Prop)
    (hx : Raises x P) (hy : Raises y P) : Raises (if c then x else y) P := by
  split
  · exact hx
  · exact hy

theorem notFuel_iff (e : Err) : NotFuel e ↔ e ≠ .out_of_fuel := by
  unfold NotFuel; rfl

theorem raises_throw_nf {α : Type} (e : Err) (h : e ≠ .out_of_fuel) :
    Raises (throw e : Except Err α) NotFuel :=
  raises_throw e _ ((notFuel_iff e).mpr h)

theorem rd8_raises (b : Bitstream) (i : Nat) : Raises (rd8 b i) NotFuel := by
  unfold rd8
  apply raises_ite
  · apply raises_ok
  · exact raises_error _ _ ((notFuel_iff _).mpr (by intro h; cases h))

theorem be16_raises (b : Bitstream) (i : Nat) : Raises (be16 b i) NotFuel := by
  unfold be16
  repeat' (first | apply rd8_raises | with_reducible apply raises_bind
                        | with_reducible apply raises_pure | intro _)

theorem be32_raises (b : Bitstream) (i : Nat) : Raises (be32 b i) NotFuel := by
  unfold be32
  repeat' (first | apply rd8_raises | with_reducible apply raises_bind
                        | with_reducible apply raises_pure | intro _)

theorem rdN_raises (b : Bitstream) : ∀ n i, Raises (rdN b i n) NotFuel := by
  intro n
  induction n with
  | zero => intro i; apply raises_pure
  | succ n ih =>
    intro i
    unfold rdN
    repeat' (first | apply rd8_raises | apply ih | with_reducible apply raises_bind
                          | with_reducible apply raises_pure | intro _)

theorem t1_idcode_raises (b : Bitstream) (o h w : Nat) : Raises (t1_idcode b o h w) NotFuel := by
  unfold t1_idcode
  try dsimp only
  repeat' (first | with_reducible apply be16_raises | with_reducible apply be32_raises
                        | with_reducible apply raises_bind | with_reducible apply raises_ite
                        | with_reducible apply raises_pure | with_reducible apply raises_ok
                        | ((with_reducible apply raises_throw_nf); intro hne; cases hne) | intro _
                        | fail_if_no_progress beta_reduce | split)

theorem t1_cmd_raises (b : Bitstream) (o h w : Nat) : Raises (t1_cmd b o h w) NotFuel := by
  unfold t1_cmd
  try dsimp only
  repeat' (first | with_reducible apply be16_raises | with_reducible apply be32_raises
                        | with_reducible apply raises_bind | with_reducible apply raises_ite
                        | with_reducible apply raises_pure | with_reducible apply raises_ok
                        | ((with_reducible apply raises_throw_nf); intro hne; cases hne) | intro _
                        | fail_if_no_progress beta_reduce | split)

theorem t1_flr_raises (b : Bitstream) (o h w : Nat) : Raises (t1_flr b o h w) NotFuel := by
  unfold t1_flr
  try dsimp only
  repeat' (first | with_reducible apply be16_raises | with_reducible apply be32_raises
                        | with_reducible apply raises_bind | with_reducible apply raises_ite
                        | with_reducible apply raises_pure | with_reducible apply raises_ok
                        | ((with_reducible apply raises_throw_nf); intro hne; cases hne) | intro _
                        | fail_if_no_progress beta_reduce | split)

theorem t1_cor1_raises (b : Bitstream) (o h w : Nat) : Raises (t1_cor1 b o h w) NotFuel := by
  unfold t1_cor1
  try dsimp only
  repeat' (first | with_reducible apply be16_raises | with_reducible apply be32_raises
                        | with_reducible apply raises_bind | with_reducible apply raises_ite
                        | with_reducible apply raises_pure | with_reducible apply raises_ok
                        | ((with_reducible apply raises_throw_nf); intro hne; cases hne) | intro _
                        | fail_if_no_progress beta_reduce | split)

theorem t1_cor2_raises (b : Bitstream) (o h w : Nat) : Raises (t1_cor2 b o h w) NotFuel := by
  unfold t1_cor2
  try dsimp only
  repeat' (first | with_reducible apply be16_raises | with_reducible apply be32_raises
                        | with_reducible apply raises_bind | with_reducible apply raises_ite
                        | with_reducible apply raises_pure | with_reducible apply raises_ok
                        | ((with_reducible apply raises_throw_nf); intro hne; cases hne) | intro _
                        | fail_if_no_progress beta_reduce | split)

theorem t1_far_maj_raises (b : Bitstream) (o : Nat) : Raises (t1_far_maj b o) NotFuel := by
  unfold t1_far_maj
  try dsimp only
  repeat' (first | with_reducible apply be16_raises | with_reducible apply be32_raises
                        | with_reducible apply raises_bind | with_reducible apply raises_ite
                        | with_reducible apply raises_pure | with_reducible apply raises_ok
                        | ((with_reducible apply raises_throw_nf); intro hne; cases hne) | intro _
                        | fail_if_no_progress beta_reduce | split)

theorem t1_mfwr_raises (b : Bitstream) (o h w : Nat) : Raises (t1_mfwr b o h w) NotFuel := by
  unfold t1_mfwr
  try dsimp only
  repeat' (first | with_reducible apply be16_raises | with_reducible apply be32_raises
                        | with_reducible apply raises_bind | with_reducible apply raises_ite
                        | with_reducible apply raises_pure | with_reducible apply raises_ok
                        | ((with_reducible apply raises_throw_nf); intro hne; cases hne) | intro _
                        | fail_if_no_progress beta_reduce | split)

theorem t1_ctl_raises (b : Bitstream) (o h w : Nat) : Raises (t1_ctl b o h w) NotFuel := by
  unfold t1_ctl
  try dsimp only
  repeat' (first | with_reducible apply be16_raises | with_reducible apply be32_raises
                        | with_reducible apply raises_bind | with_reducible apply raises_ite
                        | with_reducible apply raises_pure | with_reducible apply raises_ok
                        | ((with_reducible apply raises_throw_nf); intro hne; cases hne) | intro _
                        | fail_if_no_progress beta_reduce | split)

theorem t1_mask_raises (b : Bitstream) (o h w : Nat) : Raises (t1_mask b o h w) NotFuel := by
  unfold t1_mask
  try dsimp only
  repeat' (first | with_reducible apply be16_raises | with_reducible apply be32_raises
                        | with_reducible apply raises_bind | with_reducible apply raises_ite
                        | with_reducible apply raises_pure | with_reducible apply raises_ok
                        | ((with_reducible apply raises_throw_nf); intro hne; cases hne) | intro _
                        | fail_if_no_progress beta_reduce | split)

theorem t1_pwrdn_reg_raises (b : Bitstream) (o h w : Nat) : Raises (t1_pwrdn_reg b o h w) NotFuel := by
  unfold t1_pwrdn_reg
  try dsimp only
  repeat' (first | with_reducible apply be16_raises | with_reducible apply be32_raises
                        | with_reducible apply raises_bind | with_reducible apply raises_ite
                        | with_reducible apply raises_pure | with_reducible apply raises_ok
                        | ((with_reducible apply raises_throw_nf); intro hne; cases hne) | intro _
                        | fail_if_no_progress beta_reduce | split)

theorem t1_hc_opt_reg_raises (b : Bitstream) (o h w : Nat) : Raises (t1_hc_opt_reg b o h w) NotFuel := by
  unfold t1_hc_opt_reg
  try dsimp only
  repeat' (first | with_reducible apply be16_raises | with_reducible apply be32_raises
                        | with_reducible apply raises_bind | with_reducible apply raises_ite
                        | with_reducible apply raises_pure | with_reducible apply raises_ok
                        | ((with_reducible apply raises_throw_nf); intro hne; cases hne) | intro _
                        | fail_if_no_progress beta_reduce | split)

theorem reg_name_empty_raises (r : Nat) : Raises (reg_name_empty r) NotFuel := by
  unfold reg_name_empty
  repeat' (first | with_reducible apply be16_raises | with_reducible apply be32_raises
                        | with_reducible apply raises_bind | with_reducible apply raises_ite
                        | with_reducible apply raises_pure | with_reducible apply raises_ok
                        | ((with_reducible apply raises_throw_nf); intro hne; cases hne) | intro _
                        | fail_if_no_progress beta_reduce | split)

theorem t1_words_raises (b : Bitstream) (o : Nat) : ∀ n i, Raises (t1_words b o n i) NotFuel := by
  intro n
  induction n with
  | zero => intro i; apply raises_pure
  | succ n ih =>
    intro i
    unfold t1_words
    repeat' (first | apply be16_raises | apply ih | with_reducible apply raises_bind
                          | with_reducible apply raises_pure | intro _)

theorem t1_generic_raises (b : Bitstream) (o r w : Nat) :
    Raises (t1_generic b o r w) NotFuel := by
  unfold t1_generic
  try dsimp only
  repeat' (first | with_reducible apply t1_words_raises | with_reducible apply raises_bind
                        | with_reducible apply raises_pure
                        | ((with_reducible apply raises_throw_nf); intro hne; cases hne) | intro _
                        | fail_if_no_progress beta_reduce | split)

theorem type1_raises (b : Bitstream) (o h r w : Nat) : Raises (type1 b o h r w) NotFuel := by
  unfold type1
  try dsimp only
  repeat' (first | apply reg_name_empty_raises | apply t1_idcode_raises | apply t1_cmd_raises
                        | apply t1_flr_raises | apply t1_cor1_raises | apply t1_cor2_raises
                        | apply t1_far_maj_raises | apply t1_mfwr_raises | apply t1_ctl_raises
                        | apply t1_mask_raises | apply t1_pwrdn_reg_raises
                        | apply t1_hc_opt_reg_raises | apply t1_generic_raises
                        | with_reducible apply raises_bind | with_reducible apply raises_ite
                        | with_reducible apply raises_pure | intro _ | fail_if_no_progress beta_reduce)

theorem hexdump_lines_raises (b : Bitstream) (data len width : Nat) :
    ∀ n j, Raises (hexdump_lines b data len width n j) NotFuel := by
  intro n
  induction n with
  | zero => intro j; unfold hexdump_lines; apply raises_pure
  | succ n ih =>
    intro j
    unfold hexdump_lines
    try dsimp only
    repeat' (first | with_reducible apply ih | with_reducible apply rdN_raises
                        | with_reducible apply be16_raises | with_reducible apply rd8_raises
                        | with_reducible apply raises_bind | with_reducible apply raises_ite
                        | with_reducible apply raises_pure | with_reducible apply raises_ok
                        | ((with_reducible apply raises_throw_nf); intro hne; cases hne)
                        | intro _ | fail_if_no_progress beta_reduce | split)

theorem hexdump_raises (b : Bitstream) (data len : Nat) :
    Raises (hexdump b data len) NotFuel := by
  unfold hexdump
  exact hexdump_lines_raises b data len _ _ _

theorem scan_raises (b : Bitstream) (base : Nat) :
    ∀ n j z o, Raises (scan b base n j z o) NotFuel := by
  intro n
  induction n with
  | zero => intro j z o; unfold scan; apply raises_pure
  | succ n ih =>
    intro j z o
    unfold scan
    try dsimp only
    repeat' (first | with_reducible apply ih | with_reducible apply rd8_raises
                        | with_reducible apply raises_bind | with_reducible apply raises_ite
                        | with_reducible apply raises_pure | intro _
                        | fail_if_no_progress beta_reduce)

theorem rd_bytes_raises (b : Bitstream) (base : Nat) :
    ∀ n j, Raises (rd_bytes b base n j) NotFuel := by
  intro n
  induction n with
  | zero => intro j; unfold rd_bytes; apply raises_pure
  | succ n ih =>
    intro j
    unfold rd_bytes
    try dsimp only
    repeat' (first | with_reducible apply ih
                        | with_reducible apply be16_raises | with_reducible apply rd8_raises
                        | with_reducible apply raises_bind | with_reducible apply raises_ite
                        | with_reducible apply raises_pure | with_reducible apply raises_ok
                        | ((with_reducible apply raises_throw_nf); intro hne; cases hne)
                        | intro _ | fail_if_no_progress beta_reduce | split)

theorem any_nonzero_raises (b : Bitstream) (base : Nat) :
    ∀ n j, Raises (any_nonzero b base n j) NotFuel := by
  intro n
  induction n with
  | zero => intro j; unfold any_nonzero; apply raises_pure
  | succ n ih =>
    intro j
    unfold any_nonzero
    try dsimp only
    repeat' (first | with_reducible apply ih
                        | with_reducible apply be16_raises | with_reducible apply rd8_raises
                        | with_reducible apply raises_bind | with_reducible apply raises_ite
                        | with_reducible apply raises_pure | with_reducible apply raises_ok
                        | ((with_reducible apply raises_throw_nf); intro hne; cases hne)
                        | intro _ | fail_if_no_progress beta_reduce | split)

theorem half_raises (b : Bitstream) (base j : Nat) (z o : Bool) :
    Raises (half b base j z o) NotFuel := by
  unfold half
  repeat' (first | with_reducible apply rd_bytes_raises
                        | with_reducible apply raises_bind | with_reducible apply raises_ite
                        | with_reducible apply raises_pure | intro _
                        | fail_if_no_progress beta_reduce)

theorem frame_lo_raises (b : Bitstream) (bit_cur i : Nat) :
    Raises (frame_lo b bit_cur i) NotFuel := by
  unfold frame_lo
  try dsimp only
  repeat' (first | with_reducible apply be16_raises | with_reducible apply scan_raises
                        | with_reducible apply half_raises
                        | with_reducible apply raises_bind | with_reducible apply raises_ite
                        | with_reducible apply raises_pure | intro _
                        | fail_if_no_progress beta_reduce | split)

theorem frames_lo_raises (b : Bitstream) (bit_cur : Nat) :
    ∀ n i, Raises (frames_lo b bit_cur n i) NotFuel := by
  intro n
  induction n with
  | zero => intro i; unfold frames_lo; apply raises_pure
  | succ n ih =>
    intro i
    unfold frames_lo
    try dsimp only
    repeat' (first | with_reducible apply ih | with_reducible apply frame_lo_raises
                        | with_reducible apply raises_bind | with_reducible apply raises_ite
                        | with_reducible apply raises_pure | intro _
                        | fail_if_no_progress beta_reduce)

theorem src_bit_raises (b : Bitstream) (bit_cur i off : Nat) :
    Raises (src_bit b bit_cur i off) NotFuel := by
  unfold src_bit
  repeat' (first | with_reducible apply rd8_raises
                        | with_reducible apply raises_bind
                        | with_reducible apply raises_pure | intro _)

theorem init_byte_raises (b : Bitstream) (bit_cur i : Nat) (parity : Bool) (j k : Nat) :
    ∀ n l acc, Raises (init_byte b bit_cur i parity j k n l acc) NotFuel := by
  intro n
  induction n with
  | zero => intro l acc; unfold init_byte; apply raises_pure
  | succ n ih =>
    intro l acc
    unfold init_byte
    try dsimp only
    repeat' (first | with_reducible apply ih | with_reducible apply src_bit_raises
                        | with_reducible apply raises_bind
                        | with_reducible apply raises_pure | intro _
                        | fail_if_no_progress beta_reduce)

theorem init_str_raises (b : Bitstream) (bit_cur i : Nat) (parity : Bool) (j : Nat) :
    ∀ n k, Raises (init_str b bit_cur i parity j n k) NotFuel := by
  intro n
  induction n with
  | zero => intro k; unfold init_str; apply raises_pure
  | succ n ih =>
    intro k
    unfold init_str
    repeat' (first | with_reducible apply ih | with_reducible apply init_byte_raises
                        | with_reducible apply raises_bind
                        | with_reducible apply raises_pure | intro _
                        | fail_if_no_progress beta_reduce)

theorem init_strs_raises (b : Bitstream) (bit_cur i : Nat) (parity : Bool) :
    ∀ n j, Raises (init_strs b bit_cur i parity n j) NotFuel := by
  intro n
  induction n with
  | zero => intro j; unfold init_strs; apply raises_pure
  | succ n ih =>
    intro j
    unfold init_strs
    try dsimp only
    repeat' (first | with_reducible apply ih | with_reducible apply init_str_raises
                        | with_reducible apply raises_bind
                        | with_reducible apply raises_pure | intro _
                        | fail_if_no_progress beta_reduce)

theorem ramb16_raises (b : Bitstream) (bit_cur i j : Nat) :
    Raises (ramb16 b bit_cur i j) NotFuel := by
  unfold ramb16
  try dsimp only
  repeat' (first | with_reducible apply any_nonzero_raises
                        | with_reducible apply rd_bytes_raises
                        | with_reducible apply init_strs_raises
                        | with_reducible apply raises_bind | with_reducible apply raises_ite
                        | with_reducible apply raises_pure | intro _
                        | fail_if_no_progress beta_reduce)

theorem frame_hi_raises (b : Bitstream) (bit_cur num_frames i : Nat) :
    Raises (frame_hi b bit_cur num_frames i) NotFuel := by
  unfold frame_hi
  try dsimp only
  repeat' (first | with_reducible apply ramb16_raises | with_reducible apply scan_raises
                        | with_reducible apply hexdump_raises
                        | with_reducible apply raises_bind | with_reducible apply raises_ite
                        | with_reducible apply raises_pure | intro _
                        | fail_if_no_progress beta_reduce | split)

theorem bind_ok {α β : Type} {x : Except Err α} {f : α → Except Err β} {r : β}
    (h : x >>= f = .ok r) : ∃ a, x = .ok a ∧ f a = .ok r := by
  cases x with
  | error e => cases h
  | ok a => exact ⟨a, rfl, h⟩

theorem raises_bind_ok {α β : Type} (x : Except Err α) (f : α → Except Err β)
    (P : Err → Prop) (hx : Raises x P) (hf : ∀ a, x = .ok a → Raises (f a) P) :
    Raises (x >>= f) P := by
  rw [raises_iff] at hx ⊢
  intro e h
  cases x with
  | error e2 => cases h; exact hx _ rfl
  | ok a => exact (raises_iff _ _).mp (hf a rfl) e h

theorem scan_ok_lt {b : Bitstream} {base n j : Nat} {z o : Bool} {r : Bool × Bool}
    (h : scan b base (n + 1) j z o = .ok r) : u32 (base + j) < b.bit_eof := by
  unfold scan at h
  obtain ⟨x, hx, _⟩ := bind_ok h
  exact (rd8_ok hx).1

theorem any_nonzero_ok_lt {b : Bitstream} {base n j : Nat} {r : Bool}
    (h : any_nonzero b base (n + 1) j = .ok r) : u32 (base + j) < b.bit_eof := by
  unfold any_nonzero at h
  obtain ⟨x, hx, _⟩ := bind_ok h
  exact (rd8_ok hx).1

theorem ramb16_ok_lt {b : Bitstream} {bit_cur i j : Nat} {r : List Msg}
    (h : ramb16 b bit_cur i j = .ok r) : u32 (bit_cur + i * 130) < b.bit_eof := by
  unfold ramb16 at h
  obtain ⟨x, hx, _⟩ := bind_ok h
  have := @any_nonzero_ok_lt b (bit_cur + i * 130) 17 0 x hx
  simpa using this

/-- An iteration of the second frame loop that gets through has read the first byte of
frame `i` and continues at `i + 1` or, behind a block-RAM region, at `i + 18`. -/
theorem frame_hi_ok {b : Bitstream} {bit_cur num_frames i next : Nat} {out : List Msg}
    (h : frame_hi b bit_cur num_frames i = .ok (out, next)) :
    u32 (bit_cur + i * 130) < b.bit_eof ∧ (next = i + 1 ∨ next = i + 18) := by
  unfold frame_hi at h
  dsimp only at h
  split at h
  · obtain ⟨r, hr, h2⟩ := bind_ok h
    have := ramb16_ok_lt hr
    simp only [pure, Except.pure, Except.ok.injEq, Prod.mk.injEq] at h2
    exact ⟨this, Or.inr h2.2.symm⟩
  · obtain ⟨r, hr, h2⟩ := bind_ok h
    have := @scan_ok_lt b (bit_cur + i * 130) 129 0 true true r hr
    simp only [Nat.add_zero] at this
    refine ⟨this, Or.inl ?_⟩
    obtain ⟨z, o⟩ := r
    dsimp only at h2
    split at h2
    · simp only [pure, Except.pure, Except.ok.injEq, Prod.mk.injEq] at h2
      exact h2.2.symm
    · split at h2
      · simp only [pure, Except.pure, Except.ok.injEq, Prod.mk.injEq] at h2
        exact h2.2.symm
      · obtain ⟨hd, _, h3⟩ := bind_ok h2
        simp only [pure, Except.pure, Except.ok.injEq, Prod.mk.injEq] at h3
        exact h3.2.symm

theorem frames_hi_raises (b : Bitstream) (bit_cur num_frames : Nat) :
    ∀ fuel i, num_frames - i ≤ fuel → Raises (frames_hi b bit_cur num_frames fuel i) NotFuel := by
  intro fuel
  induction fuel with
  | zero =>
    intro i h
    unfold frames_hi
    rw [if_neg (by omega)]
    apply raises_pure
  | succ fuel ih =>
    intro i h
    unfold frames_hi
    apply raises_ite
    · apply raises_bind_ok
      · apply frame_hi_raises
      · rintro ⟨out, next⟩ hok
        have := (frame_hi_ok hok).2
        apply raises_bind
        · exact ih next (by omega)
        · intro _; apply raises_pure
    · apply raises_pure

/-- When the second frame loop gets through from an index `i` whose frame address has
not wrapped, the last frame lies less than 18 frames behind the end of the file. -/
theorem frames_hi_ok_bound (b : Bitstream) (bit_cur num_frames : Nat)
    (hmax : b.bit_eof < BITSTREAM_MAX) :
    ∀ fuel i out, bit_cur + i * 130 < 4294967296 → i < num_frames →
      frames_hi b bit_cur num_frames fuel i = .ok out →
      bit_cur + num_frames * 130 < b.bit_eof + 2340 := by
  have hM : BITSTREAM_MAX = 122880000 := by decide
  intro fuel
  induction fuel with
  | zero =>
    intro i out _ hi h
    unfold frames_hi at h
    rw [if_pos hi] at h
    cases h
  | succ fuel ih =>
    intro i out hw hi h
    unfold frames_hi at h
    rw [if_pos hi] at h
    obtain ⟨⟨o, next⟩, hok, h2⟩ := bind_ok h
    obtain ⟨hlt, hn⟩ := frame_hi_ok hok
    rw [u32_of_lt hw] at hlt
    obtain ⟨rest, hrest, _⟩ := bind_ok h2
    by_cases hnext : next < num_frames
    · exact ih next rest (by omega) hnext hrest
    · omega

theorem type2_cursor (info : Bool) (b : Bitstream) (cur1 off hdr reg wc cur2 : Nat)
    (out : List Msg) (hmax : b.bit_eof < BITSTREAM_MAX) (hc : cur1 ≤ b.bit_eof)
    (h : type2 info b cur1 off hdr reg wc = .ok (cur2, out)) :
    cur1 < cur2 ∧ cur2 ≤ b.bit_eof := by
  have hM : BITSTREAM_MAX = 122880000 := by decide
  have e4 : u32 (cur1 + 4) = cur1 + 4 := u32_of_lt (by omega)
  by_cases hr : reg = FDRI
  case neg =>
    simp [type2, hr, bind, Except.bind, throw, throwThe, MonadExceptOf.throw] at h
  by_cases h1 : cur1 + 4 > b.bit_eof
  case pos =>
    simp [type2, e4, hr, h1, bind, Except.bind, throw, throwThe, MonadExceptOf.throw, pure,
      Except.pure] at h
  cases hcount : be32 b cur1 with
  | error e =>
    simp [type2, e4, hr, h1, hcount, bind, Except.bind, throw, throwThe, MonadExceptOf.throw,
      pure, Except.pure] at h
  | ok count =>
    have ecomm : count * 2 = 2 * count := Nat.mul_comm _ _
    by_cases h2 : u32 (cur1 + 4 + u32 (2 * count)) > b.bit_eof
    case pos =>
      simp [type2, e4, hr, h1, hcount, h2, bind, Except.bind, throw, throwThe,
        MonadExceptOf.throw, pure, Except.pure] at h
    by_cases h3 : u32 (2 * count) < 130
    case pos =>
      simp [type2, e4, hr, h1, hcount, h2, h3, bind, Except.bind, throw, throwThe,
        MonadExceptOf.throw, pure, Except.pure] at h
    cases hlo : frames_lo b (cur1 + 4) (u32 (2 * count) / 130) 0 with
    | error e =>
      simp [type2, e4, hr, h1, hcount, h2, h3, hlo, bind, Except.bind, throw, throwThe,
        MonadExceptOf.throw, pure, Except.pure] at h
    | ok lo =>
      cases hhi : frames_hi b (cur1 + 4) (u32 (2 * count) / 130)
          (u32 (2 * count) / 130 - 2020) 2020 with
      | error e =>
        simp [type2, e4, hr, h1, hcount, h2, h3, hlo, hhi, bind, Except.bind, throw, throwThe,
          MonadExceptOf.throw, pure, Except.pure] at h
      | ok hi =>
        have hnw : cur1 + 4 + u32 (2 * count) < 4294967296 := by
          by_cases hn : 2020 < u32 (2 * count) / 130
          · have := frames_hi_ok_bound b (cur1 + 4) (u32 (2 * count) / 130) hmax _ 2020 hi
              (by omega) hn hhi
            omega
          · omega
        have e5 : u32 (cur1 + 4 + u32 (2 * count)) = cur1 + 4 + u32 (2 * count) :=
          u32_of_lt hnw
        rw [e5] at h2
        have e6 : u32 (cur1 + 4 + u32 (2 * count) + 4) = cur1 + 4 + u32 (2 * count) + 4 :=
          u32_of_lt (by omega)
        by_cases h5 : cur1 + 4 + u32 (2 * count) + 4 > b.bit_eof
        case pos =>
          simp [type2, e4, e5, e6, ecomm, hr, h1, hcount, h2, h3, hlo, hhi, h5, bind,
            Except.bind, throw, throwThe, MonadExceptOf.throw, pure, Except.pure] at h
          revert h
          split <;> (try split) <;> simp
        case neg =>
          simp [type2, e4, e5, e6, ecomm, hr, h1, hcount, h2, h3, hlo, hhi, h5, bind,
            Except.bind, throw, throwThe, MonadExceptOf.throw, pure, Except.pure] at h
          have key : cur2 = cur1 + 4 + u32 (2 * count) + 4 := by
            cases hcrc : be32 b (cur1 + 4 + u32 (2 * count)) with
            | error e =>
              simp only [hcrc] at h
              revert h
              split
              · split <;> simp
              · simp
            | ok crc =>
              simp only [hcrc] at h
              revert h
              split
              · split
                · simp
                · simp only [Except.ok.injEq, Prod.mk.injEq]
                  intro hh; exact hh.1.symm
              · simp only [Except.ok.injEq, Prod.mk.injEq]
                intro hh; exact hh.1.symm
          omega

theorem type2_raises (info : Bool) (b : Bitstream) (cur1 off hdr reg wc : Nat) :
    Raises (type2 info b cur1 off hdr reg wc) NotFuel := by
  unfold type2
  try dsimp only
  repeat' (first | with_reducible apply be32_raises | with_reducible apply frames_lo_raises
                        | ((with_reducible apply frames_hi_raises); exact Nat.le_refl _)
                        | with_reducible apply hexdump_raises
                        | with_reducible apply raises_bind | with_reducible apply raises_ite
                        | with_reducible apply raises_pure
                        | ((with_reducible apply raises_throw_nf); intro hne; cases hne)
                        | intro _ | fail_if_no_progress beta_reduce)

theorem packet_raises (info : Bool) (b : Bitstream) (cur : Nat) :
    Raises (packet info b cur) NotFuel := by
  unfold packet
  try dsimp only
  repeat' (first | with_reducible apply be16_raises | with_reducible apply type1_raises
                        | with_reducible apply type2_raises
                        | with_reducible apply raises_bind | with_reducible apply raises_ite
                        | with_reducible apply raises_pure
                        | ((with_reducible apply raises_throw_nf); intro hne; cases hne)
                        | intro _ | fail_if_no_progress beta_reduce | split)

/-- An iteration of the packet loop that gets through leaves the cursor strictly greater,
and not behind the end of the file. -/
theorem packet_cursor (info : Bool) (b : Bitstream) (cur cur2 : Nat) (out : List Msg)
    (hmax : b.bit_eof < BITSTREAM_MAX) (hcur : cur < b.bit_eof)
    (h : packet info b cur = .ok (cur2, out)) : cur < cur2 ∧ cur2 ≤ b.bit_eof := by
  have hM : BITSTREAM_MAX = 122880000 := by decide
  have e2 : u32 (cur + 2) = cur + 2 := u32_of_lt (by omega)
  by_cases h0 : cur + 2 > b.bit_eof
  case pos =>
    simp [packet, e2, h0, bind, Except.bind, throw, throwThe, MonadExceptOf.throw] at h
  cases hh : be16 b cur with
  | error e =>
    simp [packet, e2, h0, hh, bind, Except.bind, throw, throwThe, MonadExceptOf.throw, pure,
      Except.pure] at h
  | ok hdr =>
    have hw := packet_hdr_wordcount_le hdr
    have e3 : u32 (cur + 2 + packet_hdr_wordcount hdr * 2)
        = cur + 2 + packet_hdr_wordcount hdr * 2 := u32_of_lt (by omega)
    by_cases ht : packet_hdr_type hdr ≠ 1 ∧ packet_hdr_type hdr ≠ 2
    case pos =>
      simp [packet, e2, h0, hh, ht, bind, Except.bind, throw, throwThe, MonadExceptOf.throw,
        pure, Except.pure] at h
    by_cases ho3 : packet_hdr_opcode hdr = 3
    case pos =>
      simp [packet, e2, h0, hh, ht, ho3, bind, Except.bind, throw, throwThe,
        MonadExceptOf.throw, pure, Except.pure] at h
    by_cases ho0 : packet_hdr_opcode hdr = 0
    case pos =>
      simp [packet, e2, h0, hh, ht, ho3, ho0, bind, Except.bind, throw, throwThe,
        MonadExceptOf.throw, pure, Except.pure] at h
      omega
    by_cases hp : cur + 2 + packet_hdr_wordcount hdr * 2 > b.bit_eof
    case pos =>
      simp [packet, e2, e3, h0, hh, ht, ho3, ho0, hp, bind, Except.bind, throw, throwThe,
        MonadExceptOf.throw, pure, Except.pure] at h
    by_cases ht1 : packet_hdr_type hdr = 1
    case pos =>
      cases h1 : type1 b cur hdr (packet_hdr_register hdr) (packet_hdr_wordcount hdr) with
      | error e =>
        simp [packet, e2, e3, h0, hh, ht, ho3, ho0, hp, ht1, h1, bind, Except.bind, throw,
          throwThe, MonadExceptOf.throw, pure, Except.pure] at h
      | ok o =>
        simp [packet, e2, e3, h0, hh, ht, ho3, ho0, hp, ht1, h1, bind, Except.bind, throw,
          throwThe, MonadExceptOf.throw, pure, Except.pure] at h
        omega
    case neg =>
      have ht2 : packet_hdr_type hdr = 2 := by
        by_contra hn
        exact ht ⟨ht1, hn⟩
      cases h2 : type2 info b (cur + 2 + packet_hdr_wordcount hdr * 2) cur hdr
          (packet_hdr_register hdr) (packet_hdr_wordcount hdr) with
      | error e =>
        simp [packet, e2, e3, h0, hh, ht2, ho3, ho0, hp, h2, bind, Except.bind, throw,
          throwThe, MonadExceptOf.throw, pure, Except.pure] at h
      | ok r =>
        obtain ⟨c, o⟩ := r
        have := type2_cursor info b _ cur hdr _ _ c o hmax (by omega) h2
        simp [packet, e2, e3, h0, hh, ht2, ho3, ho0, hp, h2, bind, Except.bind, throw,
          throwThe, MonadExceptOf.throw, pure, Except.pure] at h
        omega

theorem packets_raises (info : Bool) (b : Bitstream) (hmax : b.bit_eof < BITSTREAM_MAX) :
    ∀ fuel cur, b.bit_eof - cur ≤ fuel → Raises (packets info b fuel cur) NotFuel := by
  intro fuel
  induction fuel with
  | zero =>
    intro cur h
    unfold packets
    rw [if_neg (by omega)]
    apply raises_pure
  | succ fuel ih =>
    intro cur h
    unfold packets
    by_cases hc : cur < b.bit_eof
    · rw [if_pos hc]
      apply raises_bind_ok
      · apply packet_raises
      · rintro ⟨c, o⟩ hok
        have := packet_cursor info b cur c o hmax hc hok
        apply raises_bind
        · exact ih c (by omega)
        · intro _; apply raises_pure
    · rw [if_neg hc]
      apply raises_pure

theorem packets_fuel (info : Bool) (b : Bitstream) (hmax : b.bit_eof < BITSTREAM_MAX) :
    ∀ fuel1 fuel2 cur, b.bit_eof - cur ≤ fuel1 → b.bit_eof - cur ≤ fuel2 →
      packets info b fuel1 cur = packets info b fuel2 cur := by
  intro fuel1
  induction fuel1 with
  | zero =>
    intro fuel2 cur h1 _
    have hc : ¬ cur < b.bit_eof := by omega
    cases fuel2 <;> simp [packets, hc]
  | succ fuel1 ih =>
    intro fuel2 cur h1 h2
    by_cases hc : cur < b.bit_eof
    · cases fuel2 with
      | zero => omega
      | succ fuel2 =>
        unfold packets
        simp only [hc, if_true]
        cases hp : packet info b cur with
        | error e => rfl
        | ok r =>
          obtain ⟨c, o⟩ := r
          have := packet_cursor info b cur c o hmax hc hp
          simp only [bind, Except.bind]
          rw [ih fuel2 c (by omega) (by omega)]
    · cases fuel2 <;> simp [packets, hc]

/-- C3: with the cursor arithmetic of the code, modulo `2^32`, every iteration of the
packet loop that gets through (noop, type-1 packet, or type-2 packet with payload and
auto-CRC) leaves the cursor strictly greater than it found it, and not behind the end of
the file; hence the packet loop terminates: from a cursor `cur`, `bit_eof - cur`
iterations are always enough, the fuel of the embedding never runs out (neither in the
packet loop nor in the frame loops inside it), and more fuel does not change the
result. The file is shorter than `BITSTREAM_MAX`, as line 294 makes sure. An iteration
that reads `bit_data` outside the file is one that does not get through: a type-2 count
whose byte length wraps modulo `2^32` sends the frame loops behind the end of the file
before the cursor is moved. -/
theorem packet_loop_terminates (info : Bool) (b : Bitstream)
    (hmax : b.bit_eof < BITSTREAM_MAX) :
    (∀ cur cur2 out, cur < b.bit_eof → packet info b cur = .ok (cur2, out) →
      cur < cur2 ∧ cur2 ≤ b.bit_eof) ∧
    (∀ cur fuel, b.bit_eof - cur ≤ fuel →
      packets info b fuel cur ≠ .error .out_of_fuel ∧
      packets info b fuel cur = packets info b (b.bit_eof - cur) cur) := by
  refine ⟨fun cur cur2 out hc h => packet_cursor info b cur cur2 out hmax hc h, ?_⟩
  intro cur fuel hf
  refine ⟨?_, packets_fuel info b hmax fuel _ cur hf (Nat.le_refl _)⟩
  intro h
  have := (raises_iff _ _).mp (packets_raises info b hmax fuel cur hf) _ h
  exact (notFuel_iff _).mp this rfl

theorem packet_loop_terminates_witness :
    (38 < 40 ∧ 40 ≤ (Bitstream.ofBytes sample).bit_eof) ∧
    packets false (Bitstream.ofBytes sample) 6 38 ≠ .error .out_of_fuel :=
  ⟨(packet_loop_terminates false (Bitstream.ofBytes sample) (by decide)).1 38 40 [Msg.noop]
      (by decide) (by decide),
    ((packet_loop_terminates false (Bitstream.ofBytes sample) (by decide)).2 38 6
      (by decide)).1⟩

/-! ## 32-bit big-endian words -/

theorem shl_or (a c k : Nat) : (a <<< k) ||| (c <<< k) = (a ||| c) <<< k := by
  apply Nat.eq_of_testBit_eq
  intro i
  simp only [Nat.testBit_or, Nat.testBit_shiftLeft]
  by_cases h : i ≥ k <;> simp [h]

theorem or_bytes (a c : Nat) (hc : c < 256) : (a <<< 8) ||| c = a * 256 + c := by
  rw [Nat.shiftLeft_eq, Nat.mul_comm a, ← @Nat.mul_add_lt_is_or 8 c (by omega) a]

theorem swab32_bytes (b0 b1 b2 b3 : Nat) (h0 : b0 < 256) (h1 : b1 < 256) (h2 : b2 < 256)
    (h3 : b3 < 256) :
    __swab32 (b0 + 256 * b1 + 65536 * b2 + 16777216 * b3)
      = b0 * 16777216 + b1 * 65536 + b2 * 256 + b3 := by
  unfold __swab32
  have e0 : (b0 + 256 * b1 + 65536 * b2 + 16777216 * b3) &&& 0x000000ff = b0 := by
    have e : (0x000000ff : Nat) = 2 ^ 8 - 1 := by decide
    rw [e, Nat.and_pow_two_sub_one_eq_mod]; omega
  have e1 : (b0 + 256 * b1 + 65536 * b2 + 16777216 * b3) &&& 0x0000ff00 = b1 <<< 8 := by
    have e : (0x0000ff00 : Nat) = (2 ^ 8 - 1) <<< 8 := by decide
    rw [e, and_mask, Nat.shiftRight_eq_div_pow]
    congr 1; omega
  have e2 : (b0 + 256 * b1 + 65536 * b2 + 16777216 * b3) &&& 0x00ff0000 = b2 <<< 16 := by
    have e : (0x00ff0000 : Nat) = (2 ^ 8 - 1) <<< 16 := by decide
    rw [e, and_mask, Nat.shiftRight_eq_div_pow]
    congr 1; omega
  have e3 : (b0 + 256 * b1 + 65536 * b2 + 16777216 * b3) &&& 0xff000000 = b3 <<< 24 := by
    have e : (0xff000000 : Nat) = (2 ^ 8 - 1) <<< 24 := by decide
    rw [e, and_mask, Nat.shiftRight_eq_div_pow]
    congr 1; omega
  rw [e0, e1, e2, e3]
  have s1 : (b1 <<< 8) <<< 8 = b1 <<< 16 := by rw [← Nat.shiftLeft_add]
  have s2 : (b2 <<< 16) >>> 8 = b2 <<< 8 := by
    rw [Nat.shiftLeft_eq, Nat.shiftLeft_eq, Nat.shiftRight_eq_div_pow]; omega
  have s3 : (b3 <<< 24) >>> 24 = b3 := by
    rw [Nat.shiftLeft_eq, Nat.shiftRight_eq_div_pow]; omega
  rw [s1, s2, s3]
  have t1 : b0 <<< 24 ||| b1 <<< 16 = (b0 <<< 8 ||| b1) <<< 16 := by
    rw [← shl_or (b0 <<< 8) b1 16, ← Nat.shiftLeft_add b0 8 16]
  have t2 : (b0 <<< 8 ||| b1) <<< 16 ||| b2 <<< 8 = ((b0 <<< 8 ||| b1) <<< 8 ||| b2) <<< 8 := by
    rw [← shl_or ((b0 <<< 8 ||| b1) <<< 8) b2 8, ← Nat.shiftLeft_add (b0 <<< 8 ||| b1) 8 8]
  rw [t1, t2, or_bytes b0 b1 h1, or_bytes _ b2 h2, or_bytes _ b3 h3]
  omega

theorem be32_eq (b : Bitstream) (i : Nat) (h : i + 3 < b.bit_eof) :
    be32 b i = .ok (byte b i * 16777216 + byte b (i + 1) * 65536 + byte b (i + 2) * 256
      + byte b (i + 3)) := by
  have h0 : i < b.bit_eof := by omega
  have h1 : i + 1 < b.bit_eof := by omega
  have h2 : i + 2 < b.bit_eof := by omega
  have hb : ∀ k, b.bit_data k % 256 < 256 := fun k => Nat.mod_lt _ (by decide)
  simp only [be32, rd8_of_lt h0, rd8_of_lt h1, rd8_of_lt h2, rd8_of_lt h, bind, Except.bind,
    pure, Except.pure, byte]
  rw [swab32_bytes _ _ _ _ (hb _) (hb _) (hb _) (hb _)]

theorem be16_val (b : Bitstream) (i : Nat) (h : i + 1 < b.bit_eof) :
    be16 b i = .ok (byte b i * 256 + byte b (i + 1)) := by
  rw [be16_eq b i h, swab16_bytes _ _ (Nat.mod_lt _ (by decide)) (Nat.mod_lt _ (by decide))]
  rfl

/-! ## MFWR -/

theorem type1_mfwr (b : Bitstream) (cur hdr : Nat) (hmax : b.bit_eof < BITSTREAM_MAX)
    (hc : cur + 10 ≤ b.bit_eof) :
    type1 b cur hdr MFWR 4 =
      if byte b (cur + 2) * 16777216 + byte b (cur + 3) * 65536 + byte b (cur + 4) * 256
            + byte b (cur + 5) ≠ 0 ∨
          byte b (cur + 6) * 16777216 + byte b (cur + 7) * 65536 + byte b (cur + 8) * 256
            + byte b (cur + 9) ≠ 0
      then .error (.mfwr_data cur hdr
        (byte b (cur + 2) * 16777216 + byte b (cur + 3) * 65536 + byte b (cur + 4) * 256
            + byte b (cur + 5))
        (byte b (cur + 6) * 16777216 + byte b (cur + 7) * 65536 + byte b (cur + 8) * 256
            + byte b (cur + 9)))
      else .ok [Msg.T1_MFWR] := by
  have hM : BITSTREAM_MAX = 122880000 := by decide
  have e1 : u32 (cur + 2) = cur + 2 := u32_of_lt (by omega)
  have e2 : u32 (cur + 6) = cur + 6 := u32_of_lt (by omega)
  have d1 := be32_eq b (cur + 2) (by omega)
  have d2 := be32_eq b (cur + 6) (by omega)
  simp only [show cur + 2 + 1 = cur + 3 from rfl, show cur + 2 + 2 = cur + 4 from rfl,
    show cur + 2 + 3 = cur + 5 from rfl] at d1
  simp only [show cur + 6 + 1 = cur + 7 from rfl, show cur + 6 + 2 = cur + 8 from rfl,
    show cur + 6 + 3 = cur + 9 from rfl] at d2
  simp only [type1, xc6_regs, reg_name_empty, MFWR, IDCODE, CMD, FLR, COR1, COR2, FAR_MAJ,
    t1_mfwr, e1, e2, d1, d2, bind, Except.bind, pure, Except.pure]
  simp [throw, throwThe, MonadExceptOf.throw]

/-- C11: a type-1 MFWR packet with a payload word that is not zero fails fatally (with the
word-count error when its word count is not 4, with unexpected EOF when the payload is
not all in the file, with the MFWR data error otherwise); with word count 4 and four zero
payload words the iteration prints exactly `T1 MFWR` and the loop goes on behind the
payload. -/
theorem mfwr_packet (info : Bool) (b : Bitstream) (cur hdr wc : Nat)
    (hmax : b.bit_eof < BITSTREAM_MAX) (hp : T1Packet b cur hdr MFWR wc) :
    (∀ i w, i < wc → be16 b (cur + 2 + 2 * i) = .ok w → w ≠ 0 →
      ∃ e, packet info b cur = .error e ∧ e.isFatal = true) ∧
    (wc = 4 → (∀ i, i < 4 → be16 b (cur + 2 + 2 * i) = .ok 0) →
      packet info b cur = .ok (cur + 10, info_hdr info cur ++ [Msg.T1_MFWR])) := by
  obtain ⟨hwc, hpk⟩ := packet_T1Packet info b cur hdr MFWR wc hmax hp
  have hb : ∀ k, byte b k < 256 := fun k => Nat.mod_lt _ (by decide)
  constructor
  · intro i w hi hw hne
    by_cases hc : cur + 2 + wc * 2 > b.bit_eof
    · exact ⟨.unexpected_eof, by rw [hpk, if_pos hc], rfl⟩
    by_cases h4 : wc = 4
    · subst h4
      rw [hpk, if_neg hc, type1_mfwr b cur hdr hmax (by omega)]
      have hv := be16_val b (cur + 2 + 2 * i) (be16_ok hw)
      rw [hw] at hv
      injection hv with hv
      have h0 := hb (cur + 2); have h1 := hb (cur + 3); have h2 := hb (cur + 4)
      have h3 := hb (cur + 5); have h4 := hb (cur + 6); have h5 := hb (cur + 7)
      have h6 := hb (cur + 8); have h7 := hb (cur + 9)
      have hcond : byte b (cur + 2) * 16777216 + byte b (cur + 3) * 65536
            + byte b (cur + 4) * 256 + byte b (cur + 5) ≠ 0 ∨
          byte b (cur + 6) * 16777216 + byte b (cur + 7) * 65536 + byte b (cur + 8) * 256
            + byte b (cur + 9) ≠ 0 := by
        have hi4 : i = 0 ∨ i = 1 ∨ i = 2 ∨ i = 3 := by omega
        rcases hi4 with h | h | h | h <;> subst h <;> simp only [Nat.mul_zero, Nat.add_zero,
          Nat.mul_one, show cur + 2 + 2 = cur + 4 from rfl, show cur + 2 + 1 = cur + 3 from rfl,
          show cur + 2 + 2 * 2 = cur + 6 from rfl, show cur + 2 + 2 * 3 = cur + 8 from rfl,
          show cur + 4 + 1 = cur + 5 from rfl, show cur + 6 + 1 = cur + 7 from rfl,
          show cur + 8 + 1 = cur + 9 from rfl] at hv <;> omega
      rw [if_pos hcond]
      exact ⟨_, rfl, rfl⟩
    · rw [hpk, if_neg hc,
        type1_arity_error b cur hdr MFWR 4 wc "MFWR" (by decide) h4]
      exact ⟨_, rfl, rfl⟩
  · intro h4 hz
    subst h4
    have hlt := be16_ok (hz 3 (by omega))
    have hc : ¬ (cur + 2 + 4 * 2 > b.bit_eof) := by omega
    rw [hpk, if_neg hc, type1_mfwr b cur hdr hmax (by omega)]
    have z := fun i hi => (be16_val b (cur + 2 + 2 * i) (be16_ok (hz i hi))).symm.trans (hz i hi)
    have z0 := z 0 (by omega); have z1 := z 1 (by omega)
    have z2 := z 2 (by omega); have z3 := z 3 (by omega)
    simp only [Nat.mul_zero, Nat.add_zero, Nat.mul_one, show cur + 2 + 2 = cur + 4 from rfl,
      show cur + 2 + 1 = cur + 3 from rfl, show cur + 2 + 2 * 2 = cur + 6 from rfl,
      show cur + 2 + 2 * 3 = cur + 8 from rfl, show cur + 4 + 1 = cur + 5 from rfl,
      show cur + 6 + 1 = cur + 7 from rfl, show cur + 8 + 1 = cur + 9 from rfl,
      Except.ok.injEq] at z0 z1 z2 z3
    have hcond : ¬ (byte b (cur + 2) * 16777216 + byte b (cur + 3) * 65536
            + byte b (cur + 4) * 256 + byte b (cur + 5) ≠ 0 ∨
          byte b (cur + 6) * 16777216 + byte b (cur + 7) * 65536 + byte b (cur + 8) * 256
            + byte b (cur + 9) ≠ 0) := by omega
    rw [if_neg hcond]
    rfl

theorem mfwr_packet_witness :
    packet false (Bitstream.ofBytes [0x33, 0x64, 0, 0, 0, 0, 0, 0, 0, 0]) 0 =
      .ok (0 + 10, info_hdr false 0 ++ [Msg.T1_MFWR]) ∧
    ∃ e, packet false (Bitstream.ofBytes [0x33, 0x64, 0, 0, 0, 1, 0, 0, 0, 0]) 0 = .error e ∧
      e.isFatal = true :=
  ⟨(mfwr_packet false (Bitstream.ofBytes [0x33, 0x64, 0, 0, 0, 0, 0, 0, 0, 0]) 0 0x3364 4
      (by decide) (by decide)).2 rfl (by decide),
   (mfwr_packet false (Bitstream.ofBytes [0x33, 0x64, 0, 0, 0, 1, 0, 0, 0, 0]) 0 0x3364 4
      (by decide) (by decide)).1 1 1 (by decide) (by decide) (by decide)⟩

/-! ## CMD -/

/-- The CMD payloads the code handles: a payload of 15 or more prints the unknown-CMD
warning, a payload that indexes a name of `cmds` prints `T1 CMD <name>`. -/
theorem cmd_payload_cases (info : Bool) (b : Bitstream) (cur hdr v : Nat)
    (hmax : b.bit_eof < BITSTREAM_MAX) (hp : T1Packet b cur hdr CMD 1)
    (hv : be16 b (cur + 2) = .ok v) :
    (15 ≤ v → packet info b cur =
      .ok (cur + 4, info_hdr info cur ++ [Msg.W_unknown_cmd (cur + 2) v])) ∧
    (∀ s, cmds.get? v = some (some s) → packet info b cur =
      .ok (cur + 4, info_hdr info cur ++ [Msg.T1_CMD s])) ∧
    (cmds.get? v = some none → packet info b cur = .error .null_deref) := by
  obtain ⟨_, hpk⟩ := packet_T1Packet info b cur hdr CMD 1 hmax hp
  have hlt := be16_ok hv
  have hM : BITSTREAM_MAX = 122880000 := by decide
  have e1 : u32 (cur + 2) = cur + 2 := u32_of_lt (by omega)
  have hc : ¬ (cur + 2 + 1 * 2 > b.bit_eof) := by omega
  have hl : cmds.length = 15 := by decide
  have ht : type1 b cur hdr CMD 1 = t1_cmd b cur hdr 1 := by
    simp [type1, xc6_regs, reg_name_empty, IDCODE, CMD, bind, Except.bind, pure, Except.pure]
  rw [hpk, if_neg hc, ht]
  refine ⟨?_, ?_, ?_⟩
  · intro h15
    simp [t1_cmd, e1, hv, hl, h15, bind, Except.bind, pure, Except.pure, Except.map]
  · intro s hs
    have hlt15 : v < 15 := by
      have := List.get?_eq_some.mp hs
      obtain ⟨h, _⟩ := this
      omega
    have hne : s ≠ "" := by
      have h15 : v = 0 ∨ v = 1 ∨ v = 2 ∨ v = 3 ∨ v = 4 ∨ v = 5 ∨ v = 6 ∨ v = 7 ∨ v = 8 ∨ v = 9
          ∨ v = 10 ∨ v = 11 ∨ v = 12 ∨ v = 13 ∨ v = 14 := by omega
      rcases h15 with h | h | h | h | h | h | h | h | h | h | h | h | h | h | h <;> subst h <;>
        simp [cmds] at hs <;> subst hs <;> decide
    obtain ⟨hb, hg0⟩ := List.get?_eq_some.mp hs
    have hg : cmds[v] = _ := hg0
    simp [t1_cmd, e1, hv, hl, hlt15, hg, hne, bind, Except.bind, pure, Except.pure,
      Except.map, Nat.not_le.mpr hlt15]
  · intro hs
    have hlt15 : v < 15 := by
      have := List.get?_eq_some.mp hs
      obtain ⟨h, _⟩ := this
      omega
    obtain ⟨hb, hg0⟩ := List.get?_eq_some.mp hs
    have hg : cmds[v] = _ := hg0
    simp [t1_cmd, e1, hv, hl, hlt15, hg, bind, Except.bind, pure, Except.pure,
      Except.map, Nat.not_le.mpr hlt15, throw, throwThe, MonadExceptOf.throw]

/-- C12, the inputs on which the code does not do what the claim says: the CMD packets
`30 A1` with the payloads 6, 9 and 12. These codes are inside the index range of `cmds`
and have no initialiser there, so the entry is a null pointer, and the test
`cmds[u16][0] == 0` of line 467 dereferences it: no unknown-CMD warning is printed. -/
theorem cmd_unnamed_codes_null_deref :
    (cmds.get? 6 = some none ∧ cmds.get? 9 = some none ∧ cmds.get? 12 = some none) ∧
    T1Packet (Bitstream.ofBytes [0x30, 0xA1, 0x00, 0x06]) 0 0x30A1 CMD 1 ∧
    packet false (Bitstream.ofBytes [0x30, 0xA1, 0x00, 0x06]) 0 = .error .null_deref ∧
    packet false (Bitstream.ofBytes [0x30, 0xA1, 0x00, 0x09]) 0 = .error .null_deref ∧
    packet false (Bitstream.ofBytes [0x30, 0xA1, 0x00, 0x0C]) 0 = .error .null_deref ∧
    packet false (Bitstream.ofBytes [0x30, 0xA1, 0x00, 0x0F]) 0 =
      .ok (4, [Msg.W_unknown_cmd 2 15]) := by
  decide

/-! ## The errors of the payload decoders -/

theorem payloadErr_iff (e : Err) : PayloadErr e ↔ e.isHeader = false := by
  unfold PayloadErr; rfl

theorem raises_throw_pl {α : Type} (e : Err) (h : e.isHeader = false) :
    Raises (throw e : Except Err α) PayloadErr :=
  raises_throw e _ ((payloadErr_iff e).mpr h)

theorem rd8_payload (b : Bitstream) (i : Nat) : Raises (rd8 b i) PayloadErr := by
  unfold rd8
  apply raises_ite
  · apply raises_ok
  · exact raises_error _ _ ((payloadErr_iff _).mpr rfl)

theorem be16_payload (b : Bitstream) (i : Nat) : Raises (be16 b i) PayloadErr := by
  unfold be16
  repeat' (first | apply rd8_payload | with_reducible apply raises_bind
                        | with_reducible apply raises_pure | intro _)

theorem be32_payload (b : Bitstream) (i : Nat) : Raises (be32 b i) PayloadErr := by
  unfold be32
  repeat' (first | apply rd8_payload | with_reducible apply raises_bind
                        | with_reducible apply raises_pure | intro _)

theorem rdN_payload (b : Bitstream) : ∀ n i, Raises (rdN b i n) PayloadErr := by
  intro n
  induction n with
  | zero => intro i; apply raises_pure
  | succ n ih =>
    intro i
    unfold rdN
    repeat' (first | apply rd8_payload | apply ih | with_reducible apply raises_bind
                          | with_reducible apply raises_pure | intro _)

theorem t1_idcode_payload (b : Bitstream) (o h w : Nat) : Raises (t1_idcode b o h w) PayloadErr := by
  unfold t1_idcode
  try dsimp only
  repeat' (first | with_reducible apply be16_payload | with_reducible apply be32_payload
                        | with_reducible apply raises_bind | with_reducible apply raises_ite
                        | with_reducible apply raises_pure | with_reducible apply raises_ok
                        | ((with_reducible apply raises_throw_pl); rfl) | intro _
                        | fail_if_no_progress beta_reduce | split)

theorem t1_cmd_payload (b : Bitstream) (o h w : Nat) : Raises (t1_cmd b o h w) PayloadErr := by
  unfold t1_cmd
  try dsimp only
  repeat' (first | with_reducible apply be16_payload | with_reducible apply be32_payload
                        | with_reducible apply raises_bind | with_reducible apply raises_ite
                        | with_reducible apply raises_pure | with_reducible apply raises_ok
                        | ((with_reducible apply raises_throw_pl); rfl) | intro _
                        | fail_if_no_progress beta_reduce | split)

theorem t1_flr_payload (b : Bitstream) (o h w : Nat) : Raises (t1_flr b o h w) PayloadErr := by
  unfold t1_flr
  try dsimp only
  repeat' (first | with_reducible apply be16_payload | with_reducible apply be32_payload
                        | with_reducible apply raises_bind | with_reducible apply raises_ite
                        | with_reducible apply raises_pure | with_reducible apply raises_ok
                        | ((with_reducible apply raises_throw_pl); rfl) | intro _
                        | fail_if_no_progress beta_reduce | split)

theorem t1_cor1_payload (b : Bitstream) (o h w : Nat) : Raises (t1_cor1 b o h w) PayloadErr := by
  unfold t1_cor1
  try dsimp only
  repeat' (first | with_reducible apply be16_payload | with_reducible apply be32_payload
                        | with_reducible apply raises_bind | with_reducible apply raises_ite
                        | with_reducible apply raises_pure | with_reducible apply raises_ok
                        | ((with_reducible apply raises_throw_pl); rfl) | intro _
                        | fail_if_no_progress beta_reduce | split)

theorem t1_cor2_payload (b : Bitstream) (o h w : Nat) : Raises (t1_cor2 b o h w) PayloadErr := by
  unfold t1_cor2
  try dsimp only
  repeat' (first | with_reducible apply be16_payload | with_reducible apply be32_payload
                        | with_reducible apply raises_bind | with_reducible apply raises_ite
                        | with_reducible apply raises_pure | with_reducible apply raises_ok
                        | ((with_reducible apply raises_throw_pl); rfl) | intro _
                        | fail_if_no_progress beta_reduce | split)

theorem t1_far_maj_payload (b : Bitstream) (o : Nat) : Raises (t1_far_maj b o) PayloadErr := by
  unfold t1_far_maj
  try dsimp only
  repeat' (first | with_reducible apply be16_payload | with_reducible apply be32_payload
                        | with_reducible apply raises_bind | with_reducible apply raises_ite
                        | with_reducible apply raises_pure | with_reducible apply raises_ok
                        | ((with_reducible apply raises_throw_pl); rfl) | intro _
                        | fail_if_no_progress beta_reduce | split)

theorem t1_mfwr_payload (b : Bitstream) (o h w : Nat) : Raises (t1_mfwr b o h w) PayloadErr := by
  unfold t1_mfwr
  try dsimp only
  repeat' (first | with_reducible apply be16_payload | with_reducible apply be32_payload
                        | with_reducible apply raises_bind | with_reducible apply raises_ite
                        | with_reducible apply raises_pure | with_reducible apply raises_ok
                        | ((with_reducible apply raises_throw_pl); rfl) | intro _
                        | fail_if_no_progress beta_reduce | split)

theorem t1_ctl_payload (b : Bitstream) (o h w : Nat) : Raises (t1_ctl b o h w) PayloadErr := by
  unfold t1_ctl
  try dsimp only
  repeat' (first | with_reducible apply be16_payload | with_reducible apply be32_payload
                        | with_reducible apply raises_bind | with_reducible apply raises_ite
                        | with_reducible apply raises_pure | with_reducible apply raises_ok
                        | ((with_reducible apply raises_throw_pl); rfl) | intro _
                        | fail_if_no_progress beta_reduce | split)

theorem t1_mask_payload (b : Bitstream) (o h w : Nat) : Raises (t1_mask b o h w) PayloadErr := by
  unfold t1_mask
  try dsimp only
  repeat' (first | with_reducible apply be16_payload | with_reducible apply be32_payload
                        | with_reducible apply raises_bind | with_reducible apply raises_ite
                        | with_reducible apply raises_pure | with_reducible apply raises_ok
                        | ((with_reducible apply raises_throw_pl); rfl) | intro _
                        | fail_if_no_progress beta_reduce | split)

theorem t1_pwrdn_reg_payload (b : Bitstream) (o h w : Nat) : Raises (t1_pwrdn_reg b o h w) PayloadErr := by
  unfold t1_pwrdn_reg
  try dsimp only
  repeat' (first | with_reducible apply be16_payload | with_reducible apply be32_payload
                        | with_reducible apply raises_bind | with_reducible apply raises_ite
                        | with_reducible apply raises_pure | with_reducible apply raises_ok
                        | ((with_reducible apply raises_throw_pl); rfl) | intro _
                        | fail_if_no_progress beta_reduce | split)

theorem t1_hc_opt_reg_payload (b : Bitstream) (o h w : Nat) : Raises (t1_hc_opt_reg b o h w) PayloadErr := by
  unfold t1_hc_opt_reg
  try dsimp only
  repeat' (first | with_reducible apply be16_payload | with_reducible apply be32_payload
                        | with_reducible apply raises_bind | with_reducible apply raises_ite
                        | with_reducible apply raises_pure | with_reducible apply raises_ok
                        | ((with_reducible apply raises_throw_pl); rfl) | intro _
                        | fail_if_no_progress beta_reduce | split)

theorem reg_name_empty_payload (r : Nat) : Raises (reg_name_empty r) PayloadErr := by
  unfold reg_name_empty
  repeat' (first | with_reducible apply be16_payload | with_reducible apply be32_payload
                        | with_reducible apply raises_bind | with_reducible apply raises_ite
                        | with_reducible apply raises_pure | with_reducible apply raises_ok
                        | ((with_reducible apply raises_throw_pl); rfl) | intro _
                        | fail_if_no_progress beta_reduce | split)

theorem t1_words_payload (b : Bitstream) (o : Nat) : ∀ n i, Raises (t1_words b o n i) PayloadErr := by
  intro n
  induction n with
  | zero => intro i; apply raises_pure
  | succ n ih =>
    intro i
    unfold t1_words
    repeat' (first | apply be16_payload | apply ih | with_reducible apply raises_bind
                          | with_reducible apply raises_pure | intro _)

theorem t1_generic_payload (b : Bitstream) (o r w : Nat) :
    Raises (t1_generic b o r w) PayloadErr := by
  unfold t1_generic
  try dsimp only
  repeat' (first | with_reducible apply t1_words_payload | with_reducible apply raises_bind
                        | with_reducible apply raises_pure
                        | ((with_reducible apply raises_throw_pl); rfl) | intro _
                        | fail_if_no_progress beta_reduce | split)

theorem type1_payload (b : Bitstream) (o h r w : Nat) : Raises (type1 b o h r w) PayloadErr := by
  unfold type1
  try dsimp only
  repeat' (first | apply reg_name_empty_payload | apply t1_idcode_payload | apply t1_cmd_payload
                        | apply t1_flr_payload | apply t1_cor1_payload | apply t1_cor2_payload
                        | apply t1_far_maj_payload | apply t1_mfwr_payload | apply t1_ctl_payload
                        | apply t1_mask_payload | apply t1_pwrdn_reg_payload
                        | apply t1_hc_opt_reg_payload | apply t1_generic_payload
                        | with_reducible apply raises_bind | with_reducible apply raises_ite
                        | with_reducible apply raises_pure | intro _ | fail_if_no_progress beta_reduce)

theorem hexdump_lines_payload (b : Bitstream) (data len width : Nat) :
    ∀ n j, Raises (hexdump_lines b data len width n j) PayloadErr := by
  intro n
  induction n with
  | zero => intro j; unfold hexdump_lines; apply raises_pure
  | succ n ih =>
    intro j
    unfold hexdump_lines
    try dsimp only
    repeat' (first | with_reducible apply ih | with_reducible apply rdN_payload
                        | with_reducible apply be16_payload | with_reducible apply rd8_payload
                        | with_reducible apply raises_bind | with_reducible apply raises_ite
                        | with_reducible apply raises_pure | with_reducible apply raises_ok
                        | ((with_reducible apply raises_throw_pl); rfl)
                        | intro _ | fail_if_no_progress beta_reduce | split)

theorem hexdump_payload (b : Bitstream) (data len : Nat) :
    Raises (hexdump b data len) PayloadErr := by
  unfold hexdump
  exact hexdump_lines_payload b data len _ _ _

theorem scan_payload (b : Bitstream) (base : Nat) :
    ∀ n j z o, Raises (scan b base n j z o) PayloadErr := by
  intro n
  induction n with
  | zero => intro j z o; unfold scan; apply raises_pure
  | succ n ih =>
    intro j z o
    unfold scan
    try dsimp only
    repeat' (first | with_reducible apply ih | with_reducible apply rd8_payload
                        | with_reducible apply raises_bind | with_reducible apply raises_ite
                        | with_reducible apply raises_pure | intro _
                        | fail_if_no_progress beta_reduce)

theorem rd_bytes_payload (b : Bitstream) (base : Nat) :
    ∀ n j, Raises (rd_bytes b base n j) PayloadErr := by
  intro n
  induction n with
  | zero => intro j; unfold rd_bytes; apply raises_pure
  | succ n ih =>
    intro j
    unfold rd_bytes
    try dsimp only
    repeat' (first | with_reducible apply ih
                        | with_reducible apply be16_payload | with_reducible apply rd8_payload
                        | with_reducible apply raises_bind | with_reducible apply raises_ite
                        | with_reducible apply raises_pure | with_reducible apply raises_ok
                        | ((with_reducible apply raises_throw_pl); rfl)
                        | intro _ | fail_if_no_progress beta_reduce | split)

theorem any_nonzero_payload (b : Bitstream) (base : Nat) :
    ∀ n j, Raises (any_nonzero b base n j) PayloadErr := by
  intro n
  induction n with
  | zero => intro j; unfold any_nonzero; apply raises_pure
  | succ n ih =>
    intro j
    unfold any_nonzero
    try dsimp only
    repeat' (first | with_reducible apply ih
                        | with_reducible apply be16_payload | with_reducible apply rd8_payload
                        | with_reducible apply raises_bind | with_reducible apply raises_ite
                        | with_reducible apply raises_pure | with_reducible apply raises_ok
                        | ((with_reducible apply raises_throw_pl); rfl)
                        | intro _ | fail_if_no_progress beta_reduce | split)

theorem half_payload (b : Bitstream) (base j : Nat) (z o : Bool) :
    Raises (half b base j z o) PayloadErr := by
  unfold half
  repeat' (first | with_reducible apply rd_bytes_payload
                        | with_reducible apply raises_bind | with_reducible apply raises_ite
                        | with_reducible apply raises_pure | intro _
                        | fail_if_no_progress beta_reduce)

theorem frame_lo_payload (b : Bitstream) (bit_cur i : Nat) :
    Raises (frame_lo b bit_cur i) PayloadErr := by
  unfold frame_lo
  try dsimp only
  repeat' (first | with_reducible apply be16_payload | with_reducible apply scan_payload
                        | with_reducible apply half_payload
                        | with_reducible apply raises_bind | with_reducible apply raises_ite
                        | with_reducible apply raises_pure | intro _
                        | fail_if_no_progress beta_reduce | split)

theorem frames_lo_payload (b : Bitstream) (bit_cur : Nat) :
    ∀ n i, Raises (frames_lo b bit_cur n i) PayloadErr := by
  intro n
  induction n with
  | zero => intro i; unfold frames_lo; apply raises_pure
  | succ n ih =>
    intro i
    unfold frames_lo
    try dsimp only
    repeat' (first | with_reducible apply ih | with_reducible apply frame_lo_payload
                        | with_reducible apply raises_bind | with_reducible apply raises_ite
                        | with_reducible apply raises_pure | intro _
                        | fail_if_no_progress beta_reduce)

theorem src_bit_payload (b : Bitstream) (bit_cur i off : Nat) :
    Raises (src_bit b bit_cur i off) PayloadErr := by
  unfold src_bit
  repeat' (first | with_reducible apply rd8_payload
                        | with_reducible apply raises_bind
                        | with_reducible apply raises_pure | intro _)

theorem init_byte_payload (b : Bitstream) (bit_cur i : Nat) (parity : Bool) (j k : Nat) :
    ∀ n l acc, Raises (init_byte b bit_cur i parity j k n l acc) PayloadErr := by
  intro n
  induction n with
  | zero => intro l acc; unfold init_byte; apply raises_pure
  | succ n ih =>
    intro l acc
    unfold init_byte
    try dsimp only
    repeat' (first | with_reducible apply ih | with_reducible apply src_bit_payload
                        | with_reducible apply raises_bind
                        | with_reducible apply raises_pure | intro _
                        | fail_if_no_progress beta_reduce)

theorem init_str_payload (b : Bitstream) (bit_cur i : Nat) (parity : Bool) (j : Nat) :
    ∀ n k, Raises (init_str b bit_cur i parity j n k) PayloadErr := by
  intro n
  induction n with
  | zero => intro k; unfold init_str; apply raises_pure
  | succ n ih =>
    intro k
    unfold init_str
    repeat' (first | with_reducible apply ih | with_reducible apply init_byte_payload
                        | with_reducible apply raises_bind
                        | with_reducible apply raises_pure | intro _
                        | fail_if_no_progress beta_reduce)

theorem init_strs_payload (b : Bitstream) (bit_cur i : Nat) (parity : Bool) :
    ∀ n j, Raises (init_strs b bit_cur i parity n j) PayloadErr := by
  intro n
  induction n with
  | zero => intro j; unfold init_strs; apply raises_pure
  | succ n ih =>
    intro j
    unfold init_strs
    try dsimp only
    repeat' (first | with_reducible apply ih | with_reducible apply init_str_payload
                        | with_reducible apply raises_bind
                        | with_reducible apply raises_pure | intro _
                        | fail_if_no_progress beta_reduce)

theorem ramb16_payload (b : Bitstream) (bit_cur i j : Nat) :
    Raises (ramb16 b bit_cur i j) PayloadErr := by
  unfold ramb16
  try dsimp only
  repeat' (first | with_reducible apply any_nonzero_payload
                        | with_reducible apply rd_bytes_payload
                        | with_reducible apply init_strs_payload
                        | with_reducible apply raises_bind | with_reducible apply raises_ite
                        | with_reducible apply raises_pure | intro _
                        | fail_if_no_progress beta_reduce)

theorem frame_hi_payload (b : Bitstream) (bit_cur num_frames i : Nat) :
    Raises (frame_hi b bit_cur num_frames i) PayloadErr := by
  unfold frame_hi
  try dsimp only
  repeat' (first | with_reducible apply ramb16_payload | with_reducible apply scan_payload
                        | with_reducible apply hexdump_payload
                        | with_reducible apply raises_bind | with_reducible apply raises_ite
                        | with_reducible apply raises_pure | intro _
                        | fail_if_no_progress beta_reduce | split)

theorem frames_hi_payload (b : Bitstream) (bit_cur num_frames : Nat) :
    ∀ fuel i, Raises (frames_hi b bit_cur num_frames fuel i) PayloadErr := by
  intro fuel
  induction fuel with
  | zero =>
    intro i
    unfold frames_hi
    apply raises_ite
    · exact raises_throw_pl _ rfl
    · apply raises_pure
  | succ fuel ih =>
    intro i
    unfold frames_hi
    apply raises_ite
    · apply raises_bind
      · apply frame_hi_payload
      · rintro ⟨out, next⟩
        apply raises_bind
        · exact ih next
        · intro _; apply raises_pure
    · apply raises_pure

theorem type2_payload (info : Bool) (b : Bitstream) (cur1 off hdr reg wc : Nat) :
    Raises (type2 info b cur1 off hdr reg wc) PayloadErr := by
  unfold type2
  try dsimp only
  repeat' (first | with_reducible apply be32_payload | with_reducible apply frames_lo_payload
                        | with_reducible apply frames_hi_payload
                        | with_reducible apply hexdump_payload
                        | with_reducible apply raises_bind | with_reducible apply raises_ite
                        | with_reducible apply raises_pure
                        | ((with_reducible apply raises_throw_pl); rfl)
                        | intro _ | fail_if_no_progress beta_reduce)

/-! ## The packet header word -/

theorem packet_hdr_type_eq (h : Nat) : packet_hdr_type h = h / 8192 % 8 :=
  and_mask_shift h 13 3

theorem packet_hdr_opcode_eq (h : Nat) : packet_hdr_opcode h = h / 2048 % 4 :=
  and_mask_shift h 11 2

theorem packet_hdr_register_eq (h : Nat) : packet_hdr_register h = h / 32 % 64 :=
  and_mask_shift h 5 6

theorem packet_hdr_wordcount_eq (h : Nat) : packet_hdr_wordcount h = h % 32 := by
  have := and_mask_shift h 0 5
  simpa [packet_hdr_wordcount] using this

theorem be16_lt {b : Bitstream} {i v : Nat} (h : be16 b i = .ok v) : v < 65536 := by
  have hlt := be16_ok h
  rw [be16_val b i hlt] at h
  cases h
  have h0 : byte b i < 256 := Nat.mod_lt _ (by decide)
  have h1 : byte b (i + 1) < 256 := Nat.mod_lt _ (by decide)
  omega

theorem map_payload {α β : Type} (r : Except Err α) (f : α → β) (hr : Raises r PayloadErr)
    (e : Err) (h : r.map f = .error e) : e.isHeader = false := by
  cases r with
  | error e2 =>
    cases h
    exact (payloadErr_iff _).mp ((raises_iff _ _).mp hr _ rfl)
  | ok a => cases h

/-- The iteration of the packet loop at a noop header. -/
theorem packet_noop (info : Bool) (b : Bitstream) (cur h : Nat)
    (hmax : b.bit_eof < BITSTREAM_MAX) (hh : be16 b cur = .ok h)
    (ht : packet_hdr_type h = 1 ∨ packet_hdr_type h = 2) (ho : packet_hdr_opcode h = 0) :
    packet info b cur = .ok (cur + 2, info_hdr info cur
      ++ (if packet_hdr_type h ≠ 1 then [Msg.W_noop_type cur h (packet_hdr_type h)] else [])
      ++ (if h &&& 0x07FF ≠ 0 then [Msg.W_noop_header cur h] else [])
      ++ [Msg.noop]) := by
  have hlt := be16_ok hh
  have hM : BITSTREAM_MAX = 122880000 := by decide
  have e1 : u32 (cur + 2) = cur + 2 := u32_of_lt (by omega)
  have e3 : ¬ (cur + 2 > b.bit_eof) := by omega
  have ht2 : ¬ (packet_hdr_type h ≠ 1 ∧ packet_hdr_type h ≠ 2) := by omega
  unfold packet
  simp only [e1, hh, info_hdr, e3, ht2, ho, bind, Except.bind, pure, Except.pure,
    throw, throwThe, MonadExceptOf.throw, if_false, if_true]
  simp

/-- C13 (as the code has it): the header word splits into type (bits 15-13), opcode (bits
12-11), register (bits 10-5) and word count (bits 4-0); the packet is rejected with one of
the two header errors, `Unexpected packet type` and `Unexpected packet opcode 3`, exactly
when the type is neither 1 nor 2 or the opcode is 3. Both are fatal; every other failure
of the iteration comes from the payload stage. -/
theorem packet_header_word (info : Bool) (b : Bitstream) (cur h : Nat)
    (hmax : b.bit_eof < BITSTREAM_MAX) (hh : be16 b cur = .ok h) :
    (h = packet_hdr_type h * 8192 + packet_hdr_opcode h * 2048 + packet_hdr_register h * 32
        + packet_hdr_wordcount h ∧
      packet_hdr_type h = h / 2 ^ 13 % 2 ^ 3 ∧ packet_hdr_opcode h = h / 2 ^ 11 % 2 ^ 2 ∧
      packet_hdr_register h = h / 2 ^ 5 % 2 ^ 6 ∧ packet_hdr_wordcount h = h % 2 ^ 5 ∧
      packet_hdr_type h < 8 ∧ packet_hdr_opcode h < 4 ∧ packet_hdr_register h < 64 ∧
      packet_hdr_wordcount h < 32) ∧
    ((packet_hdr_type h ≠ 1 ∧ packet_hdr_type h ≠ 2) →
      packet info b cur = .error (.packet_type cur h (packet_hdr_type h))) ∧
    ((packet_hdr_type h = 1 ∨ packet_hdr_type h = 2) → packet_hdr_opcode h = 3 →
      packet info b cur = .error (.packet_opcode cur h)) ∧
    ((∃ e, packet info b cur = .error e ∧ e.isHeader = true) ↔
      ((packet_hdr_type h ≠ 1 ∧ packet_hdr_type h ≠ 2) ∨ packet_hdr_opcode h = 3)) ∧
    (∀ e, packet info b cur = .error e → e.isHeader = true → e.isFatal = true) := by
  have hlt := be16_ok hh
  have h16 := be16_lt hh
  have hM : BITSTREAM_MAX = 122880000 := by decide
  have e1 : u32 (cur + 2) = cur + 2 := u32_of_lt (by omega)
  have e3 : ¬ (cur + 2 > b.bit_eof) := by omega
  have t := packet_hdr_type_eq h
  have o := packet_hdr_opcode_eq h
  have r := packet_hdr_register_eq h
  have w := packet_hdr_wordcount_eq h
  have A : (packet_hdr_type h ≠ 1 ∧ packet_hdr_type h ≠ 2) →
      packet info b cur = .error (.packet_type cur h (packet_hdr_type h)) := by
    intro ht
    unfold packet
    simp [e1, hh, e3, ht, bind, Except.bind, pure, Except.pure, throw, throwThe,
      MonadExceptOf.throw]
  have B : (packet_hdr_type h = 1 ∨ packet_hdr_type h = 2) → packet_hdr_opcode h = 3 →
      packet info b cur = .error (.packet_opcode cur h) := by
    intro ht ho
    have ht2 : ¬ (packet_hdr_type h ≠ 1 ∧ packet_hdr_type h ≠ 2) := by omega
    unfold packet
    simp only [e1, hh, e3, ht2, ho, bind, Except.bind, pure, Except.pure, throw, throwThe,
      MonadExceptOf.throw, if_false, if_true]
  refine ⟨⟨by omega, t, o, r, w, by omega, by omega, by omega, by omega⟩, A, B, ?_, ?_⟩
  · constructor
    · rintro ⟨e, he, hd⟩
      by_contra hn
      have ht : packet_hdr_type h = 1 ∨ packet_hdr_type h = 2 := by omega
      have ho3 : packet_hdr_opcode h ≠ 3 := by omega
      by_cases ho0 : packet_hdr_opcode h = 0
      · rw [packet_noop info b cur h hmax hh ht ho0] at he
        cases he
      · rcases ht with ht | ht
        · have hp : T1Packet b cur h (packet_hdr_register h) (packet_hdr_wordcount h) :=
            ⟨hh, ht, by omega, rfl, rfl⟩
          rw [(packet_T1Packet info b cur h _ _ hmax hp).2] at he
          split at he
          · cases he
            cases hd
          · have := map_payload _ _ (type1_payload b cur h _ _) e he
            rw [this] at hd
            cases hd
        · have hp : T2Packet b cur h (packet_hdr_register h) (packet_hdr_wordcount h) :=
            ⟨hh, ht, by omega, rfl, rfl⟩
          rw [(packet_T2Packet info b cur h _ _ hmax hp).2] at he
          split at he
          · cases he
            cases hd
          · have := map_payload _ _ (type2_payload info b _ cur h _ _) e he
            rw [this] at hd
            cases hd
    · intro hc
      by_cases ht : packet_hdr_type h ≠ 1 ∧ packet_hdr_type h ≠ 2
      · exact ⟨_, A ht, rfl⟩
      · rcases hc with hc | hc
        · exact absurd hc ht
        · exact ⟨_, B (by omega) hc, rfl⟩
  · intro e _ hd
    cases e <;> first | rfl | cases hd

/-- C13, an input on which the claim as worded fails: the header `31 C1` has type 1 and
opcode 2, and the iteration fails fatally all the same, with the word-count error of the
IDCODE decoder. -/
theorem header_accepted_payload_fatal :
    packet_hdr_type 0x31C1 = 1 ∧ packet_hdr_opcode 0x31C1 = 2 ∧
    packet false (Bitstream.ofBytes [0x31, 0xC1, 0x00, 0x00]) 0 =
      .error (.wordcount "IDCODE" 0 0x31C1 1) ∧
    (Err.wordcount "IDCODE" 0 0x31C1 1).isFatal = true := by
  decide

theorem packet_header_word_witness :
    be16 (Bitstream.ofBytes [0x70, 0xA1]) 0 = .ok 0x70A1 ∧
    packet_hdr_type 0x70A1 = 3 ∧
    packet false (Bitstream.ofBytes [0x70, 0xA1]) 0 = .error (.packet_type 0 0x70A1 3) ∧
    ((∃ e, packet false (Bitstream.ofBytes [0x38, 0xA1]) 0 = .error e ∧ e.isHeader = true) ↔
      ((packet_hdr_type 0x38A1 ≠ 1 ∧ packet_hdr_type 0x38A1 ≠ 2)
        ∨ packet_hdr_opcode 0x38A1 = 3)) :=
  ⟨by decide, by decide,
    by
      have := (packet_header_word false (Bitstream.ofBytes [0x70, 0xA1]) 0 0x70A1 (by decide)
        (by decide)).2.1 (by decide)
      simpa using this,
    (packet_header_word false (Bitstream.ofBytes [0x38, 0xA1]) 0 0x38A1 (by decide)
      (by decide)).2.2.2.1⟩
/-! ## Noop packets -/

/-- C14: at a header with opcode 0 and type 1 or 2 the iteration gets through, the cursor
moves on by the 2 bytes of the header whatever the register and word-count fields hold,
the last record is `noop`, and in front of it stand the warnings: the type warning when
the type is not 1, the header warning when the low 11 bits are not all zero, none
otherwise. -/
theorem noop_packet (info : Bool) (b : Bitstream) (cur h : Nat)
    (hmax : b.bit_eof < BITSTREAM_MAX) (hh : be16 b cur = .ok h)
    (ht : packet_hdr_type h = 1 ∨ packet_hdr_type h = 2) (ho : packet_hdr_opcode h = 0) :
    ∃ warnings, packet info b cur = .ok (cur + 2, info_hdr info cur ++ warnings ++ [Msg.noop]) ∧
      warnings =
        (if packet_hdr_type h ≠ 1 then [Msg.W_noop_type cur h (packet_hdr_type h)] else [])
        ++ (if h % 2 ^ 11 ≠ 0 then [Msg.W_noop_header cur h] else []) ∧
      (warnings ≠ [] ↔ (packet_hdr_type h ≠ 1 ∨ h % 2 ^ 11 ≠ 0)) := by
  have hk : h &&& 0x07FF = h % 2 ^ 11 := by
    have := and_mask h 0 11
    simpa using this
  have hp := packet_noop info b cur h hmax hh ht ho
  rw [hk] at hp
  refine ⟨_, ?_, rfl, ?_⟩
  · rw [hp]
    simp [List.append_assoc]
  · by_cases h1 : packet_hdr_type h ≠ 1 <;> by_cases h2 : h % 2 ^ 11 ≠ 0 <;> simp [h1, h2]

theorem noop_packet_witness :
    be16 (Bitstream.ofBytes [0x20, 0x00, 0x40, 0x21]) 0 = .ok 0x2000 ∧
    be16 (Bitstream.ofBytes [0x20, 0x00, 0x40, 0x21]) 2 = .ok 0x4021 ∧
    (∃ warnings, packet false (Bitstream.ofBytes [0x20, 0x00, 0x40, 0x21]) 0 =
        .ok (0 + 2, info_hdr false 0 ++ warnings ++ [Msg.noop]) ∧
      warnings =
        (if packet_hdr_type 0x2000 ≠ 1 then [Msg.W_noop_type 0 0x2000 (packet_hdr_type 0x2000)]
          else [])
        ++ (if 0x2000 % 2 ^ 11 ≠ 0 then [Msg.W_noop_header 0 0x2000] else []) ∧
      (warnings ≠ [] ↔ (packet_hdr_type 0x2000 ≠ 1 ∨ 0x2000 % 2 ^ 11 ≠ 0))) ∧
    (∃ warnings, packet false (Bitstream.ofBytes [0x20, 0x00, 0x40, 0x21]) 2 =
        .ok (2 + 2, info_hdr false 2 ++ warnings ++ [Msg.noop]) ∧
      warnings =
        (if packet_hdr_type 0x4021 ≠ 1 then [Msg.W_noop_type 2 0x4021 (packet_hdr_type 0x4021)]
          else [])
        ++ (if 0x4021 % 2 ^ 11 ≠ 0 then [Msg.W_noop_header 2 0x4021] else []) ∧
      (warnings ≠ [] ↔ (packet_hdr_type 0x4021 ≠ 1 ∨ 0x4021 % 2 ^ 11 ≠ 0))) :=
  ⟨by decide, by decide,
    noop_packet false (Bitstream.ofBytes [0x20, 0x00, 0x40, 0x21]) 0 0x2000 (by decide)
      (by decide) (by decide) (by decide),
    noop_packet false (Bitstream.ofBytes [0x20, 0x00, 0x40, 0x21]) 2 0x4021 (by decide)
      (by decide) (by decide) (by decide)⟩

/-! ## The cursor behind a type-1 packet -/

/-- A named register without a decoder of its own goes to the generic dump, which gets
through when the payload words are in the file. -/
theorem type1_generic_ok (b : Bitstream) (cur hdr reg wc : Nat)
    (hmax : b.bit_eof < BITSTREAM_MAX) (hc : cur + 2 + wc * 2 ≤ b.bit_eof)
    (hr : reg < 35) (h17 : reg ≠ 17) (hb : ∀ e ∈ checked_arity, e.1 ≠ reg)
    (hf : ¬ (reg = FAR_MAJ ∧ wc = 2)) :
    ∃ name ws, (xc6_regs.getD reg ⟨none, 0⟩).name = some name ∧ ws.length = min 8 wc ∧
      type1 b cur hdr reg wc = .ok [Msg.W_T1 name wc ws] := by
  obtain ⟨ws, hws, hl⟩ := t1_words_ok b cur hmax (min 8 wc) 0 (by omega)
  simp only [checked_arity, List.mem_cons, List.mem_singleton, List.not_mem_nil, or_false,
    forall_eq_or_imp, forall_eq, IDCODE, CMD, FLR, COR1, COR2, MFWR, CTL, MASK, PWRDN_REG,
    HC_OPT_REG] at hb
  simp only [FAR_MAJ] at hf
  interval_cases reg <;> first
    | omega
    | (refine ⟨_, ws, rfl, hl, ?_⟩
       simp [type1, xc6_regs, reg_name_empty, IDCODE, CMD, FLR, COR1, COR2, FAR_MAJ, MFWR, CTL,
         MASK, PWRDN_REG, HC_OPT_REG, t1_generic, hws, bind, Except.bind, pure, Except.pure]
       try omega)

/-- C15: an iteration at a type-1 read or write packet fails with unexpected EOF when
fewer than `2*w` bytes follow the header; otherwise it gets through exactly when the
register's decoder does, and then the cursor stands at `h + 2 + 2*w`. This holds for a
register address beyond the table (unknown-register warning), for the generic dump of a
named register without a decoder, and for the registers with a decoder of their own. -/
theorem type1_cursor (info : Bool) (b : Bitstream) (cur hdr reg wc : Nat)
    (hmax : b.bit_eof < BITSTREAM_MAX) (hp : T1Packet b cur hdr reg wc) :
    (∀ cur2 out, packet info b cur = .ok (cur2, out) → cur2 = cur + 2 + 2 * wc) ∧
    (b.bit_eof < cur + 2 + 2 * wc → packet info b cur = .error .unexpected_eof) ∧
    (cur + 2 + 2 * wc ≤ b.bit_eof →
      (∀ out, type1 b cur hdr reg wc = .ok out →
        packet info b cur = .ok (cur + 2 + 2 * wc, info_hdr info cur ++ out)) ∧
      (35 ≤ reg → packet info b cur =
        .ok (cur + 2 + 2 * wc, info_hdr info cur ++ [Msg.W_unknown_reg cur hdr reg wc])) ∧
      (reg < 35 → reg ≠ 17 → (∀ e ∈ checked_arity, e.1 ≠ reg) → ¬ (reg = FAR_MAJ ∧ wc = 2) →
        ∃ name ws, packet info b cur =
          .ok (cur + 2 + 2 * wc, info_hdr info cur ++ [Msg.W_T1 name wc ws]))) := by
  obtain ⟨hwc, hpk⟩ := packet_T1Packet info b cur hdr reg wc hmax hp
  have e : cur + 2 + wc * 2 = cur + 2 + 2 * wc := by omega
  rw [e] at hpk
  refine ⟨?_, ?_, ?_⟩
  · intro cur2 out h
    rw [hpk] at h
    split at h
    · cases h
    · cases ht : type1 b cur hdr reg wc with
      | error e2 => rw [ht] at h; cases h
      | ok o =>
        rw [ht] at h
        simp only [Except.map, Except.ok.injEq, Prod.mk.injEq] at h
        exact h.1.symm
  · intro h
    rw [hpk, if_pos (by omega)]
  · intro hc
    have A : ∀ out, type1 b cur hdr reg wc = .ok out →
        packet info b cur = .ok (cur + 2 + 2 * wc, info_hdr info cur ++ out) := by
      intro out ht
      rw [hpk, if_neg (by omega), ht]
      rfl
    refine ⟨A, ?_, ?_⟩
    · intro hr
      apply A
      have hl : xc6_regs.length = 35 := by decide
      simp [type1, hl, hr, bind, Except.bind, pure, Except.pure]
    · intro hr h17 hb hf
      obtain ⟨name, ws, _, _, ht⟩ :=
        type1_generic_ok b cur hdr reg wc hmax (by omega) hr h17 hb hf
      exact ⟨name, ws, A _ ht⟩

theorem type1_cursor_witness :
    T1Packet (Bitstream.ofBytes [0x30, 0xA1, 0x00, 0x07, 0x30, 0x02, 0x12, 0x34, 0x56]) 0
      0x30A1 CMD 1 ∧
    packet false (Bitstream.ofBytes [0x30, 0xA1, 0x00, 0x07, 0x30, 0x02, 0x12, 0x34, 0x56]) 0
      = .ok (4, [Msg.T1_CMD "RCRC"]) ∧
    T1Packet (Bitstream.ofBytes [0x30, 0xA1, 0x00, 0x07, 0x30, 0x02, 0x12, 0x34, 0x56]) 4
      0x3002 CRC 2 ∧
    packet false (Bitstream.ofBytes [0x30, 0xA1, 0x00, 0x07, 0x30, 0x02, 0x12, 0x34, 0x56]) 4
      = .error .unexpected_eof ∧
    (∃ name ws,
      packet false (Bitstream.ofBytes [0x30, 0x02, 0x12, 0x34, 0x56, 0x78]) 0 =
        .ok (0 + 2 + 2 * 2, info_hdr false 0 ++ [Msg.W_T1 name 2 ws])) :=
  ⟨by decide, by decide, by decide,
    (type1_cursor false
      (Bitstream.ofBytes [0x30, 0xA1, 0x00, 0x07, 0x30, 0x02, 0x12, 0x34, 0x56]) 4 0x3002 CRC 2
      (by decide) (by decide)).2.1 (by decide),
    ((type1_cursor false (Bitstream.ofBytes [0x30, 0x02, 0x12, 0x34, 0x56, 0x78]) 0 0x3002
      CRC 2 (by decide) (by decide)).2.2 (by decide)).2.2 (by decide) (by decide) (by decide)
      (by decide)⟩

/-! ## Reads outside the file in the frame loops -/

theorem oobErr_iff (e : Err) : OobErr e ↔ e.isOob = true := by
  unfold OobErr; rfl

theorem rd8_oob (b : Bitstream) (i : Nat) : Raises (rd8 b i) OobErr := by
  unfold rd8
  apply raises_ite
  · apply raises_ok
  · exact raises_error _ _ ((oobErr_iff _).mpr rfl)

theorem be16_oob (b : Bitstream) (i : Nat) : Raises (be16 b i) OobErr := by
  unfold be16
  repeat' (first | apply rd8_oob | with_reducible apply raises_bind
                        | with_reducible apply raises_pure | intro _)

theorem be32_oob (b : Bitstream) (i : Nat) : Raises (be32 b i) OobErr := by
  unfold be32
  repeat' (first | apply rd8_oob | with_reducible apply raises_bind
                        | with_reducible apply raises_pure | intro _)

theorem rdN_oob (b : Bitstream) : ∀ n i, Raises (rdN b i n) OobErr := by
  intro n
  induction n with
  | zero => intro i; apply raises_pure
  | succ n ih =>
    intro i
    unfold rdN
    repeat' (first | apply rd8_oob | apply ih | with_reducible apply raises_bind
                          | with_reducible apply raises_pure | intro _)

theorem hexdump_lines_oob (b : Bitstream) (data len width : Nat) :
    ∀ n j, Raises (hexdump_lines b data len width n j) OobErr := by
  intro n
  induction n with
  | zero => intro j; unfold hexdump_lines; apply raises_pure
  | succ n ih =>
    intro j
    unfold hexdump_lines
    try dsimp only
    repeat' (first | with_reducible apply ih | with_reducible apply rdN_oob
                        | with_reducible apply be16_oob | with_reducible apply rd8_oob
                        | with_reducible apply raises_bind | with_reducible apply raises_ite
                        | with_reducible apply raises_pure | with_reducible apply raises_ok
                        | intro _ | fail_if_no_progress beta_reduce | split)

theorem hexdump_oob (b : Bitstream) (data len : Nat) :
    Raises (hexdump b data len) OobErr := by
  unfold hexdump
  exact hexdump_lines_oob b data len _ _ _

theorem scan_oob (b : Bitstream) (base : Nat) :
    ∀ n j z o, Raises (scan b base n j z o) OobErr := by
  intro n
  induction n with
  | zero => intro j z o; unfold scan; apply raises_pure
  | succ n ih =>
    intro j z o
    unfold scan
    try dsimp only
    repeat' (first | with_reducible apply ih | with_reducible apply rd8_oob
                        | with_reducible apply raises_bind | with_reducible apply raises_ite
                        | with_reducible apply raises_pure | intro _
                        | fail_if_no_progress beta_reduce)

theorem rd_bytes_oob (b : Bitstream) (base : Nat) :
    ∀ n j, Raises (rd_bytes b base n j) OobErr := by
  intro n
  induction n with
  | zero => intro j; unfold rd_bytes; apply raises_pure
  | succ n ih =>
    intro j
    unfold rd_bytes
    try dsimp only
    repeat' (first | with_reducible apply ih
                        | with_reducible apply be16_oob | with_reducible apply rd8_oob
                        | with_reducible apply raises_bind | with_reducible apply raises_ite
                        | with_reducible apply raises_pure | with_reducible apply raises_ok
                        | intro _ | fail_if_no_progress beta_reduce | split)

theorem any_nonzero_oob (b : Bitstream) (base : Nat) :
    ∀ n j, Raises (any_nonzero b base n j) OobErr := by
  intro n
  induction n with
  | zero => intro j; unfold any_nonzero; apply raises_pure
  | succ n ih =>
    intro j
    unfold any_nonzero
    try dsimp only
    repeat' (first | with_reducible apply ih
                        | with_reducible apply be16_oob | with_reducible apply rd8_oob
                        | with_reducible apply raises_bind | with_reducible apply raises_ite
                        | with_reducible apply raises_pure | with_reducible apply raises_ok
                        | intro _ | fail_if_no_progress beta_reduce | split)

theorem half_oob (b : Bitstream) (base j : Nat) (z o : Bool) :
    Raises (half b base j z o) OobErr := by
  unfold half
  repeat' (first | with_reducible apply rd_bytes_oob
                        | with_reducible apply raises_bind | with_reducible apply raises_ite
                        | with_reducible apply raises_pure | intro _
                        | fail_if_no_progress beta_reduce)

theorem frame_lo_oob (b : Bitstream) (bit_cur i : Nat) :
    Raises (frame_lo b bit_cur i) OobErr := by
  unfold frame_lo
  try dsimp only
  repeat' (first | with_reducible apply be16_oob | with_reducible apply scan_oob
                        | with_reducible apply half_oob
                        | with_reducible apply raises_bind | with_reducible apply raises_ite
                        | with_reducible apply raises_pure | intro _
                        | fail_if_no_progress beta_reduce | split)

theorem frames_lo_oob (b : Bitstream) (bit_cur : Nat) :
    ∀ n i, Raises (frames_lo b bit_cur n i) OobErr := by
  intro n
  induction n with
  | zero => intro i; unfold frames_lo; apply raises_pure
  | succ n ih =>
    intro i
    unfold frames_lo
    try dsimp only
    repeat' (first | with_reducible apply ih | with_reducible apply frame_lo_oob
                        | with_reducible apply raises_bind | with_reducible apply raises_ite
                        | with_reducible apply raises_pure | intro _
                        | fail_if_no_progress beta_reduce)

theorem src_bit_oob (b : Bitstream) (bit_cur i off : Nat) :
    Raises (src_bit b bit_cur i off) OobErr := by
  unfold src_bit
  repeat' (first | with_reducible apply rd8_oob
                        | with_reducible apply raises_bind
                        | with_reducible apply raises_pure | intro _)

theorem init_byte_oob (b : Bitstream) (bit_cur i : Nat) (parity : Bool) (j k : Nat) :
    ∀ n l acc, Raises (init_byte b bit_cur i parity j k n l acc) OobErr := by
  intro n
  induction n with
  | zero => intro l acc; unfold init_byte; apply raises_pure
  | succ n ih =>
    intro l acc
    unfold init_byte
    try dsimp only
    repeat' (first | with_reducible apply ih | with_reducible apply src_bit_oob
                        | with_reducible apply raises_bind
                        | with_reducible apply raises_pure | intro _
                        | fail_if_no_progress beta_reduce)

theorem init_str_oob (b : Bitstream) (bit_cur i : Nat) (parity : Bool) (j : Nat) :
    ∀ n k, Raises (init_str b bit_cur i parity j n k) OobErr := by
  intro n
  induction n with
  | zero => intro k; unfold init_str; apply raises_pure
  | succ n ih =>
    intro k
    unfold init_str
    repeat' (first | with_reducible apply ih | with_reducible apply init_byte_oob
                        | with_reducible apply raises_bind
                        | with_reducible apply raises_pure | intro _
                        | fail_if_no_progress beta_reduce)

theorem init_strs_oob (b : Bitstream) (bit_cur i : Nat) (parity : Bool) :
    ∀ n j, Raises (init_strs b bit_cur i parity n j) OobErr := by
  intro n
  induction n with
  | zero => intro j; unfold init_strs; apply raises_pure
  | succ n ih =>
    intro j
    unfold init_strs
    try dsimp only
    repeat' (first | with_reducible apply ih | with_reducible apply init_str_oob
                        | with_reducible apply raises_bind
                        | with_reducible apply raises_pure | intro _
                        | fail_if_no_progress beta_reduce)

theorem ramb16_oob (b : Bitstream) (bit_cur i j : Nat) :
    Raises (ramb16 b bit_cur i j) OobErr := by
  unfold ramb16
  try dsimp only
  repeat' (first | with_reducible apply any_nonzero_oob
                        | with_reducible apply rd_bytes_oob
                        | with_reducible apply init_strs_oob
                        | with_reducible apply raises_bind | with_reducible apply raises_ite
                        | with_reducible apply raises_pure | intro _
                        | fail_if_no_progress beta_reduce)

theorem frame_hi_oob (b : Bitstream) (bit_cur num_frames i : Nat) :
    Raises (frame_hi b bit_cur num_frames i) OobErr := by
  unfold frame_hi
  try dsimp only
  repeat' (first | with_reducible apply ramb16_oob | with_reducible apply scan_oob
                        | with_reducible apply hexdump_oob
                        | with_reducible apply raises_bind | with_reducible apply raises_ite
                        | with_reducible apply raises_pure | intro _
                        | fail_if_no_progress beta_reduce | split)

theorem frames_hi_oob (b : Bitstream) (bit_cur num_frames : Nat) :
    ∀ fuel i, num_frames - i ≤ fuel → Raises (frames_hi b bit_cur num_frames fuel i) OobErr := by
  intro fuel
  induction fuel with
  | zero =>
    intro i h
    unfold frames_hi
    rw [if_neg (by omega)]
    apply raises_pure
  | succ fuel ih =>
    intro i h
    unfold frames_hi
    apply raises_ite
    · apply raises_bind_ok
      · apply frame_hi_oob
      · rintro ⟨out, next⟩ hok
        have := (frame_hi_ok hok).2
        apply raises_bind
        · exact ih next (by omega)
        · intro _; apply raises_pure
    · apply raises_pure

/-! ## The count and the cursor of a type-2 packet -/

/-- The type-2 decoder at an FDRI packet whose count is below `2^31` and whose payload of
`2*count` bytes, at least one frame, lies in the file: the two frame loops, the dump of
the bytes behind the last whole frame, and the auto-CRC behind the payload. -/
theorem type2_fdri (info : Bool) (b : Bitstream) (cur1 off hdr wc count : Nat)
    (hmax : b.bit_eof < BITSTREAM_MAX) (hcount : be32 b cur1 = .ok count)
    (h31 : count < 2147483648) (h3 : 130 ≤ 2 * count)
    (hfit : cur1 + 4 + 2 * count ≤ b.bit_eof) :
    ∃ tl crc, type2 info b cur1 off hdr FDRI wc =
      match frames_lo b (cur1 + 4) (2 * count / 130) 0 with
      | .error e => .error e
      | .ok lo =>
        match frames_hi b (cur1 + 4) (2 * count / 130) (2 * count / 130 - 2020) 2020 with
        | .error e => .error e
        | .ok hi =>
          if cur1 + 4 + 2 * count + 4 > b.bit_eof then .error .unexpected_eof
          else .ok (cur1 + 4 + 2 * count + 4,
            (if wc ≠ 0 then [Msg.W_type2_wordcount off hdr] else []) ++ [Msg.T2_FDRI] ++ lo
              ++ hi ++ tl
              ++ (if info then [Msg.I_auto_crc (cur1 + 4 + 2 * count) crc] else [])) := by
  have hM : BITSTREAM_MAX = 122880000 := by decide
  have e4 : u32 (cur1 + 4) = cur1 + 4 := u32_of_lt (by omega)
  have e2c : u32 (2 * count) = 2 * count := u32_of_lt (by omega)
  have ecomm : count * 2 = 2 * count := Nat.mul_comm _ _
  have e5 : u32 (cur1 + 4 + 2 * count) = cur1 + 4 + 2 * count := u32_of_lt (by omega)
  have e6 : u32 (cur1 + 4 + 2 * count + 4) = cur1 + 4 + 2 * count + 4 := u32_of_lt (by omega)
  have hnf : 2 * count / 130 * 130 ≤ 2 * count := Nat.div_mul_le_self _ _
  have e7 : u32 (2 * count / 130 * 130) = 2 * count / 130 * 130 := u32_of_lt (by omega)
  have e8 : u32 (cur1 + 4 + 2 * count / 130 * 130) = cur1 + 4 + 2 * count / 130 * 130 :=
    u32_of_lt (by omega)
  have h1 : ¬ (cur1 + 4 > b.bit_eof) := by omega
  have h2 : ¬ (cur1 + 4 + 2 * count > b.bit_eof) := by omega
  have h3n : ¬ (2 * count < 130) := by omega
  obtain ⟨hd, hhd, _⟩ := hexdump_ok b (cur1 + 4 + 2 * count / 130 * 130)
    (2 * count - 2 * count / 130 * 130) (by omega)
  by_cases h5 : cur1 + 4 + 2 * count + 4 > b.bit_eof
  · refine ⟨[], 0, ?_⟩
    cases hlo : frames_lo b (cur1 + 4) (2 * count / 130) 0 with
    | error e =>
      simp [type2, e4, e2c, e5, hcount, h1, h2, h3n, hlo, bind, Except.bind, throw, throwThe,
        MonadExceptOf.throw, pure, Except.pure]
    | ok lo =>
      cases hhi : frames_hi b (cur1 + 4) (2 * count / 130) (2 * count / 130 - 2020) 2020 with
      | error e =>
        simp [type2, e4, e2c, e5, hcount, h1, h2, h3n, hlo, hhi, bind, Except.bind, throw,
          throwThe, MonadExceptOf.throw, pure, Except.pure]
      | ok hi =>
        by_cases ht : 2 * count > 2 * count / 130 * 130
        · simp [type2, e4, e2c, e5, e6, e7, e8, ecomm, hcount, h1, h2, h3n, hlo, hhi, h5, ht,
            hhd, bind, Except.bind, throw, throwThe, MonadExceptOf.throw, pure, Except.pure]
        · simp [type2, e4, e2c, e5, e6, e7, e8, ecomm, hcount, h1, h2, h3n, hlo, hhi, h5, ht,
            bind, Except.bind, throw, throwThe, MonadExceptOf.throw, pure, Except.pure]
  · obtain ⟨crc, hcrc⟩ : ∃ crc, be32 b (cur1 + 4 + 2 * count) = .ok crc :=
      ⟨_, be32_eq b (cur1 + 4 + 2 * count) (by omega)⟩
    refine ⟨if 2 * count > 2 * count / 130 * 130
        then Msg.D_hexdump (2 * count / 130 * 130) (2 * count - 2 * count / 130 * 130) :: hd
        else [], crc, ?_⟩
    cases hlo : frames_lo b (cur1 + 4) (2 * count / 130) 0 with
    | error e =>
      simp [type2, e4, e2c, e5, hcount, h1, h2, h3n, hlo, bind, Except.bind, throw, throwThe,
        MonadExceptOf.throw, pure, Except.pure]
    | ok lo =>
      cases hhi : frames_hi b (cur1 + 4) (2 * count / 130) (2 * count / 130 - 2020) 2020 with
      | error e =>
        simp [type2, e4, e2c, e5, hcount, h1, h2, h3n, hlo, hhi, bind, Except.bind, throw,
          throwThe, MonadExceptOf.throw, pure, Except.pure]
      | ok hi =>
        by_cases ht : 2 * count > 2 * count / 130 * 130
        · simp [type2, e4, e2c, e5, e6, e7, e8, ecomm, hcount, h1, h2, h3n, hlo, hhi, h5, ht,
            hhd, hcrc, bind, Except.bind, throw, throwThe, MonadExceptOf.throw, pure,
            Except.pure]
        · simp [type2, e4, e2c, e5, e6, e7, e8, ecomm, hcount, h1, h2, h3n, hlo, hhi, h5, ht,
            hcrc, bind, Except.bind, throw, throwThe, MonadExceptOf.throw, pure, Except.pure]

/-- A type-2 packet that gets through: the register is FDRI, the count read at the cursor
gives a payload of at least one frame, and the cursor ends 4 bytes behind the payload. -/
theorem type2_cursor_eq (info : Bool) (b : Bitstream) (cur1 off hdr reg wc cur2 : Nat)
    (out : List Msg) (hmax : b.bit_eof < BITSTREAM_MAX) (hc : cur1 ≤ b.bit_eof)
    (h : type2 info b cur1 off hdr reg wc = .ok (cur2, out)) :
    ∃ count, be32 b cur1 = .ok count ∧ reg = FDRI ∧ 130 ≤ u32 (2 * count) ∧
      cur2 = cur1 + 4 + u32 (2 * count) + 4 ∧ cur2 ≤ b.bit_eof := by
  have hM : BITSTREAM_MAX = 122880000 := by decide
  have e4 : u32 (cur1 + 4) = cur1 + 4 := u32_of_lt (by omega)
  by_cases hr : reg = FDRI
  case neg =>
    simp [type2, hr, bind, Except.bind, throw, throwThe, MonadExceptOf.throw] at h
  by_cases h1 : cur1 + 4 > b.bit_eof
  case pos =>
    simp [type2, e4, hr, h1, bind, Except.bind, throw, throwThe, MonadExceptOf.throw, pure,
      Except.pure] at h
  cases hcount : be32 b cur1 with
  | error e =>
    simp [type2, e4, hr, h1, hcount, bind, Except.bind, throw, throwThe, MonadExceptOf.throw,
      pure, Except.pure] at h
  | ok count =>
    have ecomm : count * 2 = 2 * count := Nat.mul_comm _ _
    by_cases h2 : u32 (cur1 + 4 + u32 (2 * count)) > b.bit_eof
    case pos =>
      simp [type2, e4, hr, h1, hcount, h2, bind, Except.bind, throw, throwThe,
        MonadExceptOf.throw, pure, Except.pure] at h
    by_cases h3 : u32 (2 * count) < 130
    case pos =>
      simp [type2, e4, hr, h1, hcount, h2, h3, bind, Except.bind, throw, throwThe,
        MonadExceptOf.throw, pure, Except.pure] at h
    cases hlo : frames_lo b (cur1 + 4) (u32 (2 * count) / 130) 0 with
    | error e =>
      simp [type2, e4, hr, h1, hcount, h2, h3, hlo, bind, Except.bind, throw, throwThe,
        MonadExceptOf.throw, pure, Except.pure] at h
    | ok lo =>
      cases hhi : frames_hi b (cur1 + 4) (u32 (2 * count) / 130)
          (u32 (2 * count) / 130 - 2020) 2020 with
      | error e =>
        simp [type2, e4, hr, h1, hcount, h2, h3, hlo, hhi, bind, Except.bind, throw, throwThe,
          MonadExceptOf.throw, pure, Except.pure] at h
      | ok hi =>
        have hnw : cur1 + 4 + u32 (2 * count) < 4294967296 := by
          by_cases hn : 2020 < u32 (2 * count) / 130
          · have := frames_hi_ok_bound b (cur1 + 4) (u32 (2 * count) / 130) hmax _ 2020 hi
              (by omega) hn hhi
            omega
          · omega
        have e5 : u32 (cur1 + 4 + u32 (2 * count)) = cur1 + 4 + u32 (2 * count) :=
          u32_of_lt hnw
        rw [e5] at h2
        have e6 : u32 (cur1 + 4 + u32 (2 * count) + 4) = cur1 + 4 + u32 (2 * count) + 4 :=
          u32_of_lt (by omega)
        by_cases h5 : cur1 + 4 + u32 (2 * count) + 4 > b.bit_eof
        case pos =>
          simp [type2, e4, e5, e6, ecomm, hr, h1, hcount, h2, h3, hlo, hhi, h5, bind,
            Except.bind, throw, throwThe, MonadExceptOf.throw, pure, Except.pure] at h
          revert h
          split <;> (try split) <;> simp
        case neg =>
          simp [type2, e4, e5, e6, ecomm, hr, h1, hcount, h2, h3, hlo, hhi, h5, bind,
            Except.bind, throw, throwThe, MonadExceptOf.throw, pure, Except.pure] at h
          have key : cur2 = cur1 + 4 + u32 (2 * count) + 4 := by
            cases hcrc : be32 b (cur1 + 4 + u32 (2 * count)) with
            | error e =>
              simp only [hcrc] at h
              revert h
              split
              · split <;> simp
              · simp
            | ok crc =>
              simp only [hcrc] at h
              revert h
              split
              · split
                · simp
                · simp only [Except.ok.injEq, Prod.mk.injEq]
                  intro hh; exact hh.1.symm
              · simp only [Except.ok.injEq, Prod.mk.injEq]
                intro hh; exact hh.1.symm
          exact ⟨count, rfl, hr, by omega, key, by omega⟩

/-- The string that `printf("%s")` prints ends at the first NUL byte: with a NUL byte at
an index `z` of the file it is read without leaving the file. -/
theorem cstr_ok (b : Bitstream) :
    ∀ fuel i z, i ≤ z → z < b.bit_eof → byte b z = 0 → z - i ≤ fuel →
      ∃ s, cstr b fuel i = .ok s ∧ s.length ≤ z - i := by
  intro fuel
  induction fuel with
  | zero =>
    intro i z hiz hz h0 hf
    have e : z = i := by omega
    subst e
    refine ⟨[], ?_, by simp⟩
    have h0b : b.bit_data z % 256 = 0 := h0
    simp [cstr, rd8_of_lt hz, h0b, bind, Except.bind, pure, Except.pure]
  | succ n ih =>
    intro i z hiz hz h0 hf
    by_cases hx : byte b i = 0
    · refine ⟨[], ?_, by simp⟩
      have hxb : b.bit_data i % 256 = 0 := hx
      simp [cstr, rd8_of_lt (show i < b.bit_eof by omega), hxb, bind, Except.bind, pure,
        Except.pure]
    · have hne : i ≠ z := by
        intro e
        subst e
        exact hx h0
      obtain ⟨s, hs, hl⟩ := ih (i + 1) z (by omega) hz h0 (by omega)
      refine ⟨byte b i :: s, ?_, by simp; omega⟩
      have hxb : ¬ (b.bit_data i % 256 = 0) := hx
      simp [cstr, rd8_of_lt (show i < b.bit_eof by omega), hxb, hs, bind, Except.bind, pure,
        Except.pure, byte]

/-- One iteration of the loop over the header fields, case by case. -/
theorem header_string_cases (b : Bitstream) (cur i : Nat)
    (hmax : b.bit_eof < BITSTREAM_MAX) (hcur : cur ≤ b.bit_eof) :
    (b.bit_eof < cur + 3 → header_string b cur i = .error (.eof_at b.bit_eof)) ∧
    (cur + 3 ≤ b.bit_eof → byte b cur ≠ i →
      header_string b cur i = .error (.string_code i (byte b cur))) ∧
    (cur + 3 ≤ b.bit_eof → byte b cur = i →
      ∀ n, n = byte b (cur + 1) * 256 + byte b (cur + 2) →
        (b.bit_eof < cur + 3 + n → header_string b cur i = .error (.eof_at b.bit_eof)) ∧
        (cur + 3 + n ≤ b.bit_eof → byte b (cur + 3 + n - 1) ≠ 0 →
          header_string b cur i = .error (.zterm (byte b (cur + 3 + n - 1)))) ∧
        (cur + 3 + n ≤ b.bit_eof → 1 ≤ n → byte b (cur + 3 + n - 1) = 0 →
          ∃ s, header_string b cur i = .ok (cur + 3 + n, Msg.header_str i s) ∧
            s.length < n)) := by
  have hM : BITSTREAM_MAX = 122880000 := by decide
  have e3 : u32 (cur + 3) = cur + 3 := u32_of_lt (by omega)
  have e1 : u32 (cur + 1) = cur + 1 := u32_of_lt (by omega)
  refine ⟨?_, ?_, ?_⟩
  · intro h
    simp [header_string, e3, h, bind, Except.bind, throw, throwThe, MonadExceptOf.throw]
  · intro h hne
    have h1 : ¬ (b.bit_eof < cur + 3) := by omega
    have hneb : ¬ (b.bit_data cur % 256 = i) := hne
    simp [header_string, e3, h1, rd8_of_lt (show cur < b.bit_eof by omega), hneb, bind,
      Except.bind, throw, throwThe, MonadExceptOf.throw, pure, Except.pure, byte]
  · intro h htag n hn
    have h1 : ¬ (b.bit_eof < cur + 3) := by omega
    have htagb : b.bit_data cur % 256 = i := htag
    have hlen : be16 b (cur + 1) = .ok n := by
      rw [be16_val b (cur + 1) (by omega), hn]
    have hb1 : byte b (cur + 1) < 256 := Nat.mod_lt _ (by decide)
    have hb2 : byte b (cur + 2) < 256 := Nat.mod_lt _ (by decide)
    have e4 : u32 (cur + 3 + n) = cur + 3 + n := u32_of_lt (by omega)
    have en : cur + 3 + n - 1 = cur + 2 + n := by omega
    have e5 : u32 (cur + 2 + n) = cur + 2 + n := u32_of_lt (by omega)
    refine ⟨?_, ?_, ?_⟩
    · intro h2
      simp [header_string, e1, e3, e4, h1, h2, rd8_of_lt (show cur < b.bit_eof by omega),
        htagb, hlen, bind, Except.bind, throw, throwThe, MonadExceptOf.throw, pure,
        Except.pure]
    · intro h2 hz
      have h2n : ¬ (b.bit_eof < cur + 3 + n) := by omega
      have hzb : ¬ (b.bit_data (cur + 2 + n) % 256 = 0) := en ▸ hz
      simp [header_string, e1, e3, e4, e5, h1, h2n,
        rd8_of_lt (show cur < b.bit_eof by omega),
        rd8_of_lt (show cur + 2 + n < b.bit_eof by omega), htagb, hlen, hzb, bind,
        Except.bind, throw, throwThe, MonadExceptOf.throw, pure, Except.pure, byte]
    · intro h2 hn1 hz
      have h2n : ¬ (b.bit_eof < cur + 3 + n) := by omega
      have hzb : b.bit_data (cur + 2 + n) % 256 = 0 := en ▸ hz
      obtain ⟨s, hs, hl⟩ := cstr_ok b (b.bit_eof - (cur + 3)) (cur + 3) (cur + 3 + n - 1)
        (by omega) (by omega) hz (by omega)
      refine ⟨s, ?_, by omega⟩
      simp [header_string, e1, e3, e4, e5, h1, h2n,
        rd8_of_lt (show cur < b.bit_eof by omega),
        rd8_of_lt (show cur + 2 + n < b.bit_eof by omega), htagb, hlen, hzb, hs, bind,
        Except.bind, throw, throwThe, MonadExceptOf.throw, pure, Except.pure]

/-- Four header fields with declared lengths of at least 1 for which none of the failure
conditions holds are accepted, and the cursor ends behind the fourth. -/
theorem header_fields_accepted (b : Bitstream) (hmax : b.bit_eof < BITSTREAM_MAX)
    (na nb nc nd : Nat) (h1 : 1 ≤ na) (h2 : 1 ≤ nb) (h3 : 1 ≤ nc) (h4 : 1 ≤ nd)
    (ha : FieldOk b 13 0x61 na) (hb : FieldOk b (13 + (3 + na)) 0x62 nb)
    (hc : FieldOk b (13 + (3 + na) + (3 + nb)) 0x63 nc)
    (hd : FieldOk b (13 + (3 + na) + (3 + nb) + (3 + nc)) 0x64 nd) :
    ∃ sa sb sc sd, header_strings b 4 13 0x61 =
      .ok (13 + (3 + na) + (3 + nb) + (3 + nc) + (3 + nd),
        [Msg.header_str 0x61 sa, Msg.header_str 0x62 sb, Msg.header_str 0x63 sc,
         Msg.header_str 0x64 sd]) := by
  have step : ∀ cur tag n, 1 ≤ n → FieldOk b cur tag n →
      ∃ s, header_string b cur tag = .ok (cur + (3 + n), Msg.header_str tag s) := by
    intro cur tag n hn ⟨hfit, htag, hlen, hz⟩
    obtain ⟨s, hs, _⟩ := ((header_string_cases b cur tag hmax (by omega)).2.2 (by omega) htag
      n hlen.symm).2.2 hfit hn hz
    exact ⟨s, by rw [hs, Nat.add_assoc]⟩
  obtain ⟨sa, hsa⟩ := step _ _ _ h1 ha
  obtain ⟨sb, hsb⟩ := step _ _ _ h2 hb
  obtain ⟨sc, hsc⟩ := step _ _ _ h3 hc
  obtain ⟨sd, hsd⟩ := step _ _ _ h4 hd
  refine ⟨sa, sb, sc, sd, ?_⟩
  simp [header_strings, hsa, hsb, hsc, hsd, bind, Except.bind, pure, Except.pure]

/-- Behind the four header fields the tag `e` is required. -/
theorem commands_tag_e (info : Bool) (b : Bitstream) (cur : Nat)
    (hmax : b.bit_eof < BITSTREAM_MAX) (h5 : cur + 5 ≤ b.bit_eof) (hne : byte b cur ≠ 0x65) :
    commands info b cur = .error (.string_code_e (byte b cur)) := by
  have hM : BITSTREAM_MAX = 122880000 := by decide
  have e5 : u32 (cur + 5) = cur + 5 := u32_of_lt (by omega)
  have h1 : ¬ (cur + 5 > b.bit_eof) := by omega
  have hneb : ¬ (b.bit_data cur % 256 = 101) := hne
  simp [commands, e5, h1, rd8_of_lt (show cur < b.bit_eof by omega), hneb, bind, Except.bind,
    throw, throwThe, MonadExceptOf.throw, pure, Except.pure, byte]

/-! ## The container parser -/

/-- A header field for which none of the failure conditions holds is accepted when the
string printed for it ends at a NUL byte `z` of the file. -/
theorem header_string_ok (b : Bitstream) (cur i n z : Nat)
    (hmax : b.bit_eof < BITSTREAM_MAX) (hf : FieldOk b cur i n)
    (hz : cur + 3 ≤ z) (hzlt : z < b.bit_eof) (hz0 : byte b z = 0) :
    ∃ s, header_string b cur i = .ok (cur + (3 + n), Msg.header_str i s) := by
  have hM : BITSTREAM_MAX = 122880000 := by decide
  obtain ⟨hfit, htag, hlen, hterm⟩ := hf
  have h1 : ¬ (b.bit_eof < cur + 3) := by omega
  have h2n : ¬ (b.bit_eof < cur + 3 + n) := by omega
  have e3 : u32 (cur + 3) = cur + 3 := u32_of_lt (by omega)
  have e1 : u32 (cur + 1) = cur + 1 := u32_of_lt (by omega)
  have e4 : u32 (cur + 3 + n) = cur + 3 + n := u32_of_lt (by omega)
  have en : cur + 3 + n - 1 = cur + 2 + n := by omega
  have e5 : u32 (cur + 2 + n) = cur + 2 + n := u32_of_lt (by omega)
  have htagb : b.bit_data cur % 256 = i := htag
  have hl : be16 b (cur + 1) = .ok n := by
    rw [be16_val b (cur + 1) (by omega), ← hlen]
  have hzb : b.bit_data (cur + 2 + n) % 256 = 0 := en ▸ hterm
  obtain ⟨s, hs, _⟩ := cstr_ok b (b.bit_eof - (cur + 3)) (cur + 3) z hz hzlt hz0 (by omega)
  refine ⟨s, ?_⟩
  rw [← Nat.add_assoc]
  simp [header_string, e1, e3, e4, e5, h1, h2n, rd8_of_lt (show cur < b.bit_eof by omega),
    rd8_of_lt (show cur + 2 + n < b.bit_eof by omega), htagb, hl, hzb, hs, bind,
    Except.bind, throw, throwThe, MonadExceptOf.throw, pure, Except.pure]

/-- Accepted header fields are passed one after the other. -/
theorem header_strings_prefix (b : Bitstream) (hmax : b.bit_eof < BITSTREAM_MAX) (m : Nat) :
    ∀ ns cur tag, FieldsOk b cur tag ns →
      ∃ msgs : List Msg, msgs.length = ns.length ∧
        header_strings b (ns.length + m) cur tag =
          (header_strings b m (fields_end cur ns) (tag + ns.length)).map
            (fun r => (r.1, msgs ++ r.2)) := by
  intro ns
  induction ns with
  | nil =>
    intro cur tag _
    refine ⟨[], rfl, ?_⟩
    simp only [List.length_nil, Nat.zero_add, fields_end, List.map_nil, List.sum_nil,
      Nat.add_zero, List.nil_append]
    cases header_strings b m cur tag <;> rfl
  | cons n ns ih =>
    intro cur tag h
    obtain ⟨hf, hz, hrest⟩ := h
    obtain ⟨msgs, hl, hm⟩ := ih (cur + (3 + n)) (tag + 1) hrest
    obtain ⟨s, hs⟩ : ∃ s, header_string b cur tag =
        .ok (cur + (3 + n), Msg.header_str tag s) := by
      by_cases hn : n = 0
      · obtain ⟨z, h1, h2, h3⟩ := hz hn
        exact header_string_ok b cur tag n z hmax hf h2 h1 h3
      · obtain ⟨hfit, _, _, hterm⟩ := hf
        exact header_string_ok b cur tag n (cur + 3 + n - 1) hmax ⟨hfit, ‹_›, ‹_›, hterm⟩
          (by omega) (by omega) hterm
    refine ⟨Msg.header_str tag s :: msgs, by simp [hl], ?_⟩
    have e1 : (n :: ns).length + m = (ns.length + m) + 1 := by simp; omega
    have e2 : fields_end cur (n :: ns) = fields_end (cur + (3 + n)) ns := by
      simp [fields_end, Nat.add_assoc]
    have e3 : tag + (n :: ns).length = tag + 1 + ns.length := by simp; omega
    rw [e1, e2, e3]
    conv_lhs => unfold header_strings
    rw [hs]
    simp only [bind, Except.bind]
    rw [hm]
    cases header_strings b m (fields_end (cur + (3 + n)) ns) (tag + 1 + ns.length) <;> rfl

/-- Accepted header fields lie in the file. -/
theorem fields_end_le (b : Bitstream) :
    ∀ cur tag ns, FieldsOk b cur tag ns → cur ≤ b.bit_eof → fields_end cur ns ≤ b.bit_eof := by
  intro cur tag ns
  induction ns generalizing cur tag with
  | nil => intro _ h; simpa [fields_end] using h
  | cons n ns ih =>
    intro h hc
    obtain ⟨hf, _, hrest⟩ := h
    have := ih (cur + (3 + n)) (tag + 1) hrest (by have := hf.1; omega)
    simpa [fields_end, Nat.add_assoc] using this

/-- A failure of the first of the fields that are left is the failure of the loop. -/
theorem header_strings_error (b : Bitstream) (m cur tag : Nat) (e : Err)
    (h : header_string b cur tag = .error e) :
    header_strings b (m + 1) cur tag = .error e := by
  unfold header_strings
  rw [h]
  rfl

/-- The decoder up to the end of the header fields. -/
theorem main_header (info : Bool) (b : Bitstream) (hmax : b.bit_eof < BITSTREAM_MAX)
    (h13 : 13 ≤ b.bit_eof) :
    (∀ e, header_strings b 4 13 0x61 = .error e → main info b = .error e) ∧
    (∀ cur hs e, header_strings b 4 13 0x61 = .ok (cur, hs) →
      commands info b cur = .error e → main info b = .error e) := by
  have hM : BITSTREAM_MAX = 122880000 := by decide
  have r := rd_bytes_eq b 0 13 0 (by omega) (by omega)
  have h1 : ¬ (b.bit_eof ≥ BITSTREAM_MAX) := by omega
  have h2 : ¬ (b.bit_eof < 13) := by omega
  have ea : 'a'.toNat = 0x61 := by decide
  constructor
  · intro e he
    unfold main
    rw [ea, he, r]
    simp [h1, h2, bind, Except.bind, pure, Except.pure]
  · intro cur hs e he hc
    unfold main
    rw [ea, he, r]
    simp [h1, h2, hc, bind, Except.bind, pure, Except.pure]

/-- The loop of source lines 366-369 from `p` on, where `q` is the index of the first byte
`0xAA` at or behind `p`, or the end of the file when there is none. -/
theorem skip_to_sync_eq (b : Bitstream) (hmax : b.bit_eof < BITSTREAM_MAX) :
    ∀ fuel p q, p ≤ q → q ≤ b.bit_eof → p < b.bit_eof →
      (∀ t, p ≤ t → t < q → byte b t ≠ 0xAA) → (q < b.bit_eof → byte b q = 0xAA) →
      q - p < fuel →
      skip_to_sync b fuel p =
        if q < b.bit_eof then .ok (q, bytes b (q - p) p) else .error .unexpected_eof := by
  have hM : BITSTREAM_MAX = 122880000 := by decide
  intro fuel
  induction fuel with
  | zero => intro p q _ _ _ _ _ hf; omega
  | succ n ih =>
    intro p q hpq hqe hp hno haa hf
    have e1 : u32 (p + 1) = p + 1 := u32_of_lt (by omega)
    by_cases hpq2 : p = q
    · subst hpq2
      have hx : b.bit_data p % 256 = 0xAA := haa hp
      simp [skip_to_sync, hp, rd8_of_lt hp, hx, bind, Except.bind, pure, Except.pure, bytes]
    · have hx : ¬ (b.bit_data p % 256 = 0xAA) := hno p (Nat.le_refl _) (by omega)
      by_cases hend : p + 1 ≥ b.bit_eof
      · have hq : ¬ (q < b.bit_eof) := by omega
        simp [skip_to_sync, hp, rd8_of_lt hp, hx, e1, hend, hq, bind, Except.bind, pure,
          Except.pure, throw, throwThe, MonadExceptOf.throw]
      · have := ih (p + 1) q (by omega) hqe (by omega)
          (fun t h1 h2 => hno t (by omega) h2) haa (by omega)
        have hb : bytes b (q - p) p = byte b p :: bytes b (q - (p + 1)) (p + 1) := by
          have e : q - p = (q - (p + 1)) + 1 := by omega
          rw [e]
          rfl
        by_cases hqlt : q < b.bit_eof
        · rw [if_pos hqlt] at this
          simp [skip_to_sync, hp, rd8_of_lt hp, hx, e1, hend, this, hb, hqlt, bind,
            Except.bind, pure, Except.pure, throw, throwThe, MonadExceptOf.throw, byte]
        · rw [if_neg hqlt] at this
          simp [skip_to_sync, hp, rd8_of_lt hp, hx, e1, hend, this, hqlt, bind,
            Except.bind, pure, Except.pure, throw, throwThe, MonadExceptOf.throw]

/-- C18: behind an accepted command block header (tag `e`, a length whose end is not behind
the end of the file) the bytes from the end of the 5-byte header up to the first byte
`0xAA`, at index `q`, are printed as one `hex` line (no line when there is none); the run
ends with unexpected EOF when there is no byte `0xAA` (`q` is the end of the file) or
fewer than 4 bytes are left at `q`; otherwise the 4 bytes at `q` are read big-endian, and
the result is `sync_word` with the cursor at `q + 4` when they are `AA 99 55 66` and the
sync-word error with the value read when they are not. -/
theorem sync_word_scan (info : Bool) (b : Bitstream) (cur len q : Nat)
    (hmax : b.bit_eof < BITSTREAM_MAX) (h5 : cur + 5 ≤ b.bit_eof) (htag : byte b cur = 0x65)
    (hlen : be32 b (cur + 1) = .ok len) (hfit : u32 (cur + 5 + len) ≤ b.bit_eof)
    (hq : cur + 5 ≤ q) (hqe : q ≤ b.bit_eof)
    (hno : ∀ t, cur + 5 ≤ t → t < q → byte b t ≠ 0xAA)
    (haa : q < b.bit_eof → byte b q = 0xAA) :
    commands info b cur =
      if b.bit_eof < q + 4 then .error .unexpected_eof
      else if byte b (q + 1) = 0x99 ∧ byte b (q + 2) = 0x55 ∧ byte b (q + 3) = 0x66 then
        .ok (q + 4,
          (if u32 (cur + 5 + len) < b.bit_eof
            then [Msg.W_continuation (u32 (cur + 5 + 5 + len))] else [])
          ++ (if q = cur + 5 then [] else [Msg.hex (bytes b (q - (cur + 5)) (cur + 5))])
          ++ (if info then [Msg.I_sync_word q] else []) ++ [Msg.sync_word])
      else .error (.sync_word (byte b q * 16777216 + byte b (q + 1) * 65536
        + byte b (q + 2) * 256 + byte b (q + 3))) := by
  have hM : BITSTREAM_MAX = 122880000 := by decide
  have e5 : u32 (cur + 5) = cur + 5 := u32_of_lt (by omega)
  have e1 : u32 (cur + 1) = cur + 1 := u32_of_lt (by omega)
  have h1 : ¬ (cur + 5 > b.bit_eof) := by omega
  have htagb : b.bit_data cur % 256 = 101 := htag
  have hfit2 : ¬ (u32 (cur + 5 + len) > b.bit_eof) := by omega
  by_cases hp : cur + 5 ≥ b.bit_eof
  · have hq2 : b.bit_eof < q + 4 := by omega
    simp [commands, e5, e1, h1, rd8_of_lt (show cur < b.bit_eof by omega), htagb, hlen, hfit2,
      hp, hq2, bind, Except.bind, throw, throwThe, MonadExceptOf.throw, pure, Except.pure]
  · have hp2 : cur + 5 < b.bit_eof := by omega
    have hskip := skip_to_sync_eq b hmax (b.bit_eof - (cur + 5) + 1) (cur + 5) q hq hqe hp2 hno
      haa (by omega)
    have e4 : u32 (q + 4) = q + 4 := u32_of_lt (by omega)
    have hp3 : ¬ (b.bit_eof ≤ cur + 5) := by omega
    by_cases hqlt : q < b.bit_eof
    · have haa2 : b.bit_data q % 256 = 170 := haa hqlt
      rw [if_pos hqlt] at hskip
      by_cases hshort : b.bit_eof < q + 4
      · by_cases hq0 : q = cur + 5
        · subst hq0
          simp [commands, e5, e1, e4, h1, rd8_of_lt (show cur < b.bit_eof by omega), htagb,
            hlen, hfit2, hp3, rd8_of_lt hp2, haa2, hshort, bind, Except.bind, throw, throwThe,
            MonadExceptOf.throw, pure, Except.pure]
        · have hx : ¬ (b.bit_data (cur + 5) % 256 = 170) :=
            hno (cur + 5) (Nat.le_refl _) (by omega)
          simp [commands, e5, e1, e4, h1, rd8_of_lt (show cur < b.bit_eof by omega), htagb,
            hlen, hfit2, hp3, rd8_of_lt hp2, hx, hskip, hshort, bind, Except.bind, throw,
            throwThe, MonadExceptOf.throw, pure, Except.pure]
      · have hv := be32_eq b q (by omega)
        have hb1 : byte b (q + 1) < 256 := Nat.mod_lt _ (by decide)
        have hb2 : byte b (q + 2) < 256 := Nat.mod_lt _ (by decide)
        have hb3 : byte b (q + 3) < 256 := Nat.mod_lt _ (by decide)
        have hbq : byte b q = 170 := haa hqlt
        have hiff : (byte b q * 16777216 + byte b (q + 1) * 65536 + byte b (q + 2) * 256
            + byte b (q + 3) = 0xAA995566) ↔
            (byte b (q + 1) = 0x99 ∧ byte b (q + 2) = 0x55 ∧ byte b (q + 3) = 0x66) := by
          rw [hbq]
          constructor
          · intro h; omega
          · rintro ⟨h1, h2, h3⟩; omega
        have hshort2 : ¬ (b.bit_eof < q + 4) := hshort
        rw [if_neg hshort]
        by_cases hm : byte b (q + 1) = 0x99 ∧ byte b (q + 2) = 0x55 ∧ byte b (q + 3) = 0x66
        · have hveq := hiff.mpr hm
          rw [if_pos hm]
          rw [hveq] at hv
          by_cases hq0 : q = cur + 5
          · subst hq0
            simp [commands, e5, e1, e4, h1, rd8_of_lt (show cur < b.bit_eof by omega), htagb,
              hlen, hfit2, hp3, rd8_of_lt hp2, haa2, hshort2, hv, bind, Except.bind, throw,
              throwThe, MonadExceptOf.throw, pure, Except.pure]
          · have hx : ¬ (b.bit_data (cur + 5) % 256 = 170) :=
              hno (cur + 5) (Nat.le_refl _) (by omega)
            simp [commands, e5, e1, e4, h1, rd8_of_lt (show cur < b.bit_eof by omega), htagb,
              hlen, hfit2, hp3, rd8_of_lt hp2, hx, hskip, hshort2, hv, hq0, bind, Except.bind,
              throw, throwThe, MonadExceptOf.throw, pure, Except.pure]
        · have hvne : ¬ (byte b q * 16777216 + byte b (q + 1) * 65536 + byte b (q + 2) * 256
              + byte b (q + 3) = 0xAA995566) := fun h => hm (hiff.mp h)
          rw [if_neg hm]
          by_cases hq0 : q = cur + 5
          · subst hq0
            simp [commands, e5, e1, e4, h1, rd8_of_lt (show cur < b.bit_eof by omega), htagb,
              hlen, hfit2, hp3, rd8_of_lt hp2, haa2, hshort2, hv, hvne, bind, Except.bind,
              throw, throwThe, MonadExceptOf.throw, pure, Except.pure]
          · have hx : ¬ (b.bit_data (cur + 5) % 256 = 170) :=
              hno (cur + 5) (Nat.le_refl _) (by omega)
            simp [commands, e5, e1, e4, h1, rd8_of_lt (show cur < b.bit_eof by omega), htagb,
              hlen, hfit2, hp3, rd8_of_lt hp2, hx, hskip, hshort2, hv, hvne, bind,
              Except.bind, throw, throwThe, MonadExceptOf.throw, pure, Except.pure]
    · have hqeq : q = b.bit_eof := by omega
      rw [if_neg hqlt] at hskip
      have hx : ¬ (b.bit_data (cur + 5) % 256 = 170) :=
        hno (cur + 5) (Nat.le_refl _) (by omega)
      have hshort : b.bit_eof < q + 4 := by omega
      simp [commands, e5, e1, h1, rd8_of_lt (show cur < b.bit_eof by omega), htagb,
        hlen, hfit2, hp3, rd8_of_lt hp2, hx, hskip, hshort, bind, Except.bind, throw,
        throwThe, MonadExceptOf.throw, pure, Except.pure]

theorem sync_word_scan_witness :
    commands false (Bitstream.ofBytes [0x65, 0, 0, 0, 7, 1, 2, 3, 0xAA, 0x99, 0x55, 0x66]) 0 =
      .ok (12, [Msg.hex [1, 2, 3], Msg.sync_word]) ∧
    commands false (Bitstream.ofBytes [0x65, 0, 0, 0, 7, 1, 2, 3, 0xAA, 0x99, 0x55, 0x67]) 0 =
      .error (.sync_word 0xAA995567) ∧
    commands false (Bitstream.ofBytes [0x65, 0, 0, 0, 7, 1, 2, 3, 0xAB, 0x99, 0x55, 0x66]) 0 =
      .error .unexpected_eof :=
  ⟨(sync_word_scan false
      (Bitstream.ofBytes [0x65, 0, 0, 0, 7, 1, 2, 3, 0xAA, 0x99, 0x55, 0x66]) 0 7 8
      (by decide) (by decide) (by decide) (by decide) (by decide) (by decide) (by decide)
      (by intro t h1 h2; interval_cases t <;> decide) (by decide)).trans (by decide),
    (sync_word_scan false
      (Bitstream.ofBytes [0x65, 0, 0, 0, 7, 1, 2, 3, 0xAA, 0x99, 0x55, 0x67]) 0 7 8
      (by decide) (by decide) (by decide) (by decide) (by decide) (by decide) (by decide)
      (by intro t h1 h2; interval_cases t <;> decide) (by decide)).trans (by decide),
    (sync_word_scan false
      (Bitstream.ofBytes [0x65, 0, 0, 0, 7, 1, 2, 3, 0xAB, 0x99, 0x55, 0x66]) 0 7 12
      (by decide) (by decide) (by decide) (by decide) (by decide) (by decide) (by decide)
      (by intro t h1 h2; interval_cases t <;> decide) (by decide)).trans (by decide)⟩

/-! ## The bits of the INITP and INIT strings -/

theorem testBit_mask (x n : Nat) : decide (x &&& (1 <<< n) ≠ 0) = x.testBit n := by
  have h := and_mask_ne_zero x n 1
  simp only [show (2 ^ 1 - 1 : Nat) = 1 from rfl, Nat.pow_one] at h
  rw [Nat.testBit_to_div_mod]
  have h2 : x / 2 ^ n % 2 < 2 := Nat.mod_lt _ (by decide)
  by_cases hc : x / 2 ^ n % 2 = 1
  · have : x &&& 1 <<< n ≠ 0 := h.mpr (by omega)
    simp [hc, this]
  · have : ¬ (x &&& 1 <<< n ≠ 0) := fun hh => hc (by have := h.mp hh; omega)
    simp [hc, this]

theorem src_bit_eq (b : Bitstream) (bit_cur i off : Nat) (hmax : b.bit_eof < BITSTREAM_MAX)
    (h : bit_cur + i * 130 + 18 + off / 8 < b.bit_eof) :
    src_bit b bit_cur i off = .ok (region_bit b (bit_cur + i * 130) off) := by
  have hM : BITSTREAM_MAX = 122880000 := by decide
  have e : u32 (bit_cur + i * 130 + 18 + off / 8) = bit_cur + i * 130 + 18 + off / 8 :=
    u32_of_lt (by omega)
  simp only [src_bit, e, rd8_of_lt h, bind, Except.bind, pure, Except.pure, region_bit, byte,
    testBit_mask]

theorem bit_off_parity (j k l : Nat) (hj : j < 32) (hk : k < 32) (hl : l < 8) :
    bit_off true j k l = j * 2304 + (31 - k) * 72 + 1 + (l / 2) * 18 - (l % 2) := by
  have e : l &&& 1 = l % 2 := Nat.and_one_is_mod l
  simp only [bit_off, e, if_true]
  have h1 : u32 (j * (2048 + 256) + (31 - k) * 4 * 18) = j * (2048 + 256) + (31 - k) * 4 * 18 :=
    u32_of_lt (by omega)
  rw [h1, u32_of_lt (by omega)]
  omega

theorem bit_off_data (j k l : Nat) (hj : j < 32) (hk : k < 32) (hl : l < 8) :
    bit_off false j k l =
      j * 2304 + ((31 - k) / 2) * 18 + (8 - ((31 - k) % 2) * 8) + 2 + l := by
  have e : (31 - k) &&& 1 = (31 - k) % 2 := Nat.and_one_is_mod _
  simp only [bit_off, e, Bool.false_eq_true, if_false]
  rw [u32_of_lt (by omega)]

theorem bit_off_lt (parity : Bool) (j k l : Nat) (hj : j < 32) (hk : k < 32) (hl : l < 8) :
    bit_off parity j k l < (j + 1) * 2304 := by
  cases parity
  · rw [bit_off_data j k l hj hk hl]; omega
  · rw [bit_off_parity j k l hj hk hl]; omega

/-- The loop over `l` for a parity byte: bit `l` of the byte is the source bit `s l`. -/
theorem init_byte_parity (b : Bitstream) (bit_cur i j k : Nat) (s : Nat → Bool)
    (hs : ∀ l, l < 8 → src_bit b bit_cur i (bit_off true j k l) = .ok (s l)) :
    ∀ n l acc, l + n = 8 → (∀ p, acc.testBit p = (decide (p < l) && s p)) →
      ∃ x, init_byte b bit_cur i true j k n l acc = .ok x ∧
        ∀ p, x.testBit p = (decide (p < 8) && s p) := by
  intro n
  induction n with
  | zero =>
    intro l acc hl hacc
    have e : l = 8 := by omega
    subst e
    exact ⟨acc, rfl, hacc⟩
  | succ n ih =>
    intro l acc hl hacc
    have hll : l < 8 := by omega
    obtain ⟨x, hx, hxp⟩ := ih (l + 1) (if s l then acc ||| 1 <<< l else acc) (by omega) (by
      intro p
      by_cases hsl : s l = true
      · simp only [hsl, if_true, Nat.testBit_or, hacc, Nat.one_shiftLeft, Nat.testBit_two_pow]
        by_cases h1 : p < l
        · simp [h1, show p < l + 1 by omega, show l ≠ p by omega]
        · by_cases h2 : l = p
          · subst h2; simp [hsl]
          · simp [h1, h2, show ¬ (p < l + 1) by omega]
      · have hsl2 : s l = false := by simpa using hsl
        simp only [hsl2, Bool.false_eq_true, if_false, hacc]
        by_cases h1 : p < l
        · simp [h1, show p < l + 1 by omega]
        · by_cases h2 : l = p
          · subst h2; simp [hsl2]
          · simp [h1, show ¬ (p < l + 1) by omega])
    refine ⟨x, ?_, hxp⟩
    simp only [init_byte, hs l hll, bind, Except.bind, if_true]
    exact hx

/-- The loop over `l` for a data byte: bit `7 - l` of the byte is the source bit `s l`. -/
theorem init_byte_data (b : Bitstream) (bit_cur i j k : Nat) (s : Nat → Bool)
    (hs : ∀ l, l < 8 → src_bit b bit_cur i (bit_off false j k l) = .ok (s l)) :
    ∀ n l acc, l + n = 8 →
      (∀ p, acc.testBit p = (decide (8 ≤ p + l ∧ p < 8) && s (7 - p))) →
      ∃ x, init_byte b bit_cur i false j k n l acc = .ok x ∧
        ∀ p, x.testBit p = (decide (p < 8) && s (7 - p)) := by
  intro n
  induction n with
  | zero =>
    intro l acc hl hacc
    have e : l = 8 := by omega
    subst e
    refine ⟨acc, rfl, ?_⟩
    intro p
    rw [hacc p]
    by_cases h : p < 8 <;> simp [h]
  | succ n ih =>
    intro l acc hl hacc
    have hll : l < 8 := by omega
    obtain ⟨x, hx, hxp⟩ := ih (l + 1) (if s l then acc ||| 1 <<< (7 - l) else acc)
      (by omega) (by
      intro p
      by_cases hsl : s l = true
      · simp only [hsl, if_true, Nat.testBit_or, hacc, Nat.one_shiftLeft, Nat.testBit_two_pow]
        by_cases h1 : 8 ≤ p + l ∧ p < 8
        · simp [h1, show 8 ≤ p + (l + 1) by omega, show 7 - l ≠ p by omega]
        · by_cases h2 : 7 - l = p
          · have e : 7 - p = l := by omega
            simp [h1, h2, e, hsl, show 8 ≤ p + (l + 1) by omega, show p < 8 by omega]
          · simp [h1, h2, show ¬ (8 ≤ p + (l + 1) ∧ p < 8) by omega]
      · have hsl2 : s l = false := by simpa using hsl
        simp only [hsl2, Bool.false_eq_true, if_false, hacc]
        by_cases h1 : 8 ≤ p + l ∧ p < 8
        · simp [h1, show 8 ≤ p + (l + 1) by omega]
        · by_cases h2 : 7 - l = p
          · have e : 7 - p = l := by omega
            simp [h1, e, hsl2]
          · simp [h1, show ¬ (8 ≤ p + (l + 1) ∧ p < 8) by omega])
    refine ⟨x, ?_, hxp⟩
    simp only [init_byte, hs l hll, bind, Except.bind, Bool.false_eq_true, if_false]
    exact hx

/-- The loop over `k`: the string is the concatenation of the two hex digits of each of
the 32 bytes, in the order `k = 0..31`. -/
theorem init_str_loop (b : Bitstream) (bit_cur i : Nat) (parity : Bool) (j : Nat)
    (P : Nat → Nat → Prop)
    (h : ∀ k, k < 32 → ∃ x, init_byte b bit_cur i parity j k 8 0 0 = .ok x ∧ P k x) :
    ∀ n k, k + n = 32 → ∃ xs : List Nat, xs.length = n ∧
      init_str b bit_cur i parity j n k = .ok ((xs.map hex2).flatten) ∧
      ∀ t, t < n → P (k + t) (xs.getD t 0) := by
  intro n
  induction n with
  | zero => intro k _; exact ⟨[], rfl, rfl, fun t ht => by omega⟩
  | succ n ih =>
    intro k hk
    obtain ⟨x, hx, hp⟩ := h k (by omega)
    obtain ⟨xs, hl, hs, hxs⟩ := ih (k + 1) (by omega)
    refine ⟨x :: xs, by simp [hl], ?_, ?_⟩
    · simp [init_str, hx, hs, bind, Except.bind, pure, Except.pure]
    · intro t ht
      cases t with
      | zero => simpa using hp
      | succ t =>
        have := hxs t (by omega)
        simpa [Nat.add_assoc, Nat.add_comm 1 t] using this

/-- C19: in a block-RAM region that starts at frame `i` of a payload at `bit_cur`, string
`j` is the 64 hex digits of 32 bytes, byte `k = 0..31` in this order. Bit `l` of byte `k`
of parity string `j` is the source bit at offset
`j*2304 + (31-k)*72 + 1 + (l/2)*18 - (l&1)`, and bit `7-l` of byte `k` of data string `j`
is the source bit at offset `j*2304 + ((31-k)/2)*18 + (8 - ((31-k)&1)*8) + 2 + l`, where
the offsets count bits MSB-first from byte 18 of the region. The bytes up to offset
`(j+1)*2304` are taken to be in the file. -/
theorem init_string_bits (b : Bitstream) (bit_cur i j : Nat) (parity : Bool)
    (hmax : b.bit_eof < BITSTREAM_MAX) (hj : j < 32)
    (hin : bit_cur + i * 130 + 18 + (j + 1) * 288 ≤ b.bit_eof) :
    ∃ xs : List Nat, xs.length = 32 ∧
      init_str b bit_cur i parity j 32 0 = .ok ((xs.map hex2).flatten) ∧
      ∀ k, k < 32 → xs.getD k 0 < 256 ∧ ∀ l, l < 8 →
        (parity = true → (xs.getD k 0).testBit l = region_bit b (bit_cur + i * 130)
          (j * 2304 + (31 - k) * 72 + 1 + (l / 2) * 18 - (l % 2))) ∧
        (parity = false → (xs.getD k 0).testBit (7 - l) = region_bit b (bit_cur + i * 130)
          (j * 2304 + ((31 - k) / 2) * 18 + (8 - ((31 - k) % 2) * 8) + 2 + l)) := by
  have hsrc : ∀ k, k < 32 → ∀ l, l < 8 → src_bit b bit_cur i (bit_off parity j k l) =
      .ok (region_bit b (bit_cur + i * 130) (bit_off parity j k l)) := by
    intro k hk l hl
    have := bit_off_lt parity j k l hj hk hl
    exact src_bit_eq b bit_cur i _ hmax (by omega)
  have hbyte : ∀ k, k < 32 → ∃ x, init_byte b bit_cur i parity j k 8 0 0 = .ok x ∧
      (x < 256 ∧ ∀ l, l < 8 →
        (parity = true → x.testBit l = region_bit b (bit_cur + i * 130)
          (j * 2304 + (31 - k) * 72 + 1 + (l / 2) * 18 - (l % 2))) ∧
        (parity = false → x.testBit (7 - l) = region_bit b (bit_cur + i * 130)
          (j * 2304 + ((31 - k) / 2) * 18 + (8 - ((31 - k) % 2) * 8) + 2 + l))) := by
    intro k hk
    cases parity
    · obtain ⟨x, hx, hxp⟩ := init_byte_data b bit_cur i j k
        (fun l => region_bit b (bit_cur + i * 130) (bit_off false j k l)) (hsrc k hk) 8 0 0
        (by omega) (by intro p; simp)
      refine ⟨x, hx, ?_, ?_⟩
      · apply @Nat.lt_pow_two_of_testBit 8 x
        intro p hp
        rw [hxp p]
        simp [show ¬ (p < 8) by omega]
      · intro l hl
        refine ⟨fun h => (by cases h), fun _ => ?_⟩
        rw [hxp (7 - l)]
        have e : 7 - (7 - l) = l := by omega
        simp only [show 7 - l < 8 by omega, decide_True, Bool.true_and, e]
        rw [bit_off_data j k l hj hk hl]
    · obtain ⟨x, hx, hxp⟩ := init_byte_parity b bit_cur i j k
        (fun l => region_bit b (bit_cur + i * 130) (bit_off true j k l)) (hsrc k hk) 8 0 0
        (by omega) (by intro p; simp)
      refine ⟨x, hx, ?_, ?_⟩
      · apply @Nat.lt_pow_two_of_testBit 8 x
        intro p hp
        rw [hxp p]
        simp [show ¬ (p < 8) by omega]
      · intro l hl
        refine ⟨fun _ => ?_, fun h => (by cases h)⟩
        rw [hxp l]
        simp only [hl, decide_True, Bool.true_and]
        rw [bit_off_parity j k l hj hk hl]
  obtain ⟨xs, hl, hs, hxs⟩ := init_str_loop b bit_cur i parity j _ hbyte 32 0 (by omega)
  refine ⟨xs, hl, hs, ?_⟩
  intro k hk
  have := hxs k hk
  simpa using this

set_option maxRecDepth 1000000 in
theorem init_string_bits_witness :
    region_bit region_one_bit 0 (0 * 2304 + (31 - 31) * 72 + 1 + (0 / 2) * 18 - (0 % 2)) = true ∧
    init_str region_one_bit 0 0 true 0 32 0 = .ok (List.replicate 62 '0' ++ ['0', '1']) ∧
    (∃ xs : List Nat, xs.length = 32 ∧
      init_str region_one_bit 0 0 true 0 32 0 = .ok ((xs.map hex2).flatten) ∧
      ∀ k, k < 32 → xs.getD k 0 < 256 ∧ ∀ l, l < 8 →
        (true = true → (xs.getD k 0).testBit l = region_bit region_one_bit (0 + 0 * 130)
          (0 * 2304 + (31 - k) * 72 + 1 + (l / 2) * 18 - (l % 2))) ∧
        (true = false → (xs.getD k 0).testBit (7 - l) = region_bit region_one_bit (0 + 0 * 130)
          (0 * 2304 + ((31 - k) / 2) * 18 + (8 - ((31 - k) % 2) * 8) + 2 + l))) :=
  ⟨by decide, by decide,
    init_string_bits region_one_bit 0 0 0 true (by decide) (by decide) (by decide)⟩

/-! ## The block-RAM regions in the second frame loop -/

theorem ram_starts_apart :
    ∀ j2, j2 < 12 → ∀ j1, j1 < j2 → ram_starts.getD j1 0 + 18 ≤ ram_starts.getD j2 0 := by
  decide

theorem ram_starts_ne (j1 j2 : Nat) (h1 : j1 < 12) (h2 : j2 < 12)
    (h : ram_starts.getD j1 0 < ram_starts.getD j2 0 + 18)
    (h' : ram_starts.getD j2 0 < ram_starts.getD j1 0 + 18) : j1 = j2 := by
  rcases Nat.lt_trichotomy j1 j2 with hlt | heq | hgt
  · have := ram_starts_apart j2 h2 j1 hlt; omega
  · exact heq
  · have := ram_starts_apart j1 h1 j2 hgt; omega

theorem ram_match_from_some (i num_frames : Nat) :
    ∀ l j0 j, ram_match_from i num_frames l j0 = some j →
      ∃ t, t < l.length ∧ j = j0 + t ∧ i = 2020 + l.getD t 0 ∧ num_frames ≥ i + 18 := by
  intro l
  induction l with
  | nil => intro j0 j h; cases h
  | cons s rest ih =>
    intro j0 j h
    unfold ram_match_from at h
    split at h
    · rename_i hc
      injection h with h
      exact ⟨0, by simp, by omega, by simpa using hc.1, hc.2⟩
    · obtain ⟨t, ht, hj, hi, hn⟩ := ih (j0 + 1) j h
      exact ⟨t + 1, by simp; omega, by omega, by simpa using hi, hn⟩

theorem ram_match_from_first (i num_frames : Nat) (hn : num_frames ≥ i + 18) :
    ∀ l j0 t, t < l.length → i = 2020 + l.getD t 0 →
      (∀ u, u < t → l.getD u 0 ≠ l.getD t 0) →
      ram_match_from i num_frames l j0 = some (j0 + t) := by
  intro l
  induction l with
  | nil => intro j0 t ht; simp at ht
  | cons s rest ih =>
    intro j0 t ht hi hd
    unfold ram_match_from
    cases t with
    | zero =>
      have : i = 2020 + s := by simpa using hi
      simp [this, hn]
      omega
    | succ t =>
      have hne : ¬ (i = 2020 + s ∧ num_frames ≥ i + 18) := by
        rintro ⟨h1, _⟩
        have := hd 0 (by omega)
        simp only [List.getD_cons_zero, List.getD_cons_succ] at this hi
        omega
      rw [if_neg hne]
      have := ih (j0 + 1) t (by simpa using ht) (by simpa using hi) (by
        intro u hu
        have := hd (u + 1) (by omega)
        simpa using this)
      rw [this]
      congr 1
      omega

theorem ram_match_some (i num_frames j : Nat) :
    ram_match i num_frames = some j ↔
      (j < 12 ∧ i = 2020 + ram_starts.getD j 0 ∧ num_frames ≥ i + 18) := by
  constructor
  · intro h
    obtain ⟨t, ht, hj, hi, hn⟩ := ram_match_from_some i num_frames ram_starts 0 j h
    have hl : ram_starts.length = 12 := rfl
    have e : j = t := by omega
    subst e
    exact ⟨by omega, hi, hn⟩
  · rintro ⟨hj, hi, hn⟩
    have hd : ∀ t, t < 12 → ∀ u, u < t → ram_starts.getD u 0 ≠ ram_starts.getD t 0 := by
      decide
    have := ram_match_from_first i num_frames hn ram_starts 0 j hj hi (hd j hj)
    simpa [ram_match] using this

theorem ram_match_isSome (i num_frames : Nat) :
    (ram_match i num_frames).isSome = true ↔
      ∃ j, j < 12 ∧ i = 2020 + ram_starts.getD j 0 ∧ num_frames ≥ i + 18 := by
  rw [Option.isSome_iff_exists]
  constructor
  · rintro ⟨j, h⟩
    exact ⟨j, (ram_match_some i num_frames j).mp h⟩
  · rintro ⟨j, h⟩
    exact ⟨j, (ram_match_some i num_frames j).mpr h⟩

/-- The index behind a region start is not inside a decoded region. -/
theorem not_interior_start (num_frames j : Nat) (hj : j < 12) :
    ¬ region_interior num_frames (2020 + ram_starts.getD j 0) := by
  rintro ⟨j2, hj2, _, h2, h3⟩
  have := ram_starts_ne j j2 hj hj2 (by omega) (by omega)
  subst this
  omega

/-- The loop indices from `i` on are the indices below `num_frames` that do not lie inside
a decoded region. -/
theorem mem_hi_indices (num_frames : Nat) :
    ∀ fuel i, ¬ region_interior num_frames i → num_frames - i ≤ fuel →
      ∀ x, x ∈ hi_indices num_frames fuel i ↔
        (i ≤ x ∧ x < num_frames ∧ ¬ region_interior num_frames x) := by
  intro fuel
  induction fuel with
  | zero =>
    intro i _ hf x
    simp only [hi_indices, List.not_mem_nil, false_iff]
    omega
  | succ fuel ih =>
    intro i hni hf x
    unfold hi_indices
    by_cases hlt : i < num_frames
    swap
    · simp only [if_neg hlt, List.not_mem_nil, false_iff]
      omega
    rw [if_pos hlt]
    by_cases hm : (ram_match i num_frames).isSome = true
    · obtain ⟨j, hj, hi, hn⟩ := (ram_match_isSome i num_frames).mp hm
      have hnext : ¬ region_interior num_frames (i + 18) := by
        rintro ⟨j2, hj2, _, h2, h3⟩
        have := ram_starts_ne j j2 hj hj2 (by omega) (by omega)
        subst this
        omega
      rw [if_pos hm, List.mem_cons, ih (i + 18) hnext (by omega) x]
      constructor
      · rintro (h | ⟨h1, h2, h3⟩)
        · subst h; exact ⟨Nat.le_refl _, hlt, hni⟩
        · exact ⟨by omega, h2, h3⟩
      · rintro ⟨h1, h2, h3⟩
        by_cases hx : x = i
        · exact Or.inl hx
        · refine Or.inr ⟨?_, h2, h3⟩
          by_contra hc
          exact h3 ⟨j, hj, by omega, by omega, by omega⟩
    · have hnext : ¬ region_interior num_frames (i + 1) := by
        rintro ⟨j2, hj2, h1, h2, h3⟩
        by_cases hs : i = 2020 + ram_starts.getD j2 0
        · exact hm ((ram_match_isSome i num_frames).mpr ⟨j2, hj2, hs, by omega⟩)
        · exact hni ⟨j2, hj2, h1, by omega, by omega⟩
      rw [if_neg hm, List.mem_cons, ih (i + 1) hnext (by omega) x]
      constructor
      · rintro (h | ⟨h1, h2, h3⟩)
        · subst h; exact ⟨Nat.le_refl _, hlt, hni⟩
        · exact ⟨by omega, h2, h3⟩
      · rintro ⟨h1, h2, h3⟩
        by_cases hx : x = i
        · exact Or.inl hx
        · exact Or.inr ⟨by omega, h2, h3⟩

/-- The next loop index behind the body at index `i`. -/
theorem frame_hi_next {b : Bitstream} {bit_cur num_frames i next : Nat} {out : List Msg}
    (h : frame_hi b bit_cur num_frames i = .ok (out, next)) :
    next = if (ram_match i num_frames).isSome then i + 18 else i + 1 := by
  have h2 := (frame_hi_ok h).2
  unfold frame_hi at h
  dsimp only at h
  cases hm : ram_match i num_frames with
  | some j =>
    rw [hm] at h
    obtain ⟨r, _, h3⟩ := bind_ok h
    simp only [pure, Except.pure, Except.ok.injEq, Prod.mk.injEq] at h3
    simp only [Option.isSome_some, if_true]
    omega
  | none =>
    rw [hm] at h
    simp only [Option.isSome_none, Bool.false_eq_true, if_false]
    obtain ⟨r, _, h3⟩ := bind_ok h
    obtain ⟨z, o⟩ := r
    dsimp only at h3
    split at h3
    · simp only [pure, Except.pure, Except.ok.injEq, Prod.mk.injEq] at h3
      exact h3.2.symm
    · split at h3
      · simp only [pure, Except.pure, Except.ok.injEq, Prod.mk.injEq] at h3
        exact h3.2.symm
      · obtain ⟨hd, _, h4⟩ := bind_ok h3
        simp only [pure, Except.pure, Except.ok.injEq, Prod.mk.injEq] at h4
        exact h4.2.symm

/-- A run of the second frame loop that gets through has run the loop body at the indices
`hi_indices`, in this order, and printed what the bodies print. -/
theorem frames_hi_runs (b : Bitstream) (bit_cur num_frames : Nat) :
    ∀ fuel i out, frames_hi b bit_cur num_frames fuel i = .ok out →
      ∃ outs : List (List Msg), out = outs.flatten ∧
        List.Forall₂ (fun idx o => ∃ next, frame_hi b bit_cur num_frames idx = .ok (o, next))
          (hi_indices num_frames fuel i) outs := by
  intro fuel
  induction fuel with
  | zero =>
    intro i out h
    unfold frames_hi at h
    split at h
    · cases h
    · cases h
      exact ⟨[], rfl, by simp [hi_indices]⟩
  | succ fuel ih =>
    intro i out h
    unfold frames_hi at h
    unfold hi_indices
    by_cases hlt : i < num_frames
    · rw [if_pos hlt] at h
      rw [if_pos hlt]
      obtain ⟨⟨o, next⟩, hok, h2⟩ := bind_ok h
      obtain ⟨rest, hrest, h3⟩ := bind_ok h2
      simp only [pure, Except.pure, Except.ok.injEq] at h3
      obtain ⟨outs, ho, hf⟩ := ih next rest hrest
      rw [frame_hi_next hok] at hf
      refine ⟨o :: outs, by rw [← h3, ho]; simp, ?_⟩
      exact List.Forall₂.cons ⟨next, hok⟩ hf
    · rw [if_neg hlt] at h
      rw [if_neg hlt]
      cases h
      exact ⟨[], rfl, List.Forall₂.nil⟩

theorem init_strs_records (b : Bitstream) (bit_cur i : Nat) (parity : Bool) :
    ∀ n j out, init_strs b bit_cur i parity n j = .ok out →
      ∀ m ∈ out, m.isFrame130 = false := by
  intro n
  induction n with
  | zero =>
    intro j out h m hm
    cases h
    cases hm
  | succ n ih =>
    intro j out h m hm
    unfold init_strs at h
    obtain ⟨s, _, h2⟩ := bind_ok h
    obtain ⟨rest, hrest, h3⟩ := bind_ok h2
    simp only [pure, Except.pure, Except.ok.injEq] at h3
    subst h3
    rcases List.mem_append.mp hm with h4 | h4
    · split at h4
      · simp only [List.mem_singleton] at h4
        subst h4
        cases parity <;> rfl
      · cases h4
    · exact ih (j + 1) rest hrest m h4

/-- What the decoder of a block-RAM region prints: the label of the region and, behind it,
no `frame_130` record. -/
theorem ramb16_records {b : Bitstream} {bit_cur i j : Nat} {r : List Msg}
    (h : ramb16 b bit_cur i j = .ok r) :
    ∃ rest, r = Msg.RAMB16_data (j * 2) :: rest ∧ ∀ m ∈ rest, m.isFrame130 = false := by
  have fin : ∀ head tail initp init : List Msg,
      (∀ m ∈ head, m.isFrame130 = false) → (∀ m ∈ tail, m.isFrame130 = false) →
      init_strs b bit_cur i true 8 0 = .ok initp → init_strs b bit_cur i false 32 0 = .ok init →
      (pure ([Msg.RAMB16_data (j * 2)] ++ head ++ tail ++ initp ++ init) : Except Err _) = .ok r →
      ∃ rest, r = Msg.RAMB16_data (j * 2) :: rest ∧ ∀ m ∈ rest, m.isFrame130 = false := by
    intro head tail initp init hh ht hinitp hinit heq
    simp only [pure, Except.pure, Except.ok.injEq] at heq
    subst heq
    refine ⟨head ++ tail ++ initp ++ init, by simp, ?_⟩
    intro m hm
    simp only [List.mem_append] at hm
    rcases hm with ((hm | hm) | hm) | hm
    · exact hh m hm
    · exact ht m hm
    · exact init_strs_records b bit_cur i true 8 0 initp hinitp m hm
    · exact init_strs_records b bit_cur i false 32 0 init hinit m hm
  have h1r : ∀ bytes : List Nat, ∀ m ∈ [Msg.ramb16_head bytes], m.isFrame130 = false := by
    intro bytes m hm
    simp only [List.mem_singleton] at hm
    subst hm
    rfl
  have h2r : ∀ bytes : List Nat, ∀ m ∈ [Msg.ramb16_tail bytes], m.isFrame130 = false := by
    intro bytes m hm
    simp only [List.mem_singleton] at hm
    subst hm
    rfl
  have h0r : ∀ m ∈ ([] : List Msg), m.isFrame130 = false := by
    intro m hm
    cases hm
  unfold ramb16 at h
  obtain ⟨hd, _, h1⟩ := bind_ok h
  dsimp only at h1
  split at h1
  · obtain ⟨bytes, _, h1⟩ := bind_ok h1
    obtain ⟨head, hhead, h1⟩ := bind_ok h1
    cases hhead
    obtain ⟨tl, _, h1⟩ := bind_ok h1
    try dsimp only at h1
    split at h1
    · obtain ⟨bytes2, _, h1⟩ := bind_ok h1
      obtain ⟨tail, htail, h1⟩ := bind_ok h1
      cases htail
      obtain ⟨initp, hinitp, h1⟩ := bind_ok h1
      obtain ⟨init, hinit, h1⟩ := bind_ok h1
      exact fin _ _ _ _ (h1r bytes) (h2r bytes2) hinitp hinit h1
    · obtain ⟨tail, htail, h1⟩ := bind_ok h1
      cases htail
      obtain ⟨initp, hinitp, h1⟩ := bind_ok h1
      obtain ⟨init, hinit, h1⟩ := bind_ok h1
      exact fin _ _ _ _ (h1r bytes) h0r hinitp hinit h1
  · obtain ⟨head, hhead, h1⟩ := bind_ok h1
    cases hhead
    obtain ⟨tl, _, h1⟩ := bind_ok h1
    try dsimp only at h1
    split at h1
    · obtain ⟨bytes2, _, h1⟩ := bind_ok h1
      obtain ⟨tail, htail, h1⟩ := bind_ok h1
      cases htail
      obtain ⟨initp, hinitp, h1⟩ := bind_ok h1
      obtain ⟨init, hinit, h1⟩ := bind_ok h1
      exact fin _ _ _ _ h0r (h2r bytes2) hinitp hinit h1
    · obtain ⟨tail, htail, h1⟩ := bind_ok h1
      cases htail
      obtain ⟨initp, hinitp, h1⟩ := bind_ok h1
      obtain ⟨init, hinit, h1⟩ := bind_ok h1
      exact fin _ _ _ _ h0r h0r hinitp hinit h1

/-! ## The second frame loop on bytes that are in the file -/

theorem any_nonzero_in_file (b : Bitstream) (base : Nat) (hm : b.bit_eof < 4294967296) :
    ∀ n j, base + j + n ≤ b.bit_eof → ∃ r, any_nonzero b base n j = .ok r := by
  intro n
  induction n with
  | zero => intro j _; exact ⟨false, rfl⟩
  | succ n ih =>
    intro j h
    obtain ⟨r, hr⟩ := ih (j + 1) (by omega)
    have e : u32 (base + j) = base + j := u32_of_lt (by omega)
    unfold any_nonzero
    rw [e, rd8_of_lt (show base + j < b.bit_eof by omega)]
    by_cases hx : b.bit_data (base + j) % 256 ≠ 0
    · exact ⟨true, by simp [hx, bind, Except.bind, pure, Except.pure]⟩
    · refine ⟨r, ?_⟩
      have hx0 : b.bit_data (base + j) % 256 = 0 := by omega
      simp [hx0, hr, bind, Except.bind]

theorem init_strs_in_file (b : Bitstream) (bit_cur i : Nat) (parity : Bool)
    (hmax : b.bit_eof < BITSTREAM_MAX)
    (hin : bit_cur + i * 130 + 18 + 32 * 288 ≤ b.bit_eof) :
    ∀ n j, j + n ≤ 32 → ∃ out, init_strs b bit_cur i parity n j = .ok out := by
  intro n
  induction n with
  | zero => intro j _; exact ⟨[], rfl⟩
  | succ n ih =>
    intro j h
    obtain ⟨rest, hrest⟩ := ih (j + 1) (by omega)
    obtain ⟨xs, _, hs, _⟩ := init_string_bits b bit_cur i j parity hmax (by omega) (by omega)
    unfold init_strs
    rw [hs, hrest]
    exact ⟨_, rfl⟩

/-- The decoding of a block-RAM region whose source bytes are in the file gets through. -/
theorem ramb16_in_file (b : Bitstream) (bit_cur i j : Nat) (hmax : b.bit_eof < BITSTREAM_MAX)
    (hin : bit_cur + i * 130 + 18 + 32 * 288 ≤ b.bit_eof) :
    ∃ r, ramb16 b bit_cur i j = .ok r := by
  have hM : BITSTREAM_MAX = 122880000 := by decide
  have hm : b.bit_eof < 4294967296 := by omega
  obtain ⟨hd, hhd⟩ := any_nonzero_in_file b (bit_cur + i * 130) hm 18 0 (by omega)
  obtain ⟨tl, htl⟩ := any_nonzero_in_file b (bit_cur + (i + 18) * 130 - 18) hm 18 0 (by omega)
  have r1 := rd_bytes_eq b (bit_cur + i * 130) 18 0 (by omega) hm
  have r2 := rd_bytes_eq b (bit_cur + (i + 18) * 130 - 18) 18 0 (by omega) hm
  obtain ⟨ip, hip⟩ := init_strs_in_file b bit_cur i true hmax hin 8 0 (by omega)
  obtain ⟨id, hid⟩ := init_strs_in_file b bit_cur i false hmax hin 32 0 (by omega)
  unfold ramb16
  rw [hhd, htl]
  cases hd <;> cases tl <;>
    simp [r1, r2, hip, hid, bind, Except.bind, pure, Except.pure]

/-- The body of the second frame loop at a frame of a payload that is in the file, with
the source bytes of the decoded regions in the file, gets through. -/
theorem frame_hi_in_file (b : Bitstream) (bit_cur num_frames i : Nat)
    (hmax : b.bit_eof < BITSTREAM_MAX) (hpay : bit_cur + num_frames * 130 ≤ b.bit_eof)
    (hreg : RegionsInFile b bit_cur num_frames) (hi : i < num_frames) :
    ∃ out, frame_hi b bit_cur num_frames i =
      .ok (out, if (ram_match i num_frames).isSome then i + 18 else i + 1) := by
  have hM : BITSTREAM_MAX = 122880000 := by decide
  cases hm : ram_match i num_frames with
  | none =>
    have hfit : bit_cur + i * 130 + 130 ≤ b.bit_eof := by
      have : (i + 1) * 130 ≤ num_frames * 130 := Nat.mul_le_mul_right _ hi
      omega
    obtain ⟨dump, _, h⟩ := frame_hi_no_region b bit_cur num_frames i hm hfit (by omega)
    exact ⟨_, h⟩
  | some j =>
    obtain ⟨hj, hi2, hn⟩ := (ram_match_some i num_frames j).mp hm
    have hin := hreg j hj (by omega)
    rw [← hi2] at hin
    obtain ⟨r, hr⟩ := ramb16_in_file b bit_cur i j hmax hin
    refine ⟨(if i = 2020 then [Msg.D_content_start] else []) ++ r, ?_⟩
    unfold frame_hi
    simp [hm, hr, bind, Except.bind, pure, Except.pure]

/-- The second frame loop over a payload that is in the file, with the source bytes of the
decoded regions in the file, gets through. -/
theorem frames_hi_in_file (b : Bitstream) (bit_cur num_frames : Nat)
    (hmax : b.bit_eof < BITSTREAM_MAX) (hpay : bit_cur + num_frames * 130 ≤ b.bit_eof)
    (hreg : RegionsInFile b bit_cur num_frames) :
    ∀ fuel i, num_frames - i ≤ fuel →
      ∃ out, frames_hi b bit_cur num_frames fuel i = .ok out := by
  intro fuel
  induction fuel with
  | zero =>
    intro i h
    unfold frames_hi
    rw [if_neg (by omega)]
    exact ⟨[], rfl⟩
  | succ fuel ih =>
    intro i h
    unfold frames_hi
    by_cases hi : i < num_frames
    · rw [if_pos hi]
      obtain ⟨out, ho⟩ := frame_hi_in_file b bit_cur num_frames i hmax hpay hreg hi
      obtain ⟨rest, hrest⟩ := ih (if (ram_match i num_frames).isSome then i + 18 else i + 1)
        (by split <;> omega)
      refine ⟨out ++ rest, ?_⟩
      simp [ho, hrest, bind, Except.bind, pure, Except.pure]
    · rw [if_neg hi]
      exact ⟨[], rfl⟩

theorem major_marker_some (m : Nat) :
    ∀ l j0 c x, x ∈ major_marker m l j0 c →
      ∃ t, t < l.length ∧ x = Msg.D_major (j0 + t) (l.getD t ("", 0)).2 (l.getD t ("", 0)).1 ∧
        m = c + ((l.take t).map Prod.snd).sum := by
  intro l
  induction l with
  | nil => intro j0 c x h; cases h
  | cons e rest ih =>
    intro j0 c x h
    obtain ⟨name, minors⟩ := e
    unfold major_marker at h
    split at h
    · rename_i hc
      simp only [List.mem_singleton] at h
      exact ⟨0, by simp, by simpa using h, by simpa using hc⟩
    · obtain ⟨t, ht, hx, hm⟩ := ih (j0 + 1) (c + minors) x h
      refine ⟨t + 1, by simp; omega, ?_, ?_⟩
      · rw [hx]
        simp [Nat.add_assoc, Nat.add_comm 1 t]
      · rw [hm]
        simp [Nat.add_assoc]

theorem major_marker_first (m : Nat) :
    ∀ l j0 c t, t < l.length → m = c + ((l.take t).map Prod.snd).sum →
      (∀ u, u < t → m ≠ c + ((l.take u).map Prod.snd).sum) →
      major_marker m l j0 c =
        [Msg.D_major (j0 + t) (l.getD t ("", 0)).2 (l.getD t ("", 0)).1] := by
  intro l
  induction l with
  | nil => intro j0 c t ht; simp at ht
  | cons e rest ih =>
    intro j0 c t ht hm hd
    obtain ⟨name, minors⟩ := e
    unfold major_marker
    cases t with
    | zero =>
      have : m = c := by simpa using hm
      simp [this]
    | succ t =>
      have hne : ¬ (m = c) := by
        have := hd 0 (by omega)
        simpa using this
      rw [if_neg hne]
      have := ih (j0 + 1) (c + minors) t (by simpa using ht)
        (by rw [hm]; simp [Nat.add_assoc])
        (by
          intro u hu
          have := hd (u + 1) (by omega)
          simpa [Nat.add_assoc] using this)
      rw [this]
      simp [Nat.add_assoc, Nat.add_comm 1 t]

theorem major_start_facts :
    (∀ j, j < 18 → ∀ u, u < j → major_start u ≠ major_start j) ∧
    (∀ j, j < 18 → major_start j < 505) ∧ major_start 18 = 505 ∧
    (majors.map Prod.snd).sum = 505 ∧ majors.length = 18 := by
  decide

theorem major_marker_only (m : Nat) (x : Msg) (h : x ∈ major_marker m majors 0 0) :
    x.isMajor = true := by
  obtain ⟨t, _, hx, _⟩ := major_marker_some m majors 0 0 x h
  rw [hx]
  rfl

theorem mem_major_marker (m j minors : Nat) (name : String) :
    Msg.D_major j minors name ∈ major_marker m majors 0 0 ↔
      (j < 18 ∧ m = major_start j ∧ majors.getD j ("", 0) = (name, minors)) := by
  obtain ⟨hd, _, _, _, hl⟩ := major_start_facts
  constructor
  · intro h
    obtain ⟨t, ht, hx, hm⟩ := major_marker_some m majors 0 0 _ h
    simp only [Msg.D_major.injEq, Nat.zero_add] at hx hm
    obtain ⟨h1, h2, h3⟩ := hx
    subst h1
    refine ⟨by omega, hm, ?_⟩
    rw [h2, h3]
  · rintro ⟨hj, hm, hg⟩
    have := major_marker_first m majors 0 0 j (by omega) (by simpa [major_start] using hm)
      (by
        intro u hu
        have := hd j hj u hu
        simp only [major_start] at this hm
        simp only [Nat.zero_add]
        rw [hm]
        exact fun h => this h.symm)
    rw [this, hg]
    simp

/-- The markers in front of frame `505 * r + t` with `t < 505`. -/
theorem markers_row (r t : Nat) (ht : t < 505) :
    markers (505 * r + t) =
      (if t = 0 then [Msg.D_row r] else []) ++ major_marker t majors 0 0 := by
  have e1 : (505 * r + t) % 505 = t := by omega
  have e2 : (505 * r + t) / 505 = r := by omega
  simp only [markers, e1, e2]

theorem filter_major_marker (t : Nat) :
    (major_marker t majors 0 0).filter Msg.isMajor = major_marker t majors 0 0 :=
  List.filter_eq_self.mpr (fun x hx => major_marker_only t x hx)

set_option maxRecDepth 1000000 in
theorem row_majors :
    ((List.range 505).map (fun t => major_marker t majors 0 0)).flatten =
      (List.range 18).map
        (fun j => Msg.D_major j (majors.getD j ("", 0)).2 (majors.getD j ("", 0)).1) := by
  decide

/-- The records of a frame are not markers. -/
theorem frame_lo_records (b : Bitstream) (bit_cur i : Nat)
    (h : bit_cur + i * 130 + 130 ≤ b.bit_eof) (hm : b.bit_eof < 4294967296) :
    ∃ f, frame_lo b bit_cur i = .ok f ∧ ∀ m ∈ f, m.isMarker = false := by
  refine ⟨_, frame_lo_eq b bit_cur i h hm, ?_⟩
  intro m hmem
  unfold half_record at hmem
  repeat' split at hmem
  all_goals
    simp only [List.mem_cons, List.mem_singleton, List.not_mem_nil, or_false] at hmem
    first
      | (subst hmem; rfl)
      | (rcases hmem with h1 | h1 | h1 <;> subst h1 <;> rfl)

/-- The first frame loop over frames that lie in the file: it runs the body at the
indices `i`, `i+1`, ... below `2020`, and each body prints `markers idx` and then the
records of the frame, none of which is a marker. -/
theorem frames_lo_runs (b : Bitstream) (bit_cur : Nat) (hm : b.bit_eof < 4294967296) :
    ∀ n i, bit_cur + (i + min n (2020 - i)) * 130 ≤ b.bit_eof →
      ∃ outs : List (List Msg), frames_lo b bit_cur n i = .ok outs.flatten ∧
        List.Forall₂
          (fun idx o => ∃ f, frame_lo b bit_cur idx = .ok f ∧
            (∀ m ∈ f, m.isMarker = false) ∧ o = markers idx ++ f)
          (List.range' i (min n (2020 - i))) outs := by
  intro n
  induction n with
  | zero =>
    intro i _
    refine ⟨[], rfl, ?_⟩
    simp
  | succ n ih =>
    intro i hfit
    unfold frames_lo
    by_cases hi : i ≥ 2020
    · rw [if_pos hi]
      refine ⟨[], rfl, ?_⟩
      have : min (n + 1) (2020 - i) = 0 := by omega
      rw [this]
      simp
    · rw [if_neg hi]
      have e : min (n + 1) (2020 - i) = min n (2020 - (i + 1)) + 1 := by omega
      rw [e] at hfit ⊢
      obtain ⟨f, hf, hnm⟩ := frame_lo_records b bit_cur i (by omega) hm
      obtain ⟨outs, ho, hall⟩ := ih (i + 1) (by omega)
      refine ⟨(markers i ++ f) :: outs, ?_, ?_⟩
      · simp [hf, ho, bind, Except.bind, pure, Except.pure]
      · rw [List.range'_succ]
        exact List.Forall₂.cons ⟨f, hf, hnm, rfl⟩ hall

/-- C21: the first frame loop over `num_frames` frames that lie in the file runs its body
at the frame indices `i < min num_frames 2020`, in increasing order, and each body prints
`markers i` in front of the records of frame `i`, none of which is a marker. A row marker
`#D row r` is among `markers i` iff `i % 505 = 0`, with `r = i / 505`; a major marker for
major `j` (with the minor count and the name of `majors[j]`) is among them iff `j < 18`
and `i % 505` is `major_start j`, the sum of the minor counts of the majors in front of
`j`. There are 18 majors, their minor counts sum to 505, and the major markers of the 505
frames of a row `r` are the markers of the majors 0 to 17, one each, in this order. -/
theorem frame_markers (b : Bitstream) (bit_cur num_frames : Nat)
    (hmax : b.bit_eof < BITSTREAM_MAX)
    (hfit : bit_cur + min num_frames 2020 * 130 ≤ b.bit_eof) :
    (∃ outs : List (List Msg), frames_lo b bit_cur num_frames 0 = .ok outs.flatten ∧
      List.Forall₂
        (fun i o => ∃ f, frame_lo b bit_cur i = .ok f ∧
          (∀ m ∈ f, m.isMarker = false) ∧ o = markers i ++ f)
        (List.range (min num_frames 2020)) outs) ∧
    (∀ i r, Msg.D_row r ∈ markers i ↔ (i % 505 = 0 ∧ r = i / 505)) ∧
    (∀ i j minors name, Msg.D_major j minors name ∈ markers i ↔
      (j < 18 ∧ i % 505 = major_start j ∧ majors.getD j ("", 0) = (name, minors))) ∧
    majors.length = 18 ∧ (majors.map Prod.snd).sum = 505 ∧ major_start 18 = 505 ∧
    (∀ r, ((List.range 505).map
        (fun t => (markers (505 * r + t)).filter Msg.isMajor)).flatten =
      (List.range 18).map
        (fun j => Msg.D_major j (majors.getD j ("", 0)).2 (majors.getD j ("", 0)).1)) := by
  have hM : BITSTREAM_MAX = 122880000 := by decide
  obtain ⟨_, _, h18, hsum, hlen⟩ := major_start_facts
  refine ⟨?_, ?_, ?_, hlen, hsum, h18, ?_⟩
  · have := frames_lo_runs b bit_cur (by omega) num_frames 0 (by simpa using hfit)
    rw [List.range_eq_range']
    simpa using this
  · intro i r
    unfold markers
    rw [List.mem_append]
    constructor
    · rintro (h | h)
      · split at h
        · rename_i h0
          simp only [List.mem_singleton, Msg.D_row.injEq] at h
          exact ⟨h0, h⟩
        · cases h
      · have := major_marker_only _ _ h
        cases this
    · rintro ⟨h0, hr⟩
      left
      rw [if_pos h0, hr]
      exact List.mem_singleton.mpr rfl
  · intro i j minors name
    unfold markers
    rw [List.mem_append, mem_major_marker]
    constructor
    · rintro (h | h)
      · split at h
        · simp only [List.mem_singleton] at h
          cases h
        · cases h
      · exact h
    · intro h
      exact Or.inr h
  · intro r
    refine Eq.trans ?_ row_majors
    apply congrArg List.flatten
    apply List.map_congr_left
    intro t ht
    rw [markers_row r t (List.mem_range.mp ht), List.filter_append, filter_major_marker]
    split <;> rfl

theorem frame_markers_witness :
    zeros.bit_eof < BITSTREAM_MAX ∧ 0 + min 2307 2020 * 130 ≤ zeros.bit_eof ∧
    Msg.D_row 3 ∈ markers 1515 ∧ Msg.D_major 1 30 "unknown" ∈ markers 1519 :=
  ⟨by decide, by decide,
    ((frame_markers zeros 0 2307 (by decide) (by decide)).2.1 1515 3).mpr (by decide),
    ((frame_markers zeros 0 2307 (by decide) (by decide)).2.2.1 1519 1 30 "unknown").mpr
      (by decide)⟩

/-! ## Clearing flag bits in a 16-bit word -/

theorem testBit_0xFFFF (i : Nat) : (0xFFFF : Nat).testBit i = decide (i < 16) :=
  Nat.testBit_two_pow_sub_one 16 i

theorem testBit_of_lt_65536 {a i : Nat} (ha : a < 65536) (hi : 16 ≤ i) :
    a.testBit i = false := by
  apply Nat.testBit_lt_two_pow
  calc a < 2 ^ 16 := ha
    _ ≤ 2 ^ i := Nat.pow_le_pow_right (by decide) hi

/-- A test of bits that have not been cleared sees the bits of the original word. -/
theorem clr16_and (v a m : Nat) (ha : a &&& m = 0) (hm : m < 65536) :
    clr16 v a &&& m = v &&& m := by
  apply Nat.eq_of_testBit_eq
  intro i
  have hbit : (a &&& m).testBit i = false := by rw [ha]; simp
  simp only [Nat.testBit_and] at hbit
  simp only [clr16, Nat.testBit_and, Nat.testBit_xor, testBit_0xFFFF]
  by_cases hi : i < 16
  · cases hv : v.testBit i <;> cases hai : a.testBit i <;> cases hmi : m.testBit i <;>
      simp_all
  · have := testBit_of_lt_65536 hm (by omega : 16 ≤ i)
    simp [this]

/-- Clearing two masks one after the other clears their union. -/
theorem clr16_clr16 (v a c : Nat) (ha : a < 65536) (hc : c < 65536) :
    clr16 (clr16 v a) c = clr16 v (a ||| c) := by
  apply Nat.eq_of_testBit_eq
  intro i
  simp only [clr16, Nat.testBit_and, Nat.testBit_xor, Nat.testBit_or, testBit_0xFFFF]
  by_cases hi : i < 16
  · cases hv : v.testBit i <;> cases hai : a.testBit i <;> cases hci : c.testBit i <;>
      simp_all
  · have h1 := testBit_of_lt_65536 ha (by omega : 16 ≤ i)
    have h2 := testBit_of_lt_65536 hc (by omega : 16 ≤ i)
    simp [hi, h1, h2]

/-- Clearing bits that are not set leaves a 16-bit word as it is. -/
theorem clr16_of_and_eq_zero (v m : Nat) (hv : v < 65536) (h : v &&& m = 0) :
    clr16 v m = v := by
  apply Nat.eq_of_testBit_eq
  intro i
  have hbit : (v &&& m).testBit i = false := by rw [h]; simp
  simp only [Nat.testBit_and] at hbit
  simp only [clr16, Nat.testBit_and, Nat.testBit_xor, testBit_0xFFFF]
  by_cases hi : i < 16
  · cases hvi : v.testBit i <;> cases hmi : m.testBit i <;> simp_all
  · have := testBit_of_lt_65536 hv (by omega : 16 ≤ i)
    simp [this]

theorem clr16_le (v m : Nat) : clr16 v m ≤ v := by
  unfold clr16
  exact Nat.and_le_left

/-- The pattern `if (u16 & m) { printf(..); u16 &= ~m; }` on a 16-bit word: the token is
printed iff one of the bits of `m` is set, and the bits of `m` are clear afterwards. -/
theorem flag_eq (v m : Nat) (name : String) (hv : v < 65536) :
    flag v m name = (if v &&& m ≠ 0 then [name] else [], clr16 v m) := by
  unfold flag
  by_cases h : v &&& m ≠ 0
  · simp [h]
  · have h0 : v &&& m = 0 := by simpa using h
    simp [h0, clr16_of_and_eq_zero v m hv h0]
/-! ## CTL, MASK, PWRDN_REG, HC_OPT_REG -/

theorem sbits_eq (w : Nat) (hw : w < 65536) :
    (if w &&& 0x0020 ≠ 0 then
      if w &&& 0x0010 ≠ 0 then (["SBITS=NO_RW"], clr16 w 0x0030)
      else (["SBITS=NO_READ"], clr16 w 0x0030)
    else if w &&& 0x0010 ≠ 0 then (["SBITS=ICAP_READ"], clr16 w 0x0010)
    else (([] : List String), w)) =
    ((if w &&& 0x0020 ≠ 0 then
        if w &&& 0x0010 ≠ 0 then ["SBITS=NO_RW"] else ["SBITS=NO_READ"]
      else if w &&& 0x0010 ≠ 0 then ["SBITS=ICAP_READ"] else []), clr16 w 0x0030) := by
  have k : (0x0010 ||| 0x0020 : Nat) = 0x0030 := by decide
  by_cases h20 : w &&& 0x0020 ≠ 0
  · by_cases h10 : w &&& 0x0010 ≠ 0 <;> simp [h20, h10]
  · have z20 : w &&& 0x0020 = 0 := by simpa using h20
    have e : clr16 w 0x0030 = clr16 w 0x0010 := by
      rw [← k, ← clr16_clr16 w 0x0010 0x0020 (by decide) (by decide)]
      apply clr16_of_and_eq_zero _ _ (lt_of_le_of_lt (clr16_le _ _) hw)
      rw [clr16_and w 0x0010 0x0020 (by decide) (by decide), z20]
    by_cases h10 : w &&& 0x0010 ≠ 0
    · simp [z20, h10, e]
    · have z10 : w &&& 0x0010 = 0 := by simpa using h10
      simp [z20, z10, e, clr16_of_and_eq_zero w 0x0010 hw z10]

/-- The CTL payload: each token is printed iff its bit is set in `v` (SBITS by the two
bits `0x0020`, `0x0010`), and the remainder is `v` with the bits `0x007E` cleared. -/
theorem ctl_eq (v : Nat) (hv : v < 65536) :
    ctl v =
      [Msg.T1 "CTL"
        ((if v &&& 0x0040 ≠ 0 then ["DECRYPT"] else [])
          ++ (if v &&& 0x0020 ≠ 0 then
                if v &&& 0x0010 ≠ 0 then ["SBITS=NO_RW"] else ["SBITS=NO_READ"]
              else if v &&& 0x0010 ≠ 0 then ["SBITS=ICAP_READ"] else [])
          ++ (if v &&& 0x0008 ≠ 0 then ["PERSIST"] else [])
          ++ (if v &&& 0x0004 ≠ 0 then ["USE_EFUSE_KEY"] else [])
          ++ (if v &&& 0x0002 ≠ 0 then ["CRC_EXTSTAT_DISABLE"] else []))
        (if clr16 v 0x007E ≠ 0 then some (clr16 v 0x007E) else none)]
      ++ (if clr16 v 0x007E ≠ 0x81 then [Msg.W_reserved 0x0081 (clr16 v 0x007E)] else []) := by
  have h1 : clr16 v 0x0040 < 65536 := lt_of_le_of_lt (clr16_le _ _) hv
  have h2 : clr16 v 0x0070 < 65536 := lt_of_le_of_lt (clr16_le _ _) hv
  have h3 : clr16 v 0x0078 < 65536 := lt_of_le_of_lt (clr16_le _ _) hv
  have h4 : clr16 v 0x007C < 65536 := lt_of_le_of_lt (clr16_le _ _) hv
  have c2 : clr16 (clr16 v 0x0040) 0x0030 = clr16 v 0x0070 :=
    clr16_clr16 v 0x0040 0x0030 (by decide) (by decide)
  have c3 : clr16 (clr16 v 0x0070) 0x0008 = clr16 v 0x0078 :=
    clr16_clr16 v 0x0070 0x0008 (by decide) (by decide)
  have c4 : clr16 (clr16 v 0x0078) 0x0004 = clr16 v 0x007C :=
    clr16_clr16 v 0x0078 0x0004 (by decide) (by decide)
  have c5 : clr16 (clr16 v 0x007C) 0x0002 = clr16 v 0x007E :=
    clr16_clr16 v 0x007C 0x0002 (by decide) (by decide)
  have a20 := clr16_and v 0x0040 0x0020 (by decide) (by decide)
  have a10 := clr16_and v 0x0040 0x0010 (by decide) (by decide)
  have a8 := clr16_and v 0x0070 0x0008 (by decide) (by decide)
  have a4 := clr16_and v 0x0078 0x0004 (by decide) (by decide)
  have a2 := clr16_and v 0x007C 0x0002 (by decide) (by decide)
  unfold ctl
  rw [flag_eq v 0x0040 "DECRYPT" hv]
  dsimp only
  rw [sbits_eq (clr16 v 0x0040) h1, c2]
  dsimp only
  rw [flag_eq (clr16 v 0x0070) 0x0008 "PERSIST" h2, c3]
  dsimp only
  rw [flag_eq (clr16 v 0x0078) 0x0004 "USE_EFUSE_KEY" h3, c4]
  dsimp only
  rw [flag_eq (clr16 v 0x007C) 0x0002 "CRC_EXTSTAT_DISABLE" h4, c5]
  dsimp only
  rw [a20, a10, a8, a4, a2]

/-- The MASK payload: each token is printed iff its bit is set in `v`, `SECURITY` iff both
bits of `0x0030` are; the remainder is `v` with the bits `0x004E` cleared, and with the
two bits `0x0030` cleared as well when both are set. -/
theorem mask_eq (v : Nat) (hv : v < 65536) :
    mask v =
      [Msg.T1 "MASK"
        ((if v &&& 0x0040 ≠ 0 then ["DECRYPT"] else [])
          ++ (if v &&& 0x0030 = 0x0030 then ["SECURITY"] else [])
          ++ (if v &&& 0x0008 ≠ 0 then ["PERSIST"] else [])
          ++ (if v &&& 0x0004 ≠ 0 then ["USE_EFUSE_KEY"] else [])
          ++ (if v &&& 0x0002 ≠ 0 then ["CRC_EXTSTAT_DISABLE"] else []))
        (if clr16 v (if v &&& 0x0030 = 0x0030 then 0x007E else 0x004E) ≠ 0
          then some (clr16 v (if v &&& 0x0030 = 0x0030 then 0x007E else 0x004E)) else none)]
      ++ (if clr16 v (if v &&& 0x0030 = 0x0030 then 0x007E else 0x004E) ≠ 0x81
          then [Msg.W_reserved 0x0081
            (clr16 v (if v &&& 0x0030 = 0x0030 then 0x007E else 0x004E))] else []) := by
  have a30 := clr16_and v 0x0040 0x0030 (by decide) (by decide)
  unfold mask
  rw [flag_eq v 0x0040 "DECRYPT" hv]
  dsimp only
  rw [a30]
  by_cases hs : v &&& 0x0030 = 0x0030
  · have h2 : clr16 v 0x0070 < 65536 := lt_of_le_of_lt (clr16_le _ _) hv
    have h3 : clr16 v 0x0078 < 65536 := lt_of_le_of_lt (clr16_le _ _) hv
    have h4 : clr16 v 0x007C < 65536 := lt_of_le_of_lt (clr16_le _ _) hv
    have c2 : clr16 (clr16 v 0x0040) 0x0030 = clr16 v 0x0070 :=
      clr16_clr16 v 0x0040 0x0030 (by decide) (by decide)
    have c3 : clr16 (clr16 v 0x0070) 0x0008 = clr16 v 0x0078 :=
      clr16_clr16 v 0x0070 0x0008 (by decide) (by decide)
    have c4 : clr16 (clr16 v 0x0078) 0x0004 = clr16 v 0x007C :=
      clr16_clr16 v 0x0078 0x0004 (by decide) (by decide)
    have c5 : clr16 (clr16 v 0x007C) 0x0002 = clr16 v 0x007E :=
      clr16_clr16 v 0x007C 0x0002 (by decide) (by decide)
    have a8 := clr16_and v 0x0070 0x0008 (by decide) (by decide)
    have a4 := clr16_and v 0x0078 0x0004 (by decide) (by decide)
    have a2 := clr16_and v 0x007C 0x0002 (by decide) (by decide)
    rw [if_pos hs, if_pos hs, if_pos hs, c2]
    dsimp only
    rw [flag_eq (clr16 v 0x0070) 0x0008 "PERSIST" h2, c3]
    dsimp only
    rw [flag_eq (clr16 v 0x0078) 0x0004 "USE_EFUSE_KEY" h3, c4]
    dsimp only
    rw [flag_eq (clr16 v 0x007C) 0x0002 "CRC_EXTSTAT_DISABLE" h4, c5]
    dsimp only
    rw [a8, a4, a2]
  · have h2 : clr16 v 0x0040 < 65536 := lt_of_le_of_lt (clr16_le _ _) hv
    have h3 : clr16 v 0x0048 < 65536 := lt_of_le_of_lt (clr16_le _ _) hv
    have h4 : clr16 v 0x004C < 65536 := lt_of_le_of_lt (clr16_le _ _) hv
    have c3 : clr16 (clr16 v 0x0040) 0x0008 = clr16 v 0x0048 :=
      clr16_clr16 v 0x0040 0x0008 (by decide) (by decide)
    have c4 : clr16 (clr16 v 0x0048) 0x0004 = clr16 v 0x004C :=
      clr16_clr16 v 0x0048 0x0004 (by decide) (by decide)
    have c5 : clr16 (clr16 v 0x004C) 0x0002 = clr16 v 0x004E :=
      clr16_clr16 v 0x004C 0x0002 (by decide) (by decide)
    have a8 := clr16_and v 0x0040 0x0008 (by decide) (by decide)
    have a4 := clr16_and v 0x0048 0x0004 (by decide) (by decide)
    have a2 := clr16_and v 0x004C 0x0002 (by decide) (by decide)
    rw [if_neg hs, if_neg hs, if_neg hs]
    dsimp only
    rw [flag_eq (clr16 v 0x0040) 0x0008 "PERSIST" h2, c3]
    dsimp only
    rw [flag_eq (clr16 v 0x0048) 0x0004 "USE_EFUSE_KEY" h3, c4]
    dsimp only
    rw [flag_eq (clr16 v 0x004C) 0x0002 "CRC_EXTSTAT_DISABLE" h4, c5]
    dsimp only
    rw [a8, a4, a2]

/-- The PWRDN_REG payload: each token is printed iff its bit is set in `v`, and the
remainder is `v` with the bits `0x4035` cleared. -/
theorem pwrdn_reg_eq (v : Nat) (hv : v < 65536) :
    pwrdn_reg v =
      [Msg.T1 "PWRDN_REG"
        ((if v &&& 0x4000 ≠ 0 then ["EN_EYES"] else [])
          ++ (if v &&& 0x0020 ≠ 0 then ["FILTER_B"] else [])
          ++ (if v &&& 0x0010 ≠ 0 then ["EN_PGSR"] else [])
          ++ (if v &&& 0x0004 ≠ 0 then ["EN_PWRDN"] else [])
          ++ (if v &&& 0x0001 ≠ 0 then ["KEEP_SCLK"] else []))
        (if clr16 v 0x4035 ≠ 0 then some (clr16 v 0x4035) else none)]
      ++ (if clr16 v 0x4035 ≠ 0x0880 then [Msg.W_reserved 0x0880 (clr16 v 0x4035)] else []) := by
  have h1 : clr16 v 0x4000 < 65536 := lt_of_le_of_lt (clr16_le _ _) hv
  have h2 : clr16 v 0x4020 < 65536 := lt_of_le_of_lt (clr16_le _ _) hv
  have h3 : clr16 v 0x4030 < 65536 := lt_of_le_of_lt (clr16_le _ _) hv
  have h4 : clr16 v 0x4034 < 65536 := lt_of_le_of_lt (clr16_le _ _) hv
  have c2 : clr16 (clr16 v 0x4000) 0x0020 = clr16 v 0x4020 :=
    clr16_clr16 v 0x4000 0x0020 (by decide) (by decide)
  have c3 : clr16 (clr16 v 0x4020) 0x0010 = clr16 v 0x4030 :=
    clr16_clr16 v 0x4020 0x0010 (by decide) (by decide)
  have c4 : clr16 (clr16 v 0x4030) 0x0004 = clr16 v 0x4034 :=
    clr16_clr16 v 0x4030 0x0004 (by decide) (by decide)
  have c5 : clr16 (clr16 v 0x4034) 0x0001 = clr16 v 0x4035 :=
    clr16_clr16 v 0x4034 0x0001 (by decide) (by decide)
  have a20 := clr16_and v 0x4000 0x0020 (by decide) (by decide)
  have a10 := clr16_and v 0x4020 0x0010 (by decide) (by decide)
  have a4 := clr16_and v 0x4030 0x0004 (by decide) (by decide)
  have a1 := clr16_and v 0x4034 0x0001 (by decide) (by decide)
  unfold pwrdn_reg
  rw [flag_eq v 0x4000 "EN_EYES" hv]
  dsimp only
  rw [flag_eq (clr16 v 0x4000) 0x0020 "FILTER_B" h1, c2]
  dsimp only
  rw [flag_eq (clr16 v 0x4020) 0x0010 "EN_PGSR" h2, c3]
  dsimp only
  rw [flag_eq (clr16 v 0x4030) 0x0004 "EN_PWRDN" h3, c4]
  dsimp only
  rw [flag_eq (clr16 v 0x4034) 0x0001 "KEEP_SCLK" h4, c5]
  dsimp only
  rw [a20, a10, a4, a1]

/-- The HC_OPT_REG payload: `INIT_SKIP` is printed iff bit `0x0040` is set in `v`, and the
remainder is `v` with that bit cleared. -/
theorem hc_opt_reg_eq (v : Nat) (hv : v < 65536) :
    hc_opt_reg v =
      [Msg.T1 "HC_OPT_REG" (if v &&& 0x0040 ≠ 0 then ["INIT_SKIP"] else [])
        (if clr16 v 0x0040 ≠ 0 then some (clr16 v 0x0040) else none)]
      ++ (if clr16 v 0x0040 ≠ 0x001F then [Msg.W_reserved 0x001F (clr16 v 0x0040)] else []) := by
  unfold hc_opt_reg
  rw [flag_eq v 0x0040 "INIT_SKIP" hv]

theorem type1_flag_register (b : Bitstream) (cur hdr reg v : Nat) (name : String)
    (dec : Nat → List Msg) (hmax : b.bit_eof < BITSTREAM_MAX)
    (hv : be16 b (cur + 2) = .ok v)
    (hr : (reg = CTL ∧ name = "CTL" ∧ dec = ctl) ∨ (reg = MASK ∧ name = "MASK" ∧ dec = mask) ∨
      (reg = PWRDN_REG ∧ name = "PWRDN_REG" ∧ dec = pwrdn_reg) ∨
      (reg = HC_OPT_REG ∧ name = "HC_OPT_REG" ∧ dec = hc_opt_reg)) :
    type1 b cur hdr reg 1 = .ok (dec v) := by
  have hlt := be16_ok hv
  have hM : BITSTREAM_MAX = 122880000 := by decide
  have e1 : u32 (cur + 2) = cur + 2 := u32_of_lt (by omega)
  rcases hr with ⟨h1, _, h3⟩ | ⟨h1, _, h3⟩ | ⟨h1, _, h3⟩ | ⟨h1, _, h3⟩ <;> subst h1 h3 <;>
    simp [type1, xc6_regs, reg_name_empty, IDCODE, CMD, FLR, COR1, COR2, FAR_MAJ, MFWR, CTL,
      MASK, PWRDN_REG, HC_OPT_REG, t1_ctl, t1_mask, t1_pwrdn_reg, t1_hc_opt_reg, e1, hv, bind,
      Except.bind, pure, Except.pure]

/-- C22: a type-1 CTL, MASK, PWRDN_REG or HC_OPT_REG packet with word count 1 whose payload
`v` is in the file never fails: the iteration prints the register's line and goes on behind
the payload. Each flag token is printed iff its bit is set in `v`; for CTL the two bits
`0x0020`, `0x0010` give `SBITS=NO_RW` (11), `SBITS=NO_READ` (10), `SBITS=ICAP_READ` (01) or
nothing (00); for MASK `SECURITY` is printed iff both bits are set. The remainder is `v`
with the bits of the flags cleared (`0x007E` for CTL, `0x4035` for PWRDN_REG, `0x0040` for
HC_OPT_REG; for MASK `0x004E`, and the two bits `0x0030` only when both are set), and the
reserved warning is printed iff the remainder differs from `0x81` (CTL, MASK), `0x0880`
(PWRDN_REG), `0x001F` (HC_OPT_REG). -/
theorem flag_registers (info : Bool) (b : Bitstream) (cur hdr v : Nat)
    (hmax : b.bit_eof < BITSTREAM_MAX) (hv : be16 b (cur + 2) = .ok v) :
    (T1Packet b cur hdr CTL 1 → packet info b cur = .ok (cur + 4, info_hdr info cur ++
      ([Msg.T1 "CTL"
        ((if v &&& 0x0040 ≠ 0 then ["DECRYPT"] else [])
          ++ (if v &&& 0x0020 ≠ 0 then
                if v &&& 0x0010 ≠ 0 then ["SBITS=NO_RW"] else ["SBITS=NO_READ"]
              else if v &&& 0x0010 ≠ 0 then ["SBITS=ICAP_READ"] else [])
          ++ (if v &&& 0x0008 ≠ 0 then ["PERSIST"] else [])
          ++ (if v &&& 0x0004 ≠ 0 then ["USE_EFUSE_KEY"] else [])
          ++ (if v &&& 0x0002 ≠ 0 then ["CRC_EXTSTAT_DISABLE"] else []))
        (if clr16 v 0x007E ≠ 0 then some (clr16 v 0x007E) else none)]
      ++ (if clr16 v 0x007E ≠ 0x81 then [Msg.W_reserved 0x0081 (clr16 v 0x007E)] else [])))) ∧
    (T1Packet b cur hdr MASK 1 → packet info b cur = .ok (cur + 4, info_hdr info cur ++
      ([Msg.T1 "MASK"
        ((if v &&& 0x0040 ≠ 0 then ["DECRYPT"] else [])
          ++ (if v &&& 0x0030 = 0x0030 then ["SECURITY"] else [])
          ++ (if v &&& 0x0008 ≠ 0 then ["PERSIST"] else [])
          ++ (if v &&& 0x0004 ≠ 0 then ["USE_EFUSE_KEY"] else [])
          ++ (if v &&& 0x0002 ≠ 0 then ["CRC_EXTSTAT_DISABLE"] else []))
        (if clr16 v (if v &&& 0x0030 = 0x0030 then 0x007E else 0x004E) ≠ 0
          then some (clr16 v (if v &&& 0x0030 = 0x0030 then 0x007E else 0x004E)) else none)]
      ++ (if clr16 v (if v &&& 0x0030 = 0x0030 then 0x007E else 0x004E) ≠ 0x81
          then [Msg.W_reserved 0x0081
            (clr16 v (if v &&& 0x0030 = 0x0030 then 0x007E else 0x004E))] else [])))) ∧
    (T1Packet b cur hdr PWRDN_REG 1 → packet info b cur = .ok (cur + 4, info_hdr info cur ++
      ([Msg.T1 "PWRDN_REG"
        ((if v &&& 0x4000 ≠ 0 then ["EN_EYES"] else [])
          ++ (if v &&& 0x0020 ≠ 0 then ["FILTER_B"] else [])
          ++ (if v &&& 0x0010 ≠ 0 then ["EN_PGSR"] else [])
          ++ (if v &&& 0x0004 ≠ 0 then ["EN_PWRDN"] else [])
          ++ (if v &&& 0x0001 ≠ 0 then ["KEEP_SCLK"] else []))
        (if clr16 v 0x4035 ≠ 0 then some (clr16 v 0x4035) else none)]
      ++ (if clr16 v 0x4035 ≠ 0x0880
          then [Msg.W_reserved 0x0880 (clr16 v 0x4035)] else [])))) ∧
    (T1Packet b cur hdr HC_OPT_REG 1 → packet info b cur = .ok (cur + 4, info_hdr info cur ++
      ([Msg.T1 "HC_OPT_REG" (if v &&& 0x0040 ≠ 0 then ["INIT_SKIP"] else [])
        (if clr16 v 0x0040 ≠ 0 then some (clr16 v 0x0040) else none)]
      ++ (if clr16 v 0x0040 ≠ 0x001F
          then [Msg.W_reserved 0x001F (clr16 v 0x0040)] else [])))) := by
  have hlt := be16_ok hv
  have hv16 := be16_lt hv
  have hc : ¬ (cur + 2 + 1 * 2 > b.bit_eof) := by omega
  refine ⟨?_, ?_, ?_, ?_⟩
  · intro hp
    rw [(packet_T1Packet info b cur hdr CTL 1 hmax hp).2, if_neg hc,
      type1_flag_register b cur hdr CTL v "CTL" ctl hmax hv (Or.inl ⟨rfl, rfl, rfl⟩),
      ctl_eq v hv16]
    rfl
  · intro hp
    rw [(packet_T1Packet info b cur hdr MASK 1 hmax hp).2, if_neg hc,
      type1_flag_register b cur hdr MASK v "MASK" mask hmax hv
        (Or.inr (Or.inl ⟨rfl, rfl, rfl⟩)),
      mask_eq v hv16]
    rfl
  · intro hp
    rw [(packet_T1Packet info b cur hdr PWRDN_REG 1 hmax hp).2, if_neg hc,
      type1_flag_register b cur hdr PWRDN_REG v "PWRDN_REG" pwrdn_reg hmax hv
        (Or.inr (Or.inr (Or.inl ⟨rfl, rfl, rfl⟩))),
      pwrdn_reg_eq v hv16]
    rfl
  · intro hp
    rw [(packet_T1Packet info b cur hdr HC_OPT_REG 1 hmax hp).2, if_neg hc,
      type1_flag_register b cur hdr HC_OPT_REG v "HC_OPT_REG" hc_opt_reg hmax hv
        (Or.inr (Or.inr (Or.inr ⟨rfl, rfl, rfl⟩))),
      hc_opt_reg_eq v hv16]
    rfl

theorem flag_registers_witness :
    packet false (Bitstream.ofBytes [0x30, 0xC1, 0x00, 0xE1]) 0 =
      .ok (4, [Msg.T1 "CTL" ["DECRYPT", "SBITS=NO_READ"] (some 0x81)]) ∧
    packet false (Bitstream.ofBytes [0x30, 0xE1, 0x00, 0xA1]) 0 =
      .ok (4, [Msg.T1 "MASK" [] (some 0xA1), Msg.W_reserved 0x81 0xA1]) ∧
    packet false (Bitstream.ofBytes [0x31, 0x81, 0x08, 0x81]) 0 =
      .ok (4, [Msg.T1 "PWRDN_REG" ["KEEP_SCLK"] (some 0x0880)]) ∧
    packet false (Bitstream.ofBytes [0x32, 0x01, 0x00, 0x5E]) 0 =
      .ok (4, [Msg.T1 "HC_OPT_REG" ["INIT_SKIP"] (some 0x1E), Msg.W_reserved 0x1F 0x1E]) :=
  ⟨((flag_registers false (Bitstream.ofBytes [0x30, 0xC1, 0x00, 0xE1]) 0 0x30C1 0xE1
      (by decide) (by decide)).1 (by decide)).trans (by decide),
    ((flag_registers false (Bitstream.ofBytes [0x30, 0xE1, 0x00, 0xA1]) 0 0x30E1 0xA1
      (by decide) (by decide)).2.1 (by decide)).trans (by decide),
    ((flag_registers false (Bitstream.ofBytes [0x31, 0x81, 0x08, 0x81]) 0 0x3181 0x0881
      (by decide) (by decide)).2.2.1 (by decide)).trans (by decide),
    ((flag_registers false (Bitstream.ofBytes [0x32, 0x01, 0x00, 0x5E]) 0 0x3201 0x5E
      (by decide) (by decide)).2.2.2 (by decide)).trans (by decide)⟩

/-! ## COR2 -/

/-- The COR2 payload: `RESET_ON_ERROR` iff bit `0x8000` is set, the four cycle fields as
`bitstr` of the bits 11-9, 8-6, 5-3 and 2-0, and the remainder `v & 0x7000`. -/
theorem cor2_eq (v : Nat) (hv : v < 65536) :
    cor2 v =
      [Msg.T1 "COR2"
        ((if v &&& 0x8000 ≠ 0 then ["RESET_ON_ERROR"] else [])
          ++ ["DONE_CYCLE=" ++ bitstr (v / 2 ^ 9 % 2 ^ 3) 3,
              "LCK_CYCLE=" ++ bitstr (v / 2 ^ 6 % 2 ^ 3) 3,
              "GTS_CYCLE=" ++ bitstr (v / 2 ^ 3 % 2 ^ 3) 3,
              "GWE_CYCLE=" ++ bitstr (v % 2 ^ 3) 3])
        (if v &&& 0x7000 ≠ 0 then some (v &&& 0x7000) else none)]
      ++ (if v / 2 ^ 9 % 2 ^ 3 = 0 ∨ v / 2 ^ 9 % 2 ^ 3 = 7
          then [Msg.W_done_cycle "0b000"] else [])
      ++ (if v / 2 ^ 6 % 2 ^ 3 = 0 then [Msg.W_lck_cycle] else [])
      ++ (if v &&& 0x7000 ≠ 0 then [Msg.W_reserved0 (v &&& 0x7000)] else []) := by
  have c2 : clr16 (clr16 v 0x8000) 0x0E00 = clr16 v 0x8E00 :=
    clr16_clr16 v 0x8000 0x0E00 (by decide) (by decide)
  have c3 : clr16 (clr16 v 0x8E00) 0x01C0 = clr16 v 0x8FC0 :=
    clr16_clr16 v 0x8E00 0x01C0 (by decide) (by decide)
  have c4 : clr16 (clr16 v 0x8FC0) 0x0038 = clr16 v 0x8FF8 :=
    clr16_clr16 v 0x8FC0 0x0038 (by decide) (by decide)
  have c5 : clr16 (clr16 v 0x8FF8) 0x0007 = clr16 v 0x8FFF :=
    clr16_clr16 v 0x8FF8 0x0007 (by decide) (by decide)
  have r : clr16 v 0x8FFF = v &&& 0x7000 := rfl
  have a1 := clr16_and v 0x8000 0x0E00 (by decide) (by decide)
  have a2 := clr16_and v 0x8E00 0x01C0 (by decide) (by decide)
  have a3 := clr16_and v 0x8FC0 0x0038 (by decide) (by decide)
  have a4 := clr16_and v 0x8FF8 0x0007 (by decide) (by decide)
  have m1 : (v &&& 0x0E00) >>> 9 = v / 2 ^ 9 % 2 ^ 3 := and_mask_shift v 9 3
  have m2 : (v &&& 0x01C0) >>> 6 = v / 2 ^ 6 % 2 ^ 3 := and_mask_shift v 6 3
  have m3 : (v &&& 0x0038) >>> 3 = v / 2 ^ 3 % 2 ^ 3 := and_mask_shift v 3 3
  have m4 : v &&& 0x0007 = v % 2 ^ 3 := Nat.and_pow_two_sub_one_eq_mod v 3
  have z : (v &&& 0x7000 &&& 0x01C0) >>> 6 = 0 := by
    have k : (0x7000 &&& 0x01C0 : Nat) = 0 := by decide
    rw [Nat.and_assoc, k, Nat.and_zero, Nat.zero_shiftRight]
  unfold cor2
  rw [flag_eq v 0x8000 "RESET_ON_ERROR" hv]
  dsimp only
  rw [c2, c3, c4, c5, r, a1, a2, a3, a4, m1, m2, m3, m4, z]
  simp only [decide_eq_true_eq]
  rfl

theorem bitstr_3 : ∀ x, x < 8 → bitstr x 3 =
    String.mk ['0', 'b', Nat.digitChar (x / 4 % 2), Nat.digitChar (x / 2 % 2),
      Nat.digitChar (x % 2)] := by
  decide

theorem shr_and_7 (v k : Nat) : (v >>> k) &&& 7 = v / 2 ^ k % 2 ^ 3 := by
  rw [Nat.shiftRight_eq_div_pow]
  exact Nat.and_pow_two_sub_one_eq_mod _ 3

/-- C23: a type-1 COR2 packet with word count 1 whose payload `v` is in the file never
fails; its line has `RESET_ON_ERROR` iff bit `0x8000` of `v` is set, then `DONE_CYCLE`,
`LCK_CYCLE`, `GTS_CYCLE`, `GWE_CYCLE` with `(v>>9)&7`, `(v>>6)&7`, `(v>>3)&7`, `v&7` as
`0b` and three binary digits, and the remainder `v & 0x7000` when it is not zero. The
DONE_CYCLE warning is printed iff DONE_CYCLE is 0 or 7 (always with the text `0b000`), the
LCK_CYCLE warning iff LCK_CYCLE is 0, the reserved warning iff `v & 0x7000` is not zero. -/
theorem cor2_packet (info : Bool) (b : Bitstream) (cur hdr v : Nat)
    (hmax : b.bit_eof < BITSTREAM_MAX) (hp : T1Packet b cur hdr COR2 1)
    (hv : be16 b (cur + 2) = .ok v) :
    packet info b cur = .ok (cur + 4, info_hdr info cur ++
      ([Msg.T1 "COR2"
        ((if v &&& 0x8000 ≠ 0 then ["RESET_ON_ERROR"] else [])
          ++ ["DONE_CYCLE=" ++ bitstr ((v >>> 9) &&& 7) 3,
              "LCK_CYCLE=" ++ bitstr ((v >>> 6) &&& 7) 3,
              "GTS_CYCLE=" ++ bitstr ((v >>> 3) &&& 7) 3,
              "GWE_CYCLE=" ++ bitstr (v &&& 7) 3])
        (if v &&& 0x7000 ≠ 0 then some (v &&& 0x7000) else none)]
      ++ (if (v >>> 9) &&& 7 = 0 ∨ (v >>> 9) &&& 7 = 7
          then [Msg.W_done_cycle "0b000"] else [])
      ++ (if (v >>> 6) &&& 7 = 0 then [Msg.W_lck_cycle] else [])
      ++ (if v &&& 0x7000 ≠ 0 then [Msg.W_reserved0 (v &&& 0x7000)] else []))) ∧
    (∀ x, x < 8 → bitstr x 3 =
      String.mk ['0', 'b', Nat.digitChar (x / 4 % 2), Nat.digitChar (x / 2 % 2),
        Nat.digitChar (x % 2)]) ∧
    (v >>> 9) &&& 7 < 8 ∧ (v >>> 6) &&& 7 < 8 ∧ (v >>> 3) &&& 7 < 8 ∧ v &&& 7 < 8 := by
  obtain ⟨_, hpk⟩ := packet_T1Packet info b cur hdr COR2 1 hmax hp
  have hlt := be16_ok hv
  have hv16 := be16_lt hv
  have hM : BITSTREAM_MAX = 122880000 := by decide
  have e1 : u32 (cur + 2) = cur + 2 := u32_of_lt (by omega)
  have hc : ¬ (cur + 2 + 1 * 2 > b.bit_eof) := by omega
  have ht : type1 b cur hdr COR2 1 = .ok (cor2 v) := by
    simp [type1, xc6_regs, reg_name_empty, COR1, COR2, IDCODE, CMD, FLR, t1_cor2, e1, hv, bind,
      Except.bind, pure, Except.pure]
  have m4 : v &&& 7 = v % 2 ^ 3 := Nat.and_pow_two_sub_one_eq_mod v 3
  have b3 : ∀ x : Nat, x % 2 ^ 3 < 8 := fun x => Nat.mod_lt _ (by decide)
  refine ⟨?_, bitstr_3, ?_, ?_, ?_, ?_⟩
  · rw [hpk, if_neg hc, ht, cor2_eq v hv16, shr_and_7, shr_and_7, shr_and_7, m4]
    rfl
  · rw [shr_and_7]; exact b3 _
  · rw [shr_and_7]; exact b3 _
  · rw [shr_and_7]; exact b3 _
  · rw [m4]; exact b3 _

theorem cor2_packet_witness :
    packet false (Bitstream.ofBytes [0x31, 0x61, 0x8E, 0xEE]) 0 =
      .ok (4, [Msg.T1 "COR2" ["RESET_ON_ERROR", "DONE_CYCLE=0b111", "LCK_CYCLE=0b011",
        "GTS_CYCLE=0b101", "GWE_CYCLE=0b110"] none, Msg.W_done_cycle "0b000"]) ∧
    packet false (Bitstream.ofBytes [0x31, 0x61, 0x18, 0x35]) 0 =
      .ok (4, [Msg.T1 "COR2" ["DONE_CYCLE=0b100", "LCK_CYCLE=0b000", "GTS_CYCLE=0b110",
        "GWE_CYCLE=0b101"] (some 0x1000), Msg.W_lck_cycle, Msg.W_reserved0 0x1000]) :=
  ⟨((cor2_packet false (Bitstream.ofBytes [0x31, 0x61, 0x8E, 0xEE]) 0 0x3161 0x8EEE
      (by decide) (by decide) (by decide)).1).trans (by decide),
    ((cor2_packet false (Bitstream.ofBytes [0x31, 0x61, 0x18, 0x35]) 0 0x3161 0x1835
      (by decide) (by decide) (by decide)).1).trans (by decide)⟩

/-! ## A header field of declared length 0 -/

set_option maxRecDepth 1000000 in
/-- C24, the input on which the code does not do what the claim says. In
`file_field_a_empty` the field `a` at `cur = 13` has the declared length 0, so its
declared span `[16, 16)` is empty. The parser accepts the field: the byte that line 335
tests, `bit_data[bit_cur + 3 + str_len - 1]`, has the index 15, in front of the span (it
is the low byte of the length), and it is NUL. The value printed by line 340 is read from
index 16 on up to the first NUL byte; index 16 holds the tag `b` of the next field, so
`header_str_a` has the one-byte value `b`, which is not contained in the empty span, and
the run goes on to the end of the file. -/
theorem empty_field_value_outside_span :
    file_field_a_empty.bit_eof = 43 ∧
    FieldOk file_field_a_empty 13 0x61 0 ∧
    13 + 3 + 0 - 1 < 13 + 3 ∧ byte file_field_a_empty (13 + 3 + 0 - 1) = 0 ∧
    byte file_field_a_empty (13 + 3) = 0x62 ∧
    header_string file_field_a_empty 13 0x61 = .ok (13 + 3 + 0, Msg.header_str 0x61 [0x62]) ∧
    main false file_field_a_empty = .ok
      [Msg.bit2txt_format, Msg.hex [0, 9, 0x0f, 0xf0, 0x0f, 0xf0, 0x0f, 0xf0, 0x0f, 0xf0, 0, 0, 1],
       Msg.header_str 0x61 [0x62], Msg.header_str 0x62 [], Msg.header_str 0x63 [],
       Msg.header_str 0x64 [], Msg.sync_word, Msg.noop, Msg.T1_CMD "RCRC"] := by
  decide

/-! ## The reads of the type-1 decoders -/

/-- A big-endian 16-bit read at `i` sees the two bytes at `i` and `i + 1` only. -/
theorem be16_window (b b2 : Bitstream) (i : Nat)
    (h : ∀ k, i ≤ k → k < i + 2 → k < b.bit_eof ∧ k < b2.bit_eof ∧ byte b k = byte b2 k) :
    ∃ v, be16 b i = .ok v ∧ be16 b2 i = .ok v := by
  obtain ⟨a0, c0, e0⟩ := h i (by omega) (by omega)
  obtain ⟨a1, c1, e1⟩ := h (i + 1) (by omega) (by omega)
  exact ⟨_, be16_val b i (by omega), by rw [be16_val b2 i (by omega), e0, e1]⟩

/-- A big-endian 32-bit read at `i` sees the four bytes from `i` to `i + 3` only. -/
theorem be32_window (b b2 : Bitstream) (i : Nat)
    (h : ∀ k, i ≤ k → k < i + 4 → k < b.bit_eof ∧ k < b2.bit_eof ∧ byte b k = byte b2 k) :
    ∃ v, be32 b i = .ok v ∧ be32 b2 i = .ok v := by
  obtain ⟨a0, c0, e0⟩ := h i (by omega) (by omega)
  obtain ⟨a1, c1, e1⟩ := h (i + 1) (by omega) (by omega)
  obtain ⟨a2, c2, e2⟩ := h (i + 2) (by omega) (by omega)
  obtain ⟨a3, c3, e3⟩ := h (i + 3) (by omega) (by omega)
  exact ⟨_, be32_eq b i (by omega), by rw [be32_eq b2 i (by omega), e0, e1, e2, e3]⟩

/-- The words of the generic dump are read from the payload. -/
theorem t1_words_window (b b2 : Bitstream) (u : Nat) (hmax : b.bit_eof < BITSTREAM_MAX) :
    ∀ n i, (∀ k, u + 2 + i * 2 ≤ k → k < u + 2 + (i + n) * 2 →
        k < b.bit_eof ∧ k < b2.bit_eof ∧ byte b k = byte b2 k) →
      ∃ ws, t1_words b u n i = .ok ws ∧ t1_words b2 u n i = .ok ws := by
  have hM : BITSTREAM_MAX = 122880000 := by decide
  intro n
  induction n with
  | zero => intro i _; exact ⟨[], rfl, rfl⟩
  | succ n ih =>
    intro i h
    obtain ⟨ws, hws, hws2⟩ := ih (i + 1) (fun k h1 h2 => h k (by omega) (by omega))
    have e : u32 (u + 2 + i * 2) = u + 2 + i * 2 :=
      u32_of_lt (by have := h (u + 2 + i * 2) (by omega) (by omega); omega)
    obtain ⟨v, hv, hv2⟩ := be16_window b b2 (u + 2 + i * 2)
      (fun k h1 h2 => h k (by omega) (by omega))
    refine ⟨v :: ws, ?_, ?_⟩
    · simp [t1_words, e, hv, hws, bind, Except.bind, pure, Except.pure]
    · simp [t1_words, e, hv2, hws2, bind, Except.bind, pure, Except.pure]

/-- The decoders that insist on one payload word read that word only. -/
theorem t1_one_word_window (b b2 : Bitstream) (u hdr wc : Nat) (P : Err → Prop)
    (hP : ∀ e, e.isOob = false → P e) (hmax : b.bit_eof < BITSTREAM_MAX)
    (hw : ∀ k, u + 2 ≤ k → k < u + 2 + 2 * wc →
      k < b.bit_eof ∧ k < b2.bit_eof ∧ byte b k = byte b2 k) :
    (t1_cmd b u hdr wc = t1_cmd b2 u hdr wc ∧ Raises (t1_cmd b u hdr wc) P) ∧
    (t1_flr b u hdr wc = t1_flr b2 u hdr wc ∧ Raises (t1_flr b u hdr wc) P) ∧
    (t1_cor1 b u hdr wc = t1_cor1 b2 u hdr wc ∧ Raises (t1_cor1 b u hdr wc) P) ∧
    (t1_cor2 b u hdr wc = t1_cor2 b2 u hdr wc ∧ Raises (t1_cor2 b u hdr wc) P) ∧
    (t1_ctl b u hdr wc = t1_ctl b2 u hdr wc ∧ Raises (t1_ctl b u hdr wc) P) ∧
    (t1_mask b u hdr wc = t1_mask b2 u hdr wc ∧ Raises (t1_mask b u hdr wc) P) ∧
    (t1_pwrdn_reg b u hdr wc = t1_pwrdn_reg b2 u hdr wc ∧
      Raises (t1_pwrdn_reg b u hdr wc) P) ∧
    (t1_hc_opt_reg b u hdr wc = t1_hc_opt_reg b2 u hdr wc ∧
      Raises (t1_hc_opt_reg b u hdr wc) P) := by
  have hM : BITSTREAM_MAX = 122880000 := by decide
  by_cases h : wc = 1
  · subst h
    have e : u32 (u + 2) = u + 2 :=
      u32_of_lt (by have := hw (u + 2) (by omega) (by omega); omega)
    obtain ⟨v, hv, hv2⟩ := be16_window b b2 (u + 2) (fun k h1 h2 => hw k h1 (by omega))
    unfold t1_cmd t1_flr t1_cor1 t1_cor2 t1_ctl t1_mask t1_pwrdn_reg t1_hc_opt_reg
    simp only [e, hv, hv2]
    refine ⟨⟨trivial, ?_⟩, ⟨trivial, ?_⟩, ⟨trivial, ?_⟩, ⟨trivial, ?_⟩, ⟨trivial, ?_⟩,
      ⟨trivial, ?_⟩, ⟨trivial, ?_⟩, ⟨trivial, ?_⟩⟩ <;>
    repeat' (first | with_reducible apply raises_bind | with_reducible apply raises_ite
                          | with_reducible apply raises_pure | with_reducible apply raises_ok
                          | ((with_reducible apply raises_throw); apply hP; rfl) | intro _
                          | fail_if_no_progress beta_reduce | split)
  · have hne : ∀ c : Bitstream,
        t1_cmd c u hdr wc = .error (.wordcount "CMD" u hdr wc) ∧
        t1_flr c u hdr wc = .error (.wordcount "FLR" u hdr wc) ∧
        t1_cor1 c u hdr wc = .error (.wordcount "COR1" u hdr wc) ∧
        t1_cor2 c u hdr wc = .error (.wordcount "COR2" u hdr wc) ∧
        t1_ctl c u hdr wc = .error (.wordcount "CTL" u hdr wc) ∧
        t1_mask c u hdr wc = .error (.wordcount "MASK" u hdr wc) ∧
        t1_pwrdn_reg c u hdr wc = .error (.wordcount "PWRDN_REG" u hdr wc) ∧
        t1_hc_opt_reg c u hdr wc = .error (.wordcount "HC_OPT_REG" u hdr wc) := by
      intro c
      simp [t1_cmd, t1_flr, t1_cor1, t1_cor2, t1_ctl, t1_mask, t1_pwrdn_reg, t1_hc_opt_reg, h,
        bind, Except.bind, throw, throwThe, MonadExceptOf.throw]
    obtain ⟨a1, a2, a3, a4, a5, a6, a7, a8⟩ := hne b
    obtain ⟨c1, c2, c3, c4, c5, c6, c7, c8⟩ := hne b2
    rw [a1, a2, a3, a4, a5, a6, a7, a8, c1, c2, c3, c4, c5, c6, c7, c8]
    refine ⟨⟨rfl, ?_⟩, ⟨rfl, ?_⟩, ⟨rfl, ?_⟩, ⟨rfl, ?_⟩, ⟨rfl, ?_⟩, ⟨rfl, ?_⟩, ⟨rfl, ?_⟩,
      ⟨rfl, ?_⟩⟩ <;> exact raises_error _ _ (hP _ (by rfl))

/-- IDCODE and MFWR read the two and the four payload words they insist on. -/
theorem t1_dword_window (b b2 : Bitstream) (u hdr wc : Nat) (P : Err → Prop)
    (hP : ∀ e, e.isOob = false → P e) (hmax : b.bit_eof < BITSTREAM_MAX)
    (hw : ∀ k, u + 2 ≤ k → k < u + 2 + 2 * wc →
      k < b.bit_eof ∧ k < b2.bit_eof ∧ byte b k = byte b2 k) :
    (t1_idcode b u hdr wc = t1_idcode b2 u hdr wc ∧ Raises (t1_idcode b u hdr wc) P) ∧
    (t1_mfwr b u hdr wc = t1_mfwr b2 u hdr wc ∧ Raises (t1_mfwr b u hdr wc) P) := by
  have hM : BITSTREAM_MAX = 122880000 := by decide
  constructor
  · by_cases h : wc = 2
    · subst h
      have e : u32 (u + 2) = u + 2 :=
        u32_of_lt (by have := hw (u + 2) (by omega) (by omega); omega)
      obtain ⟨v, hv, hv2⟩ := be32_window b b2 (u + 2) (fun k h1 h2 => hw k h1 (by omega))
      unfold t1_idcode
      simp only [e, hv, hv2]
      refine ⟨trivial, ?_⟩
      repeat' (first | with_reducible apply raises_bind | with_reducible apply raises_ite
                            | with_reducible apply raises_pure | with_reducible apply raises_ok
                            | ((with_reducible apply raises_throw); apply hP; rfl) | intro _
                            | fail_if_no_progress beta_reduce | split)
    · have hne : ∀ c : Bitstream,
          t1_idcode c u hdr wc = .error (.wordcount "IDCODE" u hdr wc) := by
        intro c
        simp [t1_idcode, h, bind, Except.bind, throw, throwThe, MonadExceptOf.throw]
      rw [hne b, hne b2]
      exact ⟨rfl, raises_error _ _ (hP _ (by rfl))⟩
  · by_cases h : wc = 4
    · subst h
      have e : u32 (u + 2) = u + 2 :=
        u32_of_lt (by have := hw (u + 2) (by omega) (by omega); omega)
      have e6 : u32 (u + 6) = u + 6 :=
        u32_of_lt (by have := hw (u + 6) (by omega) (by omega); omega)
      obtain ⟨v, hv, hv2⟩ := be32_window b b2 (u + 2) (fun k h1 h2 => hw k h1 (by omega))
      obtain ⟨w, hw1, hw2⟩ := be32_window b b2 (u + 6)
        (fun k h1 h2 => hw k (by omega) (by omega))
      unfold t1_mfwr
      simp only [e, e6, hv, hv2, hw1, hw2]
      refine ⟨trivial, ?_⟩
      repeat' (first | with_reducible apply raises_bind | with_reducible apply raises_ite
                            | with_reducible apply raises_pure | with_reducible apply raises_ok
                            | ((with_reducible apply raises_throw); apply hP; rfl) | intro _
                            | fail_if_no_progress beta_reduce | split)
    · have hne : ∀ c : Bitstream,
          t1_mfwr c u hdr wc = .error (.wordcount "MFWR" u hdr wc) := by
        intro c
        simp [t1_mfwr, h, bind, Except.bind, throw, throwThe, MonadExceptOf.throw]
      rw [hne b, hne b2]
      exact ⟨rfl, raises_error _ _ (hP _ (by rfl))⟩

/-- FAR_MAJ with two payload words reads these two words. -/
theorem t1_far_maj_window (b b2 : Bitstream) (u : Nat) (P : Err → Prop)
    (hmax : b.bit_eof < BITSTREAM_MAX)
    (hw : ∀ k, u + 2 ≤ k → k < u + 2 + 2 * 2 →
      k < b.bit_eof ∧ k < b2.bit_eof ∧ byte b k = byte b2 k) :
    t1_far_maj b u = t1_far_maj b2 u ∧ Raises (t1_far_maj b u) P := by
  have hM : BITSTREAM_MAX = 122880000 := by decide
  have e : u32 (u + 2) = u + 2 :=
    u32_of_lt (by have := hw (u + 2) (by omega) (by omega); omega)
  have e4 : u32 (u + 4) = u + 4 :=
    u32_of_lt (by have := hw (u + 4) (by omega) (by omega); omega)
  obtain ⟨v, hv, hv2⟩ := be16_window b b2 (u + 2) (fun k h1 h2 => hw k h1 (by omega))
  obtain ⟨w, hw1, hw2⟩ := be16_window b b2 (u + 4)
    (fun k h1 h2 => hw k (by omega) (by omega))
  unfold t1_far_maj
  simp only [e, e4, hv, hv2, hw1, hw2]
  refine ⟨trivial, ?_⟩
  repeat' (first | with_reducible apply raises_bind | with_reducible apply raises_ite
                        | with_reducible apply raises_pure | with_reducible apply raises_ok
                        | intro _ | fail_if_no_progress beta_reduce | split)

/-- The generic dump reads the first `min 8 wc` payload words. -/
theorem t1_generic_window (b b2 : Bitstream) (u reg wc : Nat) (P : Err → Prop)
    (hP : ∀ e, e.isOob = false → P e) (hmax : b.bit_eof < BITSTREAM_MAX)
    (hw : ∀ k, u + 2 ≤ k → k < u + 2 + 2 * wc →
      k < b.bit_eof ∧ k < b2.bit_eof ∧ byte b k = byte b2 k) :
    t1_generic b u reg wc = t1_generic b2 u reg wc ∧ Raises (t1_generic b u reg wc) P := by
  obtain ⟨ws, hws, hws2⟩ := t1_words_window b b2 u hmax (min 8 wc) 0
    (fun k h1 h2 => hw k (by omega) (by omega))
  unfold t1_generic
  simp only [hws, hws2]
  refine ⟨trivial, ?_⟩
  repeat' (first | with_reducible apply raises_bind | with_reducible apply raises_ite
                        | with_reducible apply raises_pure | with_reducible apply raises_ok
                        | ((with_reducible apply raises_throw); apply hP; rfl) | intro _
                        | fail_if_no_progress beta_reduce | split)

theorem reg_name_empty_window (reg : Nat) (P : Err → Prop)
    (hP : ∀ e, e.isOob = false → P e) : Raises (reg_name_empty reg) P := by
  unfold reg_name_empty
  repeat' (first | with_reducible apply raises_bind | with_reducible apply raises_ite
                        | with_reducible apply raises_pure | with_reducible apply raises_ok
                        | ((with_reducible apply raises_throw); apply hP; rfl) | intro _
                        | fail_if_no_progress beta_reduce | split)

/-- The register dispatch reads the payload words only. -/
theorem type1_window (b b2 : Bitstream) (u hdr reg wc : Nat) (P : Err → Prop)
    (hP : ∀ e, e.isOob = false → P e) (hmax : b.bit_eof < BITSTREAM_MAX)
    (hw : ∀ k, u + 2 ≤ k → k < u + 2 + 2 * wc →
      k < b.bit_eof ∧ k < b2.bit_eof ∧ byte b k = byte b2 k) :
    type1 b u hdr reg wc = type1 b2 u hdr reg wc ∧ Raises (type1 b u hdr reg wc) P := by
  obtain ⟨a1, a2, a3, a4, a5, a6, a7, a8⟩ := t1_one_word_window b b2 u hdr wc P hP hmax hw
  obtain ⟨d1, d2⟩ := t1_dword_window b b2 u hdr wc P hP hmax hw
  have g := t1_generic_window b b2 u reg wc P hP hmax hw
  have hn := reg_name_empty_window reg P hP
  unfold type1
  by_cases h2 : wc = 2
  · subst h2
    have f := t1_far_maj_window b b2 u P hmax hw
    constructor
    · rw [a1.1, a2.1, a3.1, a4.1, a5.1, a6.1, a7.1, a8.1, d1.1, d2.1, g.1, f.1]
    · repeat' (first | exact hn | exact a1.2 | exact a2.2 | exact a3.2 | exact a4.2
                            | exact a5.2 | exact a6.2 | exact a7.2 | exact a8.2 | exact d1.2
                            | exact d2.2 | exact g.2 | exact f.2
                            | with_reducible apply raises_bind | with_reducible apply raises_ite
                            | with_reducible apply raises_pure | intro _
                            | fail_if_no_progress beta_reduce)
  · simp only [h2, and_false, if_false]
    constructor
    · rw [a1.1, a2.1, a3.1, a4.1, a5.1, a6.1, a7.1, a8.1, d1.1, d2.1, g.1]
    · repeat' (first | exact hn | exact a1.2 | exact a2.2 | exact a3.2 | exact a4.2
                            | exact a5.2 | exact a6.2 | exact a7.2 | exact a8.2 | exact d1.2
                            | exact d2.2 | exact g.2
                            | with_reducible apply raises_bind | with_reducible apply raises_ite
                            | with_reducible apply raises_pure | intro _
                            | fail_if_no_progress beta_reduce)

/-- C25: the decoder of a type-1 read or write packet whose payload
`[cur + 2, cur + 2 + 2 * wc)` lies in the file reads `bit_data` in that range only. The
register dispatch `type1`, which covers IDCODE, CMD, FLR, COR1, COR2, FAR_MAJ, MFWR, CTL,
MASK, PWRDN_REG, HC_OPT_REG and the generic dump of at most 8 words, gives the same result
(records or error) for every file `b2` that holds the payload range and has the same
bytes in it, whatever the bytes of `b2` in front of and behind the range are and wherever
`b2` ends; and it never fails with a read outside the file. The same holds for the
iteration of the packet loop at such a packet. -/
theorem type1_reads_payload (info : Bool) (b b2 : Bitstream) (cur hdr reg wc : Nat)
    (hmax : b.bit_eof < BITSTREAM_MAX) (hmax2 : b2.bit_eof < BITSTREAM_MAX)
    (hfit : cur + 2 + 2 * wc ≤ b.bit_eof) (hfit2 : cur + 2 + 2 * wc ≤ b2.bit_eof)
    (hagree : ∀ k, cur + 2 ≤ k → k < cur + 2 + 2 * wc → byte b k = byte b2 k) :
    type1 b cur hdr reg wc = type1 b2 cur hdr reg wc ∧
    (∀ e, type1 b cur hdr reg wc = .error e → e.isOob = false) ∧
    (T1Packet b cur hdr reg wc →
      (∀ e, packet info b cur = .error e → e.isOob = false) ∧
      (T1Packet b2 cur hdr reg wc → packet info b cur = packet info b2 cur)) := by
  have hw : ∀ k, cur + 2 ≤ k → k < cur + 2 + 2 * wc →
      k < b.bit_eof ∧ k < b2.bit_eof ∧ byte b k = byte b2 k :=
    fun k h1 h2 => ⟨by omega, by omega, hagree k h1 h2⟩
  obtain ⟨heq, hr⟩ := type1_window b b2 cur hdr reg wc (fun e => e.isOob = false)
    (fun _ h => h) hmax hw
  rw [raises_iff] at hr
  refine ⟨heq, hr, ?_⟩
  intro hp
  have p1 := (packet_T1Packet info b cur hdr reg wc hmax hp).2
  rw [if_neg (by omega)] at p1
  constructor
  · intro e he
    rw [p1] at he
    cases ht : type1 b cur hdr reg wc with
    | ok out => rw [ht] at he; cases he
    | error e2 =>
      rw [ht] at he
      cases he
      exact hr _ ht
  · intro hp2
    have p2 := (packet_T1Packet info b2 cur hdr reg wc hmax2 hp2).2
    rw [if_neg (by omega)] at p2
    rw [p1, p2, heq]

theorem type1_reads_payload_witness :
    type1 (Bitstream.ofBytes [0x31, 0xC2, 0x04, 0x00, 0x10, 0x93, 0xAA, 0xBB]) 0 0x31C2
      IDCODE 2 =
    type1 (Bitstream.ofBytes [0x00, 0x00, 0x04, 0x00, 0x10, 0x93]) 0 0x31C2 IDCODE 2 ∧
    type1 (Bitstream.ofBytes [0x31, 0xC2, 0x04, 0x00, 0x10, 0x93, 0xAA, 0xBB]) 0 0x31C2
      IDCODE 2 = .ok [Msg.T1_IDCODE "XC6SLX9"] :=
  ⟨(type1_reads_payload false
      (Bitstream.ofBytes [0x31, 0xC2, 0x04, 0x00, 0x10, 0x93, 0xAA, 0xBB])
      (Bitstream.ofBytes [0x00, 0x00, 0x04, 0x00, 0x10, 0x93]) 0 0x31C2 IDCODE 2
      (by decide) (by decide) (by decide) (by decide)
      (by intro k h1 h2; interval_cases k <;> rfl)).1,
    by decide⟩

/-! ## The bit offsets of the parity and the data strings -/

/-- C26: the offsets `bit_off` of the 8 parity strings (`j < 8`, `k < 32`, `l < 8`) are
below `18432 = 2304 * 8`, congruent to 0 or 1 modulo 18, and pairwise distinct; the
offsets of the 32 data strings (`j < 32`) are congruent to a value from 2 to 17 modulo
18 and pairwise distinct; so no offset of a parity string is an offset of a data
string. -/
theorem bit_offsets_apart :
    (2304 * 8 = 18432) ∧
    (∀ j k l, j < 8 → k < 32 → l < 8 →
      bit_off true j k l < 18432 ∧
      (bit_off true j k l % 18 = 0 ∨ bit_off true j k l % 18 = 1)) ∧
    (∀ j k l j2 k2 l2, j < 8 → k < 32 → l < 8 → j2 < 8 → k2 < 32 → l2 < 8 →
      bit_off true j k l = bit_off true j2 k2 l2 → j = j2 ∧ k = k2 ∧ l = l2) ∧
    (∀ j k l, j < 32 → k < 32 → l < 8 →
      2 ≤ bit_off false j k l % 18 ∧ bit_off false j k l % 18 ≤ 17) ∧
    (∀ j k l j2 k2 l2, j < 8 → k < 32 → l < 8 → j2 < 32 → k2 < 32 → l2 < 8 →
      bit_off true j k l ≠ bit_off false j2 k2 l2) ∧
    (∀ j k l j2 k2 l2, j < 32 → k < 32 → l < 8 → j2 < 32 → k2 < 32 → l2 < 8 →
      bit_off false j k l = bit_off false j2 k2 l2 → j = j2 ∧ k = k2 ∧ l = l2) := by
  refine ⟨rfl, ?_, ?_, ?_, ?_, ?_⟩
  · intro j k l hj hk hl
    rw [bit_off_parity j k l (by omega) hk hl]
    omega
  · intro j k l j2 k2 l2 hj hk hl hj2 hk2 hl2 h
    rw [bit_off_parity j k l (by omega) hk hl, bit_off_parity j2 k2 l2 (by omega) hk2 hl2] at h
    omega
  · intro j k l hj hk hl
    rw [bit_off_data j k l hj hk hl]
    rcases Nat.mod_two_eq_zero_or_one (31 - k) with hp | hp <;> rw [hp] <;> omega
  · intro j k l j2 k2 l2 hj hk hl hj2 hk2 hl2 h
    rw [bit_off_parity j k l (by omega) hk hl, bit_off_data j2 k2 l2 hj2 hk2 hl2] at h
    rcases Nat.mod_two_eq_zero_or_one (31 - k2) with hp | hp <;> rw [hp] at h <;>
      rcases Nat.mod_two_eq_zero_or_one l with hl2 | hl2 <;> omega
  · intro j k l j2 k2 l2 hj hk hl hj2 hk2 hl2 h
    rw [bit_off_data j k l hj hk hl, bit_off_data j2 k2 l2 hj2 hk2 hl2] at h
    rcases Nat.mod_two_eq_zero_or_one (31 - k) with hp | hp <;>
      rcases Nat.mod_two_eq_zero_or_one (31 - k2) with hp2 | hp2 <;>
      rw [hp, hp2] at h <;> omega

theorem bit_offsets_apart_witness :
    bit_off true 7 31 7 < 18432 ∧ bit_off true 0 0 0 ≠ bit_off false 0 0 0 :=
  ⟨(bit_offsets_apart.2.1 7 31 7 (by decide) (by decide) (by decide)).1,
    bit_offsets_apart.2.2.2.2.1 0 0 0 0 0 0 (by decide) (by decide) (by decide) (by decide)
      (by decide) (by decide)⟩

/-! ## The count and the cursor of a type-2 packet, with the frames in the file -/

end Bit2txt
